import Mathlib

/-!
# CloudCart: the order service and the token checks of the auth service

A shallow embedding of `services/order-service/src/controllers/order.controller.js`
(`createOrder`, `updateOrderStatus`, `listOrders`, `getOrderAnalytics`), of
`config/rabbitmq.js` (`publishEvent` and the callback of `consumeEvents`), of
`middleware/errorHandler.js` and of the validation chains of
`routes/order.routes.js`; and, of the auth service, of the password rule of
`routes/auth.routes.js`, of `validateToken`, `logout`, `authenticate` and the
token blacklist of `config/redis.js`.

Conventions of the embedding:

* The numbers of a request body are the decimals of its JSON text (`ℚ`). The
  body parser turns each into the nearest IEEE-754 double; doubles are
  `JsNumber`, with the operators `+`, `*`, `/`, `>` and `Math.round` rounding
  as JavaScript does. The validators of the routes and the amounts of a new
  order (`orderAmounts`) are computed on these doubles.
* The order documents of `newOrder` carry the four amounts as the exact
  rationals of the same formulas (`Math.round x` is `⌊x + 1/2⌋`); they serve
  the claims on the form and the life of an order, which do not depend on the
  rounding of the arithmetic.
* Statuses are JavaScript strings, as in the controller.
* The order collection is a list of documents in insertion order.
* Faults of the collaborators (the store rejecting `findById` or `save`, the
  broker channel raising inside `channel.publish`) are inputs of each call,
  gathered in `Env`.
* Each handler is given twice: as a function on the world, and as the list of
  its completed effects in source order; the two are proved to agree.
-/

set_option exponentiation.threshold 4096

namespace CloudCart

/-! ## Data model -/

/-- An item of the request body of `POST /orders`; the two numbers are the
decimals written in the JSON text. -/
structure ItemInput where
  productId : String
  productName : String
  sku : String
  quantity : ℚ
  unitPrice : ℚ
deriving DecidableEq

/-- A processed item: the object `{ ...item, totalPrice }` of `createOrder`. -/
structure OrderItem extends ItemInput where
  totalPrice : ℚ
deriving DecidableEq

/-- A postal address of the request body. -/
structure Address where
  street : String
  city : String
  state : String
  zipCode : String
  country : String
deriving DecidableEq

/-- An entry of `statusHistory` as the controller writes it: `{ status, note }`. -/
structure StatusEntry where
  status : String
  note : String
deriving DecidableEq

/-- An order document. -/
structure Order where
  id : String
  orderNumber : String
  userId : String
  items : List OrderItem
  shippingAddress : Address
  billingAddress : Address
  paymentMethod : Option String
  subtotal : ℚ
  taxAmount : ℚ
  shippingCost : ℚ
  totalAmount : ℚ
  notes : Option String
  status : String
  paymentStatus : String
  statusHistory : List StatusEntry
deriving DecidableEq

/-- An error object travelling through `catch (err) { next(err) }`. -/
structure JsError where
  name : String
  message : String
deriving DecidableEq

/-- The `data` argument of `publishEvent` at its two call sites. -/
inductive EventData where
  | orderCreated (orderId orderNumber userId : String) (totalAmount : ℚ)
      (items : List OrderItem)
  | orderUpdated (orderId orderNumber status : String)
deriving DecidableEq

/-- The JSON message `publishEvent` hands to `channel.publish`. -/
structure Envelope where
  event : String
  data : EventData
  timestamp : String
  service : String
deriving DecidableEq

/-- The state the handlers act on: the order collection, whether the
module-level `channel` of `rabbitmq.js` is set, and the messages published on
the `order.events` exchange so far. -/
structure World where
  orders : List Order
  channel : Bool
  published : List Envelope
deriving DecidableEq

/-- What one handler call gets from its collaborators. `findErr`, `saveErr`
and `publishErr` are the errors raised by `Order.findById`, `order.save` and
`channel.publish` (none when the call goes through); `now` is
`new Date().toISOString()`; `newId`, `newOrderNumber` and
`defaultPaymentStatus` are what the Order model assigns to a new document. -/
structure Env where
  findErr : Option JsError
  saveErr : Option JsError
  publishErr : Option JsError
  now : String
  newId : String
  newOrderNumber : String
  defaultPaymentStatus : String
deriving DecidableEq

/-- The JSON bodies the two handlers send. -/
inductive Body where
  | error (error message : String)
  | orderCreated (message : String) (order : Order)
  | orderUpdated (message : String) (order : Order)
deriving DecidableEq

/-- How a handler call ends: `res.status(code).json(body)` or `next(err)`. -/
inductive Response where
  | json (code : Nat) (body : Body)
  | next (err : JsError)
deriving DecidableEq

/-- The request body of `POST /orders`. -/
structure CreateBody where
  userId : String
  items : List ItemInput
  shippingAddress : Address
  billingAddress : Option Address
  paymentMethod : Option String
  notes : Option String
deriving DecidableEq

/-! ## Store and broker -/

/-- Lookup of `Order.findById(id)`: the stored document with that id, if any. -/
def findById (orders : List Order) (id : String) : Option Order :=
  orders.find? (fun o => o.id == id)

/-- Write-back of `order.save()` for a loaded document: the stored document
with the same id is replaced. -/
def saveExisting (orders : List Order) (order : Order) : List Order :=
  orders.map (fun o => if o.id == order.id then order else o)

/-- Error of the store when a unique index is violated. -/
def duplicateKeyError : JsError :=
  { name := "MongoServerError", message := "E11000 duplicate key error" }

/-- Write of `order.save()` for a new document. The `_id` index and the unique
`orderNumber` index of `scripts/init-db/mongo/01-init.js` reject a duplicate. -/
def saveNew (orders : List Order) (order : Order) : Except JsError (List Order) :=
  if orders.any (fun o => o.id == order.id || o.orderNumber == order.orderNumber) then
    .error duplicateKeyError
  else
    .ok (orders ++ [order])

/-- Embedding of `publishEvent(routingKey, data)` of `config/rabbitmq.js`:
nothing happens without a channel; otherwise the envelope goes to
`channel.publish`, whose exception (if any) propagates. -/
def publishEvent (env : Env) (w : World) (routingKey : String) (data : EventData) :
    Except JsError World :=
  if !w.channel then .ok w
  else
    let message : Envelope :=
      { event := routingKey, data := data, timestamp := env.now, service := "order-service" }
    match env.publishErr with
    | some e => .error e
    | none => .ok { w with published := w.published ++ [message] }

/-! ## Status transitions -/

/-- The object literal `validTransitions` of `updateOrderStatus`. -/
def validTransitions : List (String × List String) :=
  [ ("pending", ["confirmed", "cancelled"]),
    ("confirmed", ["processing", "cancelled"]),
    ("processing", ["shipped", "cancelled"]),
    ("shipped", ["delivered"]),
    ("delivered", ["refunded"]),
    ("cancelled", []),
    ("refunded", []) ]

/-- The test `validTransitions[from]?.includes(to)`; a status without an entry
gives `undefined`, which the `!` of the guard treats as false. The stored
status is one of the seven keys of the table (the `status` enum of the data
model); names that a JavaScript object inherits, such as `constructor`, are
not statuses and are outside this embedding. -/
def transitionAllowed (src dst : String) : Bool :=
  match validTransitions.lookup src with
  | some targets => targets.contains dst
  | none => false

/-- The expression ``note || `Status changed to ${status}` ``: an absent note
and the empty string are both falsy. -/
def noteOrDefault (note : Option String) (status : String) : String :=
  match note with
  | some n => if n = "" then "Status changed to " ++ status else n
  | none => "Status changed to " ++ status

/-- Lines 145-150 of the controller: the mutation of the loaded document. -/
def applyStatus (order : Order) (status : String) (note : Option String) : Order :=
  let order := { order with
    status := status
    statusHistory := order.statusHistory ++ [{ status := status, note := noteOrDefault note status }] }
  if status = "cancelled" ∨ status = "refunded" then
    { order with paymentStatus := if status = "refunded" then "refunded" else order.paymentStatus }
  else order

/-- The 404 answer of the handlers. -/
def notFound : Response :=
  .json 404 (.error "Not Found" "Order not found")

/-- The 400 answer of `updateOrderStatus` to a transition outside the table. -/
def invalidTransition (src dst : String) : Response :=
  .json 400 (.error "Bad Request" ("Cannot transition from '" ++ src ++ "' to '" ++ dst ++ "'"))

/-- Embedding of `exports.updateOrderStatus`, with `id = req.params.id` and
`{ status, note } = req.body`. -/
def updateOrderStatus (env : Env) (w : World) (id status : String) (note : Option String) :
    Response × World :=
  match env.findErr with
  | some e => (.next e, w)
  | none =>
    match findById w.orders id with
    | none => (notFound, w)
    | some order =>
      if !transitionAllowed order.status status then
        (invalidTransition order.status status, w)
      else
        let order := applyStatus order status note
        match env.saveErr with
        | some e => (.next e, w)
        | none =>
          let w := { w with orders := saveExisting w.orders order }
          match publishEvent env w "order.updated"
              (.orderUpdated order.id order.orderNumber status) with
          | .error e => (.next e, w)
          | .ok w => (.json 200 (.orderUpdated "Order status updated" order), w)

/-! ## Order creation -/

/-- The function `Math.round`: the nearest integer, a tie going up. -/
def mathRound (x : ℚ) : ℚ :=
  ((⌊x + 1 / 2⌋ : ℤ) : ℚ)

/-- Modelled from the spec: the Order schema (`models/order.model.js`) is not
among the sources; `createOrder` leaves `status` to the schema default, which
the spec gives as `pending` ("sets `status=pending`"). -/
def defaultStatus : String := "pending"

/-- Lines 14-37 of the controller: the totals and the document handed to
`new Order`. The four amounts are the exact rationals of the formulas of
lines 15-23; the doubles the code computes for them are `orderAmounts`. -/
def newOrder (env : Env) (body : CreateBody) : Order :=
  let processedItems : List OrderItem := body.items.map (fun item =>
    { toItemInput := item, totalPrice := item.quantity * item.unitPrice })
  let subtotal : ℚ := processedItems.foldl (fun sum item => sum + item.totalPrice) 0
  let taxAmount : ℚ := mathRound (subtotal * 0.08 * 100) / 100
  let shippingCost : ℚ := if subtotal > 50 then 0 else 9.99
  let totalAmount : ℚ := subtotal + taxAmount + shippingCost
  { id := env.newId
    orderNumber := env.newOrderNumber
    userId := body.userId
    items := processedItems
    shippingAddress := body.shippingAddress
    billingAddress := body.billingAddress.getD body.shippingAddress
    paymentMethod := body.paymentMethod
    subtotal := subtotal
    taxAmount := taxAmount
    shippingCost := shippingCost
    totalAmount := totalAmount
    notes := body.notes
    status := defaultStatus
    paymentStatus := env.defaultPaymentStatus
    statusHistory := [{ status := "pending", note := "Order created" }] }

/-- Embedding of `exports.createOrder`, with `body = req.body`. -/
def createOrder (env : Env) (w : World) (body : CreateBody) : Response × World :=
  let order := newOrder env body
  match env.saveErr with
  | some e => (.next e, w)
  | none =>
    match saveNew w.orders order with
    | .error e => (.next e, w)
    | .ok orders =>
      let w := { w with orders := orders }
      match publishEvent env w "order.created"
          (.orderCreated order.id order.orderNumber order.userId order.totalAmount
            order.items) with
      | .error e => (.next e, w)
      | .ok w => (.json 201 (.orderCreated "Order created successfully" order), w)

/-! ## Sequences of status updates -/

/-- One `PATCH /orders/:id/status` request with what its collaborators do. -/
structure StatusCall where
  env : Env
  id : String
  status : String
  note : Option String
deriving DecidableEq

/-- A call succeeded when it was answered with a 2xx status. -/
def Response.isSuccess : Response → Bool
  | .json code _ => decide (200 ≤ code ∧ code < 300)
  | .next _ => false

/-- The world after a sequence of status updates, applied left to right. -/
def runUpdates (w : World) : List StatusCall → World
  | [] => w
  | c :: cs => runUpdates (updateOrderStatus c.env w c.id c.status c.note).2 cs

/-- The number of calls of the sequence that address order `id` and succeed. -/
def successCount (id : String) (w : World) : List StatusCall → Nat
  | [] => 0
  | c :: cs =>
    let r := updateOrderStatus c.env w c.id c.status c.note
    (if c.id = id ∧ r.1.isSuccess = true then 1 else 0) + successCount id r.2 cs

/-! ## Sample data -/

/-- A sample address. -/
def sampleAddress : Address :=
  { street := "1 Main St", city := "Springfield", state := "IL", zipCode := "62701",
    country := "US" }

/-- A call environment in which no collaborator fails. -/
def sampleEnv : Env :=
  { findErr := none, saveErr := none, publishErr := none, now := "2024-01-01T00:00:00.000Z",
    newId := "o1", newOrderNumber := "ORD-1", defaultPaymentStatus := "pending" }

/-- A sample order in a given status and payment status. -/
def sampleOrder (status paymentStatus : String) : Order :=
  { id := "o1", orderNumber := "ORD-1", userId := "u1",
    items := [{ productId := "p1", productName := "Mug", sku := "MUG-1", quantity := 2,
                unitPrice := 10, totalPrice := 20 }],
    shippingAddress := sampleAddress, billingAddress := sampleAddress,
    paymentMethod := some "card", subtotal := 20, taxAmount := 1.6, shippingCost := 9.99,
    totalAmount := 31.59, notes := none, status := status, paymentStatus := paymentStatus,
    statusHistory := [{ status := "pending", note := "Order created" }] }

/-- A world holding one order, with the broker channel connected. -/
def sampleWorld (status paymentStatus : String) : World :=
  { orders := [sampleOrder status paymentStatus], channel := true, published := [] }

/-- A create-order body with a single item. -/
def sampleBody (quantity unitPrice : ℚ) : CreateBody :=
  { userId := "u1",
    items := [{ productId := "p1", productName := "Mug", sku := "MUG-1", quantity := quantity,
                unitPrice := unitPrice }],
    shippingAddress := sampleAddress, billingAddress := none, paymentMethod := some "card",
    notes := none }

/-- The empty world: no order stored, broker channel connected. -/
def emptyWorld : World :=
  { orders := [], channel := true, published := [] }

/-- Four status requests on order `o1`: a legal one, the same one again (now
illegal), one for an unknown order, and another legal one. -/
def sampleCalls : List StatusCall :=
  [ { env := sampleEnv, id := "o1", status := "confirmed", note := none },
    { env := sampleEnv, id := "o1", status := "confirmed", note := none },
    { env := sampleEnv, id := "o2", status := "confirmed", note := none },
    { env := sampleEnv, id := "o1", status := "processing", note := some "picked" } ]

/-- Two request items: 2 at 10 and 3 at 1.5. -/
def twoItemsBody : CreateBody :=
  { userId := "u1",
    items := [{ productId := "p1", productName := "Mug", sku := "MUG-1", quantity := 2,
                unitPrice := 10 },
              { productId := "p2", productName := "Pen", sku := "PEN-1", quantity := 3,
                unitPrice := 1.5 }],
    shippingAddress := sampleAddress, billingAddress := none, paymentMethod := some "card",
    notes := none }

/-! ## The transition table of the specification -/

/-- The seven order statuses of the data model. -/
def statuses : List String :=
  ["pending", "confirmed", "processing", "shipped", "delivered", "cancelled", "refunded"]

/-- The eight pairs of the transition table of the specification (section 4.1). -/
def specTransitionTable : List (String × String) :=
  [ ("pending", "confirmed"), ("pending", "cancelled"),
    ("confirmed", "processing"), ("confirmed", "cancelled"),
    ("processing", "shipped"), ("processing", "cancelled"),
    ("shipped", "delivered"), ("delivered", "refunded") ]

/-! ## JavaScript numbers -/

/-- The number of units in 1: every finite double is a whole number of units
of `2 ^ (-1074)`, the smallest positive double. -/
def doubleUnit : ℕ := 2 ^ 1074

/-- A JavaScript number (an IEEE-754 double): a finite value given by its
number of units of `2 ^ (-1074)`, an infinity, or `NaN`. The sign of zero is
not kept: `-0` and `0` are equal under every comparison and give the same
result in every operation of the controller. -/
inductive JsNumber where
  | finite (units : ℤ)
  | infinity (negative : Bool)
  | nan
deriving DecidableEq

/-- The integer nearest to `num / den`, a tie going to the even one. -/
def roundHalfEven (num den : ℕ) : ℕ :=
  let f := num / den
  let r := num % den
  if 2 * r < den then f else if den < 2 * r then f + 1 else if f % 2 = 0 then f else f + 1

/-- One step of the bisection of `floorLog2`: `p.1` loses its `k` low binary
digits, counted in `p.2`, when it has more than `k` digits. -/
def log2Step (p : ℕ × ℕ) (k : ℕ) : ℕ × ℕ :=
  if 2 ^ k ≤ p.1 then (p.1 / 2 ^ k, p.2 + k) else p

/-- The position of the leading binary digit of `n` (the integer part of its
binary logarithm), for `0 < n < 2 ^ 4096`, found by bisection. -/
def floorLog2 (n : ℕ) : ℕ :=
  (List.foldl log2Step (n, 0) [2048, 1024, 512, 256, 128, 64, 32, 16, 8, 4, 2, 1]).2

/-- Rounding to the nearest double, a tie going to the even significand: the
number of units of the double nearest to `num / den` units. Below `2 ^ 53`
units the doubles are one unit apart (the subnormal numbers and the first
binade); from there on a double has 53 significant binary digits. -/
def roundToDouble (num den : ℕ) : ℕ :=
  let a := num / den
  if a < 2 ^ 53 then roundHalfEven num den
  else
    let e := floorLog2 a - 52
    roundHalfEven num (den * 2 ^ e) * 2 ^ e

/-- The double nearest to `num / den` units, with the given sign; a magnitude
that reaches `2 ^ 1024` (before or after rounding) overflows to an infinity. -/
def JsNumber.ofUnits (negative : Bool) (num den : ℕ) : JsNumber :=
  if 2 ^ 2098 ≤ num / den then .infinity negative
  else
    let k := roundToDouble num den
    if 2 ^ 2098 ≤ k then .infinity negative
    else .finite (if negative then -(k : ℤ) else (k : ℤ))

/-- The Number value of the decimal literal `digits * 10 ^ (-scale)`. -/
def JsNumber.ofDecimal (digits : ℤ) (scale : ℕ) : JsNumber :=
  .ofUnits (decide (digits < 0)) (digits.natAbs * doubleUnit) (10 ^ scale)

/-- The Number value of a number of a JSON text, as `express.json()` delivers
it: the nearest double. -/
def JsNumber.ofRat (q : ℚ) : JsNumber :=
  .ofUnits (decide (q < 0)) (q.num.natAbs * doubleUnit) q.den

/-- The exact value of a finite JavaScript number. -/
def JsNumber.toRat : JsNumber → Option ℚ
  | .finite k => some ((k : ℚ) / (doubleUnit : ℚ))
  | _ => none

/-- The operator `+` on numbers. -/
def JsNumber.add : JsNumber → JsNumber → JsNumber
  | .finite a, .finite b => .ofUnits (decide (a + b < 0)) (a + b).natAbs 1
  | .finite _, .infinity s => .infinity s
  | .infinity s, .finite _ => .infinity s
  | .infinity s, .infinity t => if s = t then .infinity s else .nan
  | _, _ => .nan

/-- The operator `*` on numbers. -/
def JsNumber.mul : JsNumber → JsNumber → JsNumber
  | .finite a, .finite b => .ofUnits (decide (a * b < 0)) (a * b).natAbs doubleUnit
  | .finite a, .infinity s => if a = 0 then .nan else .infinity (decide (a < 0) != s)
  | .infinity s, .finite b => if b = 0 then .nan else .infinity (s != decide (b < 0))
  | .infinity s, .infinity t => .infinity (s != t)
  | _, _ => .nan

/-- The operator `/` on numbers. A zero divisor is taken as `+0`. -/
def JsNumber.div : JsNumber → JsNumber → JsNumber
  | .finite a, .finite b =>
    if b = 0 then (if a = 0 then .nan else .infinity (decide (a < 0)))
    else .ofUnits (decide (a < 0) != decide (b < 0)) (a.natAbs * doubleUnit) b.natAbs
  | .finite _, .infinity _ => .finite 0
  | .infinity s, .finite b => .infinity (s != decide (b < 0))
  | _, _ => .nan

/-- The function `Math.round`: the nearest integer, a tie going up; an
infinity and `NaN` are returned as they are. -/
def JsNumber.round : JsNumber → JsNumber
  | .finite k => .finite ((2 * k + doubleUnit) / (2 * doubleUnit) * doubleUnit)
  | x => x

/-- The operator `>` on numbers; a comparison with `NaN` is false. -/
def JsNumber.gt : JsNumber → JsNumber → Bool
  | .finite a, .finite b => decide (b < a)
  | .finite _, .infinity s => s
  | .infinity s, .finite _ => !s
  | .infinity s, .infinity t => !s && t
  | _, _ => false

/-- Whether a number is finite and lies within half a cent of `cents / 100`. -/
def JsNumber.roundsToCents (x : JsNumber) (cents : ℤ) : Bool :=
  match x with
  | .finite k => decide (2 * |100 * k - cents * doubleUnit| < doubleUnit)
  | _ => false

/-! ## The amounts of a new order in double precision -/

/-- An item of the request body as the controller receives it: the numbers of
the JSON text have become doubles. -/
structure JsItem where
  productId : String
  productName : String
  sku : String
  quantity : JsNumber
  unitPrice : JsNumber
deriving DecidableEq

/-- A processed item with its numbers as doubles: `{ ...item, totalPrice }`. -/
structure JsOrderItem extends JsItem where
  totalPrice : JsNumber
deriving DecidableEq

/-- The body parser on an item. -/
def parseItem (it : ItemInput) : JsItem :=
  { productId := it.productId, productName := it.productName, sku := it.sku,
    quantity := .ofRat it.quantity, unitPrice := .ofRat it.unitPrice }

/-- The items and amounts `createOrder` hands to `new Order`. -/
structure JsAmounts where
  processedItems : List JsOrderItem
  subtotal : JsNumber
  taxAmount : JsNumber
  shippingCost : JsNumber
  totalAmount : JsNumber
deriving DecidableEq

/-- Lines 15-18 of the controller: each item with its `totalPrice`, the
product `item.quantity * item.unitPrice`. -/
def jsProcessedItems (items : List JsItem) : List JsOrderItem :=
  items.map (fun item => { toJsItem := item, totalPrice := item.quantity.mul item.unitPrice })

/-- Line 20 of the controller:
`processedItems.reduce((sum, item) => sum + item.totalPrice, 0)`. -/
def jsSubtotal (processedItems : List JsOrderItem) : JsNumber :=
  processedItems.foldl (fun sum item => sum.add item.totalPrice) (.ofDecimal 0 0)

/-- The product `subtotal * 0.08 * 100` of line 21, before `Math.round`. -/
def taxProduct (subtotal : JsNumber) : JsNumber :=
  (subtotal.mul (.ofDecimal 8 2)).mul (.ofDecimal 100 0)

/-- Line 21 of the controller: `Math.round(subtotal * 0.08 * 100) / 100`. -/
def jsTaxAmount (subtotal : JsNumber) : JsNumber :=
  (taxProduct subtotal).round.div (.ofDecimal 100 0)

/-- Line 22 of the controller: `subtotal > 50 ? 0 : 9.99`. -/
def jsShippingCost (subtotal : JsNumber) : JsNumber :=
  if subtotal.gt (.ofDecimal 50 0) then .ofDecimal 0 0 else .ofDecimal 999 2

/-- Line 23 of the controller: `subtotal + taxAmount + shippingCost`. -/
def jsTotalAmount (subtotal taxAmount shippingCost : JsNumber) : JsNumber :=
  (subtotal.add taxAmount).add shippingCost

/-- Lines 15-23 of the controller in the arithmetic of JavaScript, on the
items of `req.body`. -/
def jsAmounts (items : List JsItem) : JsAmounts :=
  let processedItems := jsProcessedItems items
  let subtotal := jsSubtotal processedItems
  let taxAmount := jsTaxAmount subtotal
  let shippingCost := jsShippingCost subtotal
  let totalAmount := jsTotalAmount subtotal taxAmount shippingCost
  { processedItems := processedItems, subtotal := subtotal, taxAmount := taxAmount,
    shippingCost := shippingCost, totalAmount := totalAmount }

/-- The items and amounts `createOrder` computes for a request body: the body
parser on the items, then lines 15-23. -/
def orderAmounts (body : CreateBody) : JsAmounts :=
  jsAmounts (body.items.map parseItem)

/-! ## Request validation of `POST /orders` -/

/-- The path of a validated field: a field of the body, or `items[index].name`. -/
inductive FieldPath where
  | top (name : String)
  | item (index : Nat) (name : String)
deriving DecidableEq

/-- One entry of `validationResult(req)`: the field and the message. -/
structure ValidationIssue where
  field : FieldPath
  message : String
deriving DecidableEq

/-- The validator `notEmpty()` on a string field. -/
def notEmpty (s : String) : Bool :=
  s != ""

/-- The validator `isInt({ min })` of validator.js on a number of the body.
express-validator hands it `String(value)`; the pattern `/^[-+]?[0-9]+$/`
matches that text exactly when the value is a finite whole number of
magnitude below `10 ^ 21` (from `10 ^ 21` on `String` writes the exponent form,
`1e+21`), and the number must not be below `min`. -/
def isInt (q : ℚ) (min : ℤ) : Bool :=
  match JsNumber.ofRat q with
  | .finite k =>
    decide ((doubleUnit : ℤ) ∣ k) && decide (k.natAbs < 10 ^ 21 * doubleUnit) &&
      decide (min * (doubleUnit : ℤ) ≤ k)
  | _ => false

/-- The validator `isFloat({ min })` of validator.js on a number of the body:
`String(value)` of every finite number matches the float pattern, `Infinity`
does not, and the number must not be below `min`. -/
def isFloat (q : ℚ) (min : ℤ) : Bool :=
  match JsNumber.ofRat q with
  | .finite k => decide (min * (doubleUnit : ℤ) ≤ k)
  | _ => false

/-- A wildcard chain `body('items.*.name')` with one validator and no
`withMessage`: one issue for each item the validator rejects. -/
def checkItems (name : String) (ok : ItemInput → Bool) (items : List ItemInput) :
    List ValidationIssue :=
  (items.enum.filter (fun p => !ok p.2)).map
    (fun p => { field := .item p.1 name, message := "Invalid value" })

/-- A chain on a single string field with `notEmpty()`. -/
def checkNotEmpty (name : String) (message : String) (value : String) :
    List ValidationIssue :=
  if notEmpty value then [] else [{ field := .top name, message := message }]

/-- The validation chains of `router.post('/orders', ...)` of
`routes/order.routes.js`, in their order. The typed body makes
`shippingAddress` an object, so `isObject()` holds. -/
def validateCreateOrder (body : CreateBody) : List ValidationIssue :=
  checkNotEmpty "userId" "User ID is required" body.userId ++
  (if 1 ≤ body.items.length then []
    else [{ field := .top "items", message := "At least one item is required" }]) ++
  checkItems "productId" (fun it => notEmpty it.productId) body.items ++
  checkItems "productName" (fun it => notEmpty it.productName) body.items ++
  checkItems "sku" (fun it => notEmpty it.sku) body.items ++
  checkItems "quantity" (fun it => isInt it.quantity 1) body.items ++
  checkItems "unitPrice" (fun it => isFloat it.unitPrice 0) body.items ++
  checkNotEmpty "shippingAddress.street" "Invalid value" body.shippingAddress.street ++
  checkNotEmpty "shippingAddress.city" "Invalid value" body.shippingAddress.city ++
  checkNotEmpty "shippingAddress.state" "Invalid value" body.shippingAddress.state ++
  checkNotEmpty "shippingAddress.zipCode" "Invalid value" body.shippingAddress.zipCode ++
  checkNotEmpty "shippingAddress.country" "Invalid value" body.shippingAddress.country

/-- How a request to a route ends: the answer of the validation middleware, or
what the controller does. -/
inductive RouteResponse where
  | validationError (code : Nat) (error : String) (details : List ValidationIssue)
  | handled (r : Response)
deriving DecidableEq

/-- Modelled from the spec: `middleware/validate.js` of the order service is
not among the sources. A request that fails validation "fails with
`ValidationError`" and goes no further; the answer is the one the auth
service's middleware of the same name gives,
`res.status(422).json({ error: 'Validation Error', details })`. The result is
`none` when the middleware calls `next()`. -/
def validate (errors : List ValidationIssue) : Option RouteResponse :=
  if errors.isEmpty then none
  else some (.validationError 422 "Validation Error" errors)

/-- The route `POST /orders`: the validation chains, `validate`, then the
controller `createOrder`. -/
def postOrders (env : Env) (w : World) (body : CreateBody) : RouteResponse × World :=
  match validate (validateCreateOrder body) with
  | some r => (r, w)
  | none =>
    let r := createOrder env w body
    (.handled r.1, r.2)

/-! ## Handler runs as sequences of steps -/

/-- A completed effect of a handler on its collaborators: a new document
saved, a loaded document saved, a message handed to `channel.publish`. -/
inductive Step where
  | inserted (order : Order)
  | updated (order : Order)
  | published (msg : Envelope)
deriving DecidableEq

/-- The steps of `publishEvent`, in the order of the source. -/
def publishEventSteps (env : Env) (w : World) (routingKey : String) (data : EventData) :
    List Step :=
  if !w.channel then []
  else
    let message : Envelope :=
      { event := routingKey, data := data, timestamp := env.now, service := "order-service" }
    match env.publishErr with
    | some _ => []
    | none => [.published message]

/-- The steps of `createOrder`, in the order of the source: `await
order.save()` (line 39), then `await publishEvent(...)` (line 42). -/
def createOrderSteps (env : Env) (w : World) (body : CreateBody) : List Step :=
  let order := newOrder env body
  match env.saveErr with
  | some _ => []
  | none =>
    match saveNew w.orders order with
    | .error _ => []
    | .ok orders =>
      .inserted order ::
        publishEventSteps env { w with orders := orders } "order.created"
          (.orderCreated order.id order.orderNumber order.userId order.totalAmount
            order.items)

/-- The steps of `updateOrderStatus`, in the order of the source: `await
order.save()` (line 152), then `await publishEvent(...)` (line 154). -/
def updateOrderStatusSteps (env : Env) (w : World) (id status : String)
    (note : Option String) : List Step :=
  match env.findErr with
  | some _ => []
  | none =>
    match findById w.orders id with
    | none => []
    | some order =>
      if !transitionAllowed order.status status then []
      else
        let order := applyStatus order status note
        match env.saveErr with
        | some _ => []
        | none =>
          .updated order ::
            publishEventSteps env { w with orders := saveExisting w.orders order }
              "order.updated" (.orderUpdated order.id order.orderNumber status)

/-- The effect of one step on the world. -/
def Step.apply (w : World) : Step → World
  | .inserted order => { w with orders := w.orders ++ [order] }
  | .updated order => { w with orders := saveExisting w.orders order }
  | .published msg => { w with published := w.published ++ [msg] }

/-- The world after a sequence of steps. -/
def replay (w : World) (steps : List Step) : World :=
  steps.foldl Step.apply w

/-! ## The published message as JSON -/

/-- A JSON value. -/
inductive JsonValue where
  | null
  | str (s : String)
  | num (q : ℚ)
  | arr (xs : List JsonValue)
  | obj (fields : List (String × JsonValue))

/-- Property access `value.key`: the member of an object, `undefined`
(`none`) when there is none or the value is not an object. -/
def JsonValue.get? (v : JsonValue) (key : String) : Option JsonValue :=
  match v with
  | .obj fields => fields.lookup key
  | _ => none

/-- An item of the order as JSON. -/
def OrderItem.toJson (it : OrderItem) : JsonValue :=
  .obj [("productId", .str it.productId), ("productName", .str it.productName),
    ("sku", .str it.sku), ("quantity", .num it.quantity), ("unitPrice", .num it.unitPrice),
    ("totalPrice", .num it.totalPrice)]

/-- The object literals passed as `data` at lines 42-48 and 154-158 of the
controller. -/
def EventData.toJson : EventData → JsonValue
  | .orderCreated orderId orderNumber userId totalAmount items =>
    .obj [("orderId", .str orderId), ("orderNumber", .str orderNumber),
      ("userId", .str userId), ("totalAmount", .num totalAmount),
      ("items", .arr (items.map OrderItem.toJson))]
  | .orderUpdated orderId orderNumber status =>
    .obj [("orderId", .str orderId), ("orderNumber", .str orderNumber),
      ("status", .str status)]

/-- The object `publishEvent` serialises with `JSON.stringify`
(`rabbitmq.js`, lines 35-40). -/
def Envelope.toJson (m : Envelope) : JsonValue :=
  .obj [("event", .str m.event), ("data", m.data.toJson), ("timestamp", .str m.timestamp),
    ("service", .str m.service)]

/-! ## The event consumer -/

/-- A message delivered on `order.user.events`. `content` is the JSON value
the bytes denote, `none` when the bytes are not valid JSON. -/
structure Message where
  deliveryTag : Nat
  content : Option JsonValue

/-- A line written by ``logger.info(`Received event: ${event.event}`,
event.data)``: the two values read from the parsed message. -/
structure LogEntry where
  level : String
  event : Option JsonValue
  data : Option JsonValue

/-- The state around the consumer: the world of the service, the log and the
delivery tags acknowledged so far. -/
structure Consumer where
  world : World
  log : List LogEntry
  acked : List Nat

/-- The error `JSON.parse` raises on bytes that are not valid JSON. -/
def jsonSyntaxError : JsError :=
  { name := "SyntaxError", message := "Unexpected token in JSON" }

/-- The error of reading a property of `null`. -/
def nullTypeError : JsError :=
  { name := "TypeError", message := "Cannot read properties of null" }

/-- Embedding of the callback given to `channel.consume` in `consumeEvents`
(`rabbitmq.js`, lines 56-62): for a message, parse, log, acknowledge. An
exception leaves the callback before the log line and the `ack`. -/
def consumeHandler (c : Consumer) (msg : Option Message) : Except JsError Consumer :=
  match msg with
  | none => .ok c
  | some m =>
    match m.content with
    | none => .error jsonSyntaxError
    | some .null => .error nullTypeError
    | some event =>
      .ok { c with
        log := c.log ++ [{ level := "info", event := event.get? "event",
                           data := event.get? "data" }]
        acked := c.acked ++ [m.deliveryTag] }

/-- The consumer state after a delivery: the state the callback returns, and
the state before the delivery when the callback raised (nothing was logged or
acknowledged, and the broker keeps the message as unacknowledged). -/
def afterDelivery (c : Consumer) (msg : Option Message) : Consumer :=
  match consumeHandler c msg with
  | .ok c' => c'
  | .error _ => c

/-! ## More sample data -/

/-- A call environment in which `channel.publish` raises. -/
def brokerDownEnv : Env :=
  { sampleEnv with
    publishErr := some { name := "IllegalOperationError", message := "Channel closed" } }

/-- One status request on order `o1`, legal from `pending`, during which
`channel.publish` raises. -/
def brokerDownCalls : List StatusCall :=
  [{ env := brokerDownEnv, id := "o1", status := "confirmed", note := none }]

/-- A world without a broker channel. -/
def noChannelWorld : World :=
  { orders := [sampleOrder "pending" "paid"], channel := false, published := [] }

/-- A consumer state around the sample world. -/
def sampleConsumer : Consumer :=
  { world := sampleWorld "pending" "paid", log := [], acked := [] }

/-- A delivered message whose bytes are not valid JSON. -/
def malformedMessage : Message :=
  { deliveryTag := 7, content := none }

/-- A delivered message carrying a well-formed envelope. -/
def userEventMessage : Message :=
  { deliveryTag := 8,
    content := some (.obj [("event", .str "user.created"),
      ("data", .obj [("userId", .str "u1")]),
      ("timestamp", .str "2024-01-01T00:00:00.000Z"), ("service", .str "auth-service")]) }

/-- Two request items whose products sum to 60: 2 at 12.5 and 7 at 5. -/
def sixtyBody : CreateBody :=
  { userId := "u1",
    items := [{ productId := "p1", productName := "Mug", sku := "MUG-1", quantity := 2,
                unitPrice := 12.5 },
              { productId := "p2", productName := "Pen", sku := "PEN-1", quantity := 7,
                unitPrice := 5 }],
    shippingAddress := sampleAddress, billingAddress := none, paymentMethod := some "card",
    notes := none }

/-- Three request items, one of each, at 32.02, 0.02 and 17.96: 50 in all. -/
def fiftyBody : CreateBody :=
  { userId := "u1",
    items := [{ productId := "p1", productName := "Mug", sku := "MUG-1", quantity := 1,
                unitPrice := 32.02 },
              { productId := "p2", productName := "Pen", sku := "PEN-1", quantity := 1,
                unitPrice := 0.02 },
              { productId := "p3", productName := "Cap", sku := "CAP-1", quantity := 1,
                unitPrice := 17.96 }],
    shippingAddress := sampleAddress, billingAddress := none, paymentMethod := some "card",
    notes := none }

/-- Three request items, one of each, at 51.59, 1.71 and 6.7: 60 in all. -/
def sixtyDecimalBody : CreateBody :=
  { userId := "u1",
    items := [{ productId := "p1", productName := "Mug", sku := "MUG-1", quantity := 1,
                unitPrice := 51.59 },
              { productId := "p2", productName := "Pen", sku := "PEN-1", quantity := 1,
                unitPrice := 1.71 },
              { productId := "p3", productName := "Cap", sku := "CAP-1", quantity := 1,
                unitPrice := 6.7 }],
    shippingAddress := sampleAddress, billingAddress := none, paymentMethod := some "card",
    notes := none }

/-- The number of units of the double 14.499999999999998. -/
def tieProductUnits : ℤ :=
  ((roundToDouble (14499999999999998 * doubleUnit) (10 ^ 15) : ℕ) : ℤ)

/-- A second address, used as a billing address. -/
def billingSample : Address :=
  { street := "9 Side St", city := "Shelbyville", state := "IL", zipCode := "62565",
    country := "US" }

/-- A call environment in which the store rejects `save`. -/
def storeDownEnv : Env :=
  { sampleEnv with
    saveErr := some { name := "MongoNetworkError", message := "connection closed" } }

/-- The message `updateOrderStatus` publishes when the sample order is
confirmed. -/
def confirmedEvent : Envelope :=
  { event := "order.updated", data := .orderUpdated "o1" "ORD-1" "confirmed",
    timestamp := "2024-01-01T00:00:00.000Z", service := "order-service" }

/-! ## The error handler of the order service -/

/-- An error as `errorHandler` reads it: `name`, `message`, `statusCode`
(absent on the errors of the store and of the broker) and `path` (set on a
`CastError`). -/
structure ThrownError where
  name : String
  message : String
  statusCode : Option Nat
  path : String
deriving DecidableEq

/-- An error raised by the store or the broker, as it reaches the error
handler: it carries no `statusCode`. -/
def JsError.thrown (e : JsError) : ThrownError :=
  { name := e.name, message := e.message, statusCode := none, path := "" }

/-- The expression `err.statusCode || 500`: an absent status code and 0 are
falsy. -/
def statusCodeOr500 (statusCode : Option Nat) : Nat :=
  match statusCode with
  | some n => if n = 0 then 500 else n
  | none => 500

/-- Embedding of `errorHandler` of `middleware/errorHandler.js` of the order
service; `nodeEnv` is `process.env.NODE_ENV`. -/
def errorHandler (nodeEnv : Option String) (err : ThrownError) : Response :=
  if err.name = "ValidationError" then
    .json 422 (.error "Validation Error" err.message)
  else if err.name = "CastError" then
    .json 400 (.error "Bad Request" ("Invalid " ++ err.path))
  else
    .json (statusCodeOr500 err.statusCode)
      (.error "Internal Server Error"
        (if nodeEnv = some "production" then "Something went wrong" else err.message))

/-- What the caller of a controller gets: the answer of the controller, or the
answer of `errorHandler` when the controller called `next(err)` (`app.js`
mounts the error handler after the routes). -/
def respond (nodeEnv : Option String) (r : Response) : Response :=
  match r with
  | .next e => errorHandler nodeEnv e.thrown
  | r => r

/-! ## Reading and writing in `updateOrderStatus` -/

/-- Lines 121-125 of the controller: `await Order.findById(req.params.id)` and
the 404 answer. The result is the loaded document, or how the call ends. -/
def loadOrder (env : Env) (w : World) (id : String) : Except Response Order :=
  match env.findErr with
  | some e => .error (.next e)
  | none =>
    match findById w.orders id with
    | none => .error notFound
    | some order => .ok order

/-- Lines 127-162 of the controller, on the document `order` loaded earlier:
the transition test, the mutation, `await order.save()`, the event and the
answer. Between `loadOrder` and this part the handler is suspended, and `w`
is the world at the time of the save. -/
def writeStatus (env : Env) (w : World) (order : Order) (status : String)
    (note : Option String) : Response × World :=
  if !transitionAllowed order.status status then
    (invalidTransition order.status status, w)
  else
    let order := applyStatus order status note
    match env.saveErr with
    | some e => (.next e, w)
    | none =>
      let w := { w with orders := saveExisting w.orders order }
      match publishEvent env w "order.updated"
          (.orderUpdated order.id order.orderNumber status) with
      | .error e => (.next e, w)
      | .ok w => (.json 200 (.orderUpdated "Order status updated" order), w)

/-! ## The length of an order's life -/

/-- The number of transitions an order in a given status can still undergo:
the length of the longest path of `validTransitions` leaving the status. -/
def stepsLeft (status : String) : Nat :=
  if status = "pending" then 5
  else if status = "confirmed" then 4
  else if status = "processing" then 3
  else if status = "shipped" then 2
  else if status = "delivered" then 1
  else 0

/-! ## Listing orders -/

/-- The query string of `GET /orders`, with its numbers parsed. -/
structure ListQuery where
  page : Option Nat
  limit : Option Nat
  status : Option String
deriving DecidableEq

/-- The `pagination` member of the answer of `listOrders`. -/
structure Pagination where
  page : Nat
  limit : Nat
  total : Nat
  pages : Nat
deriving DecidableEq

/-- The answer `{ orders, pagination }` of `listOrders`. -/
structure OrderList where
  orders : List Order
  pagination : Pagination
deriving DecidableEq

/-- The expression `parseInt(value) || fallback`: an absent value (`NaN`) and
0 are falsy. -/
def parsedOr (value : Option Nat) (fallback : Nat) : Nat :=
  match value with
  | some n => if n = 0 then fallback else n
  | none => fallback

/-- The filter `listOrders` builds: `if (status) filter.status = status`; an
absent status and the empty string are falsy and leave the filter empty. -/
def matchesFilter (status : Option String) (o : Order) : Bool :=
  match status with
  | some s => if s = "" then true else o.status == s
  | none => true

/-- Embedding of `exports.listOrders`. The collection is kept in insertion
order, so `sort({ createdAt: -1 })` is the reversed list. -/
def listOrders (env : Env) (w : World) (q : ListQuery) : Except JsError OrderList :=
  let page := parsedOr q.page 1
  let limit := parsedOr q.limit 20
  let skip := (page - 1) * limit
  match env.findErr with
  | some e => .error e
  | none =>
    let found := w.orders.filter (matchesFilter q.status)
    .ok { orders := (found.reverse.drop skip).take limit
          pagination := { page := page, limit := limit, total := found.length,
                          pages := (found.length + limit - 1) / limit } }

/-- The values `query('status').isIn([...])` of `GET /orders` accepts
(`routes/order.routes.js`, lines 40-42). -/
def listStatusValues : List String :=
  ["pending", "confirmed", "processing", "shipped", "delivered", "cancelled"]

/-- The values `body('status').isIn([...])` of `PATCH /orders/:id/status`
accepts (`routes/order.routes.js`, lines 58-60). -/
def patchStatusValues : List String :=
  ["confirmed", "processing", "shipped", "delivered", "cancelled", "refunded"]

/-- An `optional()` chain on a query field: no issue when the field is absent,
one issue when the validator rejects the value. -/
def checkOptional {α : Type} (name : String) (ok : α → Bool) (value : Option α) :
    List ValidationIssue :=
  match value with
  | none => []
  | some v => if ok v then [] else [{ field := .top name, message := "Invalid value" }]

/-- The validation chains of `router.get('/orders', ...)`. -/
def validateListOrders (q : ListQuery) : List ValidationIssue :=
  checkOptional "page" (fun n => decide (1 ≤ n)) q.page ++
  checkOptional "limit" (fun n => decide (1 ≤ n ∧ n ≤ 100)) q.limit ++
  checkOptional "status" (fun s => listStatusValues.contains s) q.status

/-- The route `GET /orders`: the validation chains, `validate`, then the
controller `listOrders`. The result is the list sent with `res.json`, or the
answer of the validation middleware, or the error passed to `next`. -/
def getOrders (env : Env) (w : World) (q : ListQuery) : Except RouteResponse OrderList :=
  match validate (validateListOrders q) with
  | some r => .error r
  | none =>
    match listOrders env w q with
    | .error e => .error (.handled (.next e))
    | .ok list => .ok list

/-! ## Analytics -/

/-- The rows of the pipeline `[{ $group: { _id: '$status', count: { $sum: 1 } } }]`:
one row for each status that occurs, with the number of orders in it. -/
def groupByStatus (orders : List Order) : List (String × Nat) :=
  let found := orders.map (fun o => o.status)
  found.dedup.map (fun s => (s, found.count s))

/-- The assignment `acc[key] = value` on an object kept as a list of members. -/
def setKey (acc : List (String × Nat)) (key : String) (value : Nat) : List (String × Nat) :=
  if acc.any (fun p => p.1 == key) then
    acc.map (fun p => if p.1 == key then (key, value) else p)
  else acc ++ [(key, value)]

/-- The revenue object of the analytics answer. `groupRow` tells whether it is
the row of the `$group` stage (which also has `_id: null`) or the literal
`{ totalRevenue: 0, avgOrderValue: 0, totalItems: 0 }`. -/
structure Revenue where
  totalRevenue : ℚ
  avgOrderValue : ℚ
  totalItems : Nat
  groupRow : Bool
deriving DecidableEq

/-- The rows of the pipeline `$match: { paymentStatus: 'paid' }`, `$group:
{ _id: null, $sum, $avg, $sum of $size }`: no row when no order is paid. -/
def revenueData (orders : List Order) : List Revenue :=
  let paid := orders.filter (fun o => o.paymentStatus == "paid")
  if paid.isEmpty then []
  else
    [{ totalRevenue := (paid.map (fun o => o.totalAmount)).sum
       avgOrderValue := (paid.map (fun o => o.totalAmount)).sum / (paid.length : ℚ)
       totalItems := (paid.map (fun o => o.items.length)).sum
       groupRow := true }]

/-- The `analytics` member of the answer of `getOrderAnalytics`. -/
structure Analytics where
  totalOrders : Nat
  statusBreakdown : List (String × Nat)
  revenue : Revenue
deriving DecidableEq

/-- Embedding of `exports.getOrderAnalytics`; a query the store rejects ends
in `next(err)`. -/
def getOrderAnalytics (env : Env) (w : World) : Except JsError Analytics :=
  match env.findErr with
  | some e => .error e
  | none =>
    .ok { totalOrders := w.orders.length
          statusBreakdown :=
            (groupByStatus w.orders).foldl (fun acc s => setKey acc s.1 s.2) []
          revenue := (revenueData w.orders).head?.getD
            { totalRevenue := 0, avgOrderValue := 0, totalItems := 0, groupRow := false } }

/-! ## Sample data for the service as a whole -/

/-- A call environment that assigns a fresh id and an order number already in
use by the sample order. -/
def clashingEnv : Env :=
  { sampleEnv with newId := "o2" }

/-- Three stored orders: one pending and unpaid, one delivered and paid, one
refunded. -/
def threeOrdersWorld : World :=
  { orders := [{ sampleOrder "pending" "pending" with id := "o1", orderNumber := "ORD-1" },
               { sampleOrder "delivered" "paid" with id := "o2", orderNumber := "ORD-2" },
               { sampleOrder "refunded" "refunded" with id := "o3", orderNumber := "ORD-3" }],
    channel := true, published := [] }

/-- The query `GET /orders?status=...` without page and limit. -/
def statusQuery (status : String) : ListQuery :=
  { page := none, limit := none, status := some status }

/-! ## Auth service: the password rule -/

/-- The part of the regular-expression syntax the password pattern uses:
a character class, `.*`, a sequence, a lookahead `(?=r)` and the empty
pattern. -/
inductive Regex where
  | charClass (accept : Char → Bool)
  | anyStar
  | seq (a b : Regex)
  | lookahead (r : Regex)
  | empty

/-- The characters `.` does not match: the line terminators of JavaScript. -/
def isLineTerminator (c : Char) : Bool :=
  c = '\n' || c = '\r' || c = '\u2028' || c = '\u2029'

/-- The inputs `.*` can leave: every suffix reached by skipping characters
that are not line terminators, the longest skip first. -/
def anyStarRests : List Char → List (List Char)
  | [] => [[]]
  | c :: rest => (if isLineTerminator c then [] else anyStarRests rest) ++ [c :: rest]

/-- A backtracking matcher: the inputs a pattern can leave when matched at the
start of `input`, in the order a JavaScript engine tries them. -/
def Regex.run : Regex → List Char → List (List Char)
  | .charClass accept, input =>
    match input with
    | c :: rest => if accept c then [rest] else []
    | [] => []
  | .anyStar, input => anyStarRests input
  | .seq a b, input => ((a.run input).map b.run).flatten
  | .lookahead r, input => if (r.run input).isEmpty then [] else [input]
  | .empty, input => [input]

/-- The method `test` for a pattern anchored with `^` (no `m` flag): a match
at the start of the string. -/
def Regex.test (r : Regex) (s : String) : Bool :=
  !(r.run s.data).isEmpty

/-- The class `[a-z]`. -/
def isLowerAZ (c : Char) : Bool :=
  decide ('a' ≤ c ∧ c ≤ 'z')

/-- The class `[A-Z]`. -/
def isUpperAZ (c : Char) : Bool :=
  decide ('A' ≤ c ∧ c ≤ 'Z')

/-- The class `\d`. -/
def isDigit09 (c : Char) : Bool :=
  decide ('0' ≤ c ∧ c ≤ '9')

/-- The pattern `/^(?=.*[a-z])(?=.*[A-Z])(?=.*\d)/` of `routes/auth.routes.js`
(lines 21 and 71) and of the test. -/
def passwordRegex : Regex :=
  .seq (.lookahead (.seq .anyStar (.charClass isLowerAZ)))
    (.seq (.lookahead (.seq .anyStar (.charClass isUpperAZ)))
      (.lookahead (.seq .anyStar (.charClass isDigit09))))

/-- The length `isLength` of validator.js measures:
`str.length - presentationSequences.length - surrogatePairs.length`, that is
the number of code points less the number of variation selectors U+FE0F and
U+FE0E (releases of validator.js that predate the presentation-sequence count
measure the code points alone; the two agree on a string without such a
selector). A string of the embedding is a sequence of code points, so that a
surrogate pair is one character of it. -/
def isLengthCount (p : String) : Nat :=
  p.length - (p.data.filter (fun c => c = '\uFE0F' || c = '\uFE0E')).length

/-- The validator `isLength({ min })`. -/
def isLength (min : Nat) (p : String) : Bool :=
  decide (min ≤ isLengthCount p)

/-- The chain `body(field).isLength({ min: 8 }).withMessage(m1).matches(
passwordRegex).withMessage(m2)` of `POST /register` and of
`PUT /change-password`. -/
def passwordIssues (field lengthMessage patternMessage : String) (p : String) :
    List ValidationIssue :=
  (if isLength 8 p then [] else [{ field := .top field, message := lengthMessage }]) ++
  (if passwordRegex.test p then [] else [{ field := .top field, message := patternMessage }])

/-- The password chain of `POST /register`. -/
def registerPasswordIssues (p : String) : List ValidationIssue :=
  passwordIssues "password" "Password must be at least 8 characters"
    "Password must contain uppercase, lowercase, and number" p

/-- The password chain of `PUT /change-password`. -/
def changePasswordIssues (p : String) : List ValidationIssue :=
  passwordIssues "newPassword" "New password must be at least 8 characters"
    "New password must contain uppercase, lowercase, and number" p

/-- The characters of a string before its first line terminator. -/
def firstLine (p : String) : List Char :=
  p.data.takeWhile (fun c => !isLineTerminator c)

/-! ## Auth service: tokens -/

/-- A user document, as far as the handlers read it. -/
structure User where
  id : String
  email : String
  role : String
  isActive : Bool
deriving DecidableEq

/-- The payload of an access token: what `jwt.sign` of `generateTokens` puts
in and what `jwt.verify` and `jwt.decode` give back. `exp` is in seconds. -/
structure Claims where
  id : String
  email : String
  role : String
  exp : Nat
deriving DecidableEq

/-- The `user` member of the answer of `validateToken`. -/
structure UserInfo where
  id : String
  email : String
  role : String
deriving DecidableEq

/-- The JSON bodies the auth handlers of this development send. -/
inductive AuthBody where
  | tokenCheck (valid : Bool) (message : Option String) (user : Option UserInfo)
  | error (error message : String)
  | message (message : String)
deriving DecidableEq

/-- How a handler or middleware of the auth service ends: an answer, `next()`
with `req.user` set, or `next(err)`. -/
inductive AuthOutcome where
  | json (code : Nat) (body : AuthBody)
  | pass (user : Claims)
  | next (err : JsError)
deriving DecidableEq

/-- Embedding of `exports.validateToken`. `verify` is `jwt.verify(token,
JWT_SECRET)` and `findUser` is `User.findById`; both may raise, and the
`catch` of the handler answers 401. -/
def validateToken (verify : String → Except JsError Claims)
    (findUser : String → Except JsError (Option User)) (token : Option String) :
    AuthOutcome :=
  match token with
  | none => .json 400 (.tokenCheck false (some "Token is required") none)
  | some t =>
    if t = "" then .json 400 (.tokenCheck false (some "Token is required") none)
    else
      match verify t with
      | .error _ => .json 401 (.tokenCheck false (some "Invalid token") none)
      | .ok decoded =>
        match findUser decoded.id with
        | .error _ => .json 401 (.tokenCheck false (some "Invalid token") none)
        | .ok none => .json 401 (.tokenCheck false (some "Invalid or inactive user") none)
        | .ok (some user) =>
          if !user.isActive then
            .json 401 (.tokenCheck false (some "Invalid or inactive user") none)
          else
            .json 200 (.tokenCheck true none
              (some { id := user.id, email := user.email, role := user.role }))

/-! ## Auth service: the token blacklist -/

/-- A key of the Redis store with its value and the second it expires at. -/
structure RedisEntry where
  key : String
  value : String
  expiresAt : Nat
deriving DecidableEq

/-- The state of `config/redis.js`: whether `redisClient` is set, and the
keys of the store. -/
structure AuthWorld where
  redisClient : Bool
  entries : List RedisEntry
deriving DecidableEq

/-- What one call of the auth service gets from its collaborators: the time in
seconds, the error a Redis command raises (none when it goes through), and
`jwt.verify(token, JWT_SECRET)` and `jwt.decode(token)` at that time. -/
structure AuthEnv where
  now : Nat
  redisErr : Option JsError
  verify : String → Except JsError Claims
  decode : String → Option Claims

/-- The command `GET key`: the value of a key that has not expired. -/
def redisGet (entries : List RedisEntry) (now : Nat) (key : String) : Option String :=
  (entries.find? (fun e => e.key == key && decide (now < e.expiresAt))).map
    (fun e => e.value)

/-- The command `SETEX key seconds value`. -/
def redisSetex (entries : List RedisEntry) (now : Nat) (key : String) (seconds : Nat)
    (value : String) : List RedisEntry :=
  { key := key, value := value, expiresAt := now + seconds } ::
    entries.filter (fun e => e.key != key)

/-- Embedding of `blacklistToken(token, expiresIn)` of `config/redis.js`. -/
def blacklistToken (env : AuthEnv) (aw : AuthWorld) (token : String) (expiresIn : Nat) :
    Except JsError AuthWorld :=
  if !aw.redisClient then .ok aw
  else
    match env.redisErr with
    | some e => .error e
    | none =>
      .ok { aw with
        entries := redisSetex aw.entries env.now ("blacklist:" ++ token) expiresIn "true" }

/-- Embedding of `isTokenBlacklisted(token)` of `config/redis.js`. -/
def isTokenBlacklisted (env : AuthEnv) (aw : AuthWorld) (token : String) :
    Except JsError Bool :=
  if !aw.redisClient then .ok false
  else
    match env.redisErr with
    | some e => .error e
    | none => .ok (redisGet aw.entries env.now ("blacklist:" ++ token) == some "true")

/-- The pieces of a list of characters between the occurrences of `sep`. -/
def splitChars (sep : Char) : List Char → List (List Char)
  | [] => [[]]
  | c :: cs =>
    if c = sep then [] :: splitChars sep cs
    else
      match splitChars sep cs with
      | [] => [[c]]
      | piece :: pieces => (c :: piece) :: pieces

/-- The method `split` with a one-character separator. -/
def jsSplit (s : String) (sep : Char) : List String :=
  (splitChars sep s.data).map String.mk

/-- The method `startsWith`. -/
def startsWith (s start : String) : Bool :=
  start.data.isPrefixOf s.data

/-- The expression `authHeader.split(' ')[1]`. -/
def bearerToken (authHeader : String) : Option String :=
  (jsSplit authHeader ' ')[1]?

/-- The `catch` block of `authenticate`. -/
def authenticateCatch (err : JsError) : AuthOutcome :=
  if err.name = "TokenExpiredError" then
    .json 401 (.error "Unauthorized" "Access token has expired")
  else if err.name = "JsonWebTokenError" then
    .json 401 (.error "Unauthorized" "Invalid access token")
  else .next err

/-- Embedding of the middleware `authenticate` of `middleware/auth.js`. A
header that starts with `Bearer ` has a second piece; `getD` only gives the
expression a value in a case that cannot occur. -/
def authenticate (env : AuthEnv) (aw : AuthWorld) (authHeader : Option String) :
    AuthOutcome :=
  match authHeader with
  | none => .json 401 (.error "Unauthorized" "Access token is required")
  | some header =>
    if !startsWith header "Bearer " then
      .json 401 (.error "Unauthorized" "Access token is required")
    else
      let token := (bearerToken header).getD ""
      match isTokenBlacklisted env aw token with
      | .error e => authenticateCatch e
      | .ok true => .json 401 (.error "Unauthorized" "Token has been revoked")
      | .ok false =>
        match env.verify token with
        | .error e => authenticateCatch e
        | .ok decoded => .pass decoded

/-- The error of reading `exp` of `null`, the result of `jwt.decode` on a
string that is not a token. -/
def decodeTypeError : JsError :=
  { name := "TypeError", message := "Cannot read properties of null" }

/-- Embedding of `exports.logout` (the log line apart); `user` is `req.user`,
set by `authenticate`. `decoded.exp - Math.floor(Date.now() / 1000)` is
positive exactly when `env.now < decoded.exp`. -/
def logout (env : AuthEnv) (aw : AuthWorld) (authHeader : Option String) (_user : Claims) :
    AuthOutcome × AuthWorld :=
  let done : AuthWorld → AuthOutcome × AuthWorld :=
    fun aw => (.json 200 (.message "Logged out successfully"), aw)
  match authHeader.bind bearerToken with
  | none => done aw
  | some token =>
    if token = "" then done aw
    else
      match env.decode token with
      | none => (.next decodeTypeError, aw)
      | some decoded =>
        if env.now < decoded.exp then
          match blacklistToken env aw token (decoded.exp - env.now) with
          | .error e => (.next e, aw)
          | .ok aw => done aw
        else done aw

/-! ## Auth service: sample data -/

/-- The claims of a sample access token that expires at second 2000. -/
def sampleClaims : Claims :=
  { id := "u1", email := "user@example.com", role := "user", exp := 2000 }

/-- The sample user. -/
def sampleUser : User :=
  { id := "u1", email := "user@example.com", role := "user", isActive := true }

/-- A `jwt.verify` that accepts the token `abc` and rejects every other
string. -/
def sampleVerify (token : String) : Except JsError Claims :=
  if token = "abc" then .ok sampleClaims
  else .error { name := "JsonWebTokenError", message := "invalid token" }

/-- A `User.findById` over the sample user. -/
def sampleFindUser (id : String) : Except JsError (Option User) :=
  if id = "u1" then .ok (some sampleUser) else .ok none

/-- A call of the auth service at a given second, Redis going through. -/
def authEnvAt (now : Nat) : AuthEnv :=
  { now := now, redisErr := none, verify := sampleVerify,
    decode := fun token => if token = "abc" then some sampleClaims else none }

/-- The auth service with Redis connected and nothing blacklisted. -/
def connectedAuth : AuthWorld :=
  { redisClient := true, entries := [] }

/-- A call environment in which the store rejects `save` with the error of a
version check. -/
def versionErrorEnv : Env :=
  { sampleEnv with
    saveErr := some { name := "VersionError", message := "No matching document found" } }

/-! ## Lemmas on `updateOrderStatus` -/

theorem transitionAllowed_iff (src dst : String) :
    transitionAllowed src dst = true ↔ (src, dst) ∈ specTransitionTable := by
  by_cases h1 : src = "pending"
  · subst h1; simp [transitionAllowed, validTransitions, List.lookup, specTransitionTable]
  by_cases h2 : src = "confirmed"
  · subst h2; simp [transitionAllowed, validTransitions, List.lookup, specTransitionTable]
  by_cases h3 : src = "processing"
  · subst h3; simp [transitionAllowed, validTransitions, List.lookup, specTransitionTable]
  by_cases h4 : src = "shipped"
  · subst h4; simp [transitionAllowed, validTransitions, List.lookup, specTransitionTable]
  by_cases h5 : src = "delivered"
  · subst h5; simp [transitionAllowed, validTransitions, List.lookup, specTransitionTable]
  by_cases h6 : src = "cancelled"
  · subst h6; simp [transitionAllowed, validTransitions, List.lookup, specTransitionTable]
  by_cases h7 : src = "refunded"
  · subst h7; simp [transitionAllowed, validTransitions, List.lookup, specTransitionTable]
  · have e1 : (src == "pending") = false := beq_eq_false_iff_ne.mpr h1
    have e2 : (src == "confirmed") = false := beq_eq_false_iff_ne.mpr h2
    have e3 : (src == "processing") = false := beq_eq_false_iff_ne.mpr h3
    have e4 : (src == "shipped") = false := beq_eq_false_iff_ne.mpr h4
    have e5 : (src == "delivered") = false := beq_eq_false_iff_ne.mpr h5
    have e6 : (src == "cancelled") = false := beq_eq_false_iff_ne.mpr h6
    have e7 : (src == "refunded") = false := beq_eq_false_iff_ne.mpr h7
    simp [transitionAllowed, validTransitions, List.lookup, specTransitionTable, h1, h2, h3,
      h4, h5, h6, h7, e1, e2, e3, e4, e5, e6, e7]

theorem findById_id {orders : List Order} {id : String} {o : Order}
    (h : findById orders id = some o) : o.id = id := by
  have := List.find?_some h
  simpa using this

theorem findById_cons_pos {a : Order} (as : List Order) {id : String} (h : a.id = id) :
    findById (a :: as) id = some a := by
  unfold findById
  exact List.find?_cons_of_pos _ (by simp [h])

theorem findById_cons_neg {a : Order} (as : List Order) {id : String} (h : a.id ≠ id) :
    findById (a :: as) id = findById as id := by
  unfold findById
  exact List.find?_cons_of_neg _ (by simp [h])

theorem saveExisting_cons (a : Order) (as : List Order) (o' : Order) :
    saveExisting (a :: as) o' = (if a.id = o'.id then o' else a) :: saveExisting as o' := by
  simp [saveExisting]

theorem findById_saveExisting_same {orders : List Order} {id : String} {o : Order}
    (o' : Order) (h : findById orders id = some o) (hid : o'.id = id) :
    findById (saveExisting orders o') id = some o' := by
  induction orders with
  | nil => simp [findById] at h
  | cons a as ih =>
    rw [saveExisting_cons]
    by_cases ha : a.id = id
    · rw [if_pos (ha.trans hid.symm)]
      exact findById_cons_pos _ hid
    · rw [findById_cons_neg _ ha] at h
      rw [if_neg (fun e => ha (e.trans hid)), findById_cons_neg _ ha]
      exact ih h

theorem findById_saveExisting_other (orders : List Order) (id : String) (o' : Order)
    (hid : o'.id ≠ id) :
    findById (saveExisting orders o') id = findById orders id := by
  induction orders with
  | nil => rfl
  | cons a as ih =>
    rw [saveExisting_cons]
    by_cases hb : a.id = o'.id
    · have ha : a.id ≠ id := fun e => hid (hb ▸ e)
      rw [if_pos hb, findById_cons_neg _ hid, findById_cons_neg _ ha, ih]
    · rw [if_neg hb]
      by_cases ha : a.id = id
      · rw [findById_cons_pos _ ha, findById_cons_pos _ ha]
      · rw [findById_cons_neg _ ha, findById_cons_neg _ ha, ih]

theorem applyStatus_id (o : Order) (status : String) (note : Option String) :
    (applyStatus o status note).id = o.id := by
  unfold applyStatus; split <;> rfl

theorem applyStatus_status (o : Order) (status : String) (note : Option String) :
    (applyStatus o status note).status = status := by
  unfold applyStatus; split <;> rfl

theorem applyStatus_statusHistory (o : Order) (status : String) (note : Option String) :
    (applyStatus o status note).statusHistory =
      o.statusHistory ++ [{ status := status, note := noteOrDefault note status }] := by
  unfold applyStatus; split <;> rfl

theorem applyStatus_paymentStatus (o : Order) (status : String) (note : Option String) :
    (applyStatus o status note).paymentStatus =
      if status = "refunded" then "refunded" else o.paymentStatus := by
  unfold applyStatus
  by_cases h : status = "refunded"
  · simp [h]
  · by_cases h' : status = "cancelled" <;> simp [h, h']

theorem updateOrderStatus_allowed {env : Env} {w : World} {id status : String}
    {o : Order} (note : Option String) (hf : env.findErr = none)
    (ho : findById w.orders id = some o) (ha : transitionAllowed o.status status = true)
    (hs : env.saveErr = none) (hp : env.publishErr = none) :
    (updateOrderStatus env w id status note).1 =
        .json 200 (.orderUpdated "Order status updated" (applyStatus o status note)) ∧
      (updateOrderStatus env w id status note).2.orders =
        saveExisting w.orders (applyStatus o status note) := by
  unfold updateOrderStatus publishEvent
  simp only [hf, ho, ha, hs, hp]
  cases hc : w.channel <;> simp [hc]

theorem updateOrderStatus_rejected {env : Env} {w : World} {id status : String}
    {o : Order} (note : Option String) (hf : env.findErr = none)
    (ho : findById w.orders id = some o) (ha : transitionAllowed o.status status = false) :
    updateOrderStatus env w id status note = (invalidTransition o.status status, w) := by
  unfold updateOrderStatus
  simp [hf, ho, ha]

theorem updateOrderStatus_success {env : Env} {w : World} {id status : String}
    {note : Option String}
    (h : (updateOrderStatus env w id status note).1.isSuccess = true) :
    ∃ o, findById w.orders id = some o ∧ transitionAllowed o.status status = true ∧
      env.findErr = none ∧ env.saveErr = none ∧
      (updateOrderStatus env w id status note).1 =
        .json 200 (.orderUpdated "Order status updated" (applyStatus o status note)) ∧
      (updateOrderStatus env w id status note).2.orders =
        saveExisting w.orders (applyStatus o status note) := by
  unfold updateOrderStatus publishEvent at h ⊢
  cases hf : env.findErr with
  | some e => simp [hf, Response.isSuccess] at h
  | none =>
    cases ho : findById w.orders id with
    | none => simp [hf, ho, Response.isSuccess, notFound] at h
    | some o =>
      cases ha : transitionAllowed o.status status with
      | false => simp [hf, ho, ha, Response.isSuccess, invalidTransition] at h
      | true =>
        cases hs : env.saveErr with
        | some e => simp [hf, ho, ha, hs, Response.isSuccess] at h
        | none =>
          refine ⟨o, rfl, ha, rfl, rfl, ?_⟩
          cases hc : w.channel with
          | false => simp [ha, hc]
          | true =>
            cases hp : env.publishErr with
            | some e => simp [hf, ho, ha, hs, hc, hp, Response.isSuccess] at h
            | none => simp [ha, hc]

theorem not_mem_specTransitionTable_of_terminal {src dst : String}
    (h : dst = src ∨ src = "cancelled" ∨ src = "refunded") :
    (src, dst) ∉ specTransitionTable := by
  intro hm
  simp only [specTransitionTable, List.mem_cons, Prod.mk.injEq, List.mem_singleton,
    List.not_mem_nil, or_false] at hm
  rcases h with h | h | h <;> subst h <;>
    rcases hm with ⟨h1, h2⟩ | ⟨h1, h2⟩ | ⟨h1, h2⟩ | ⟨h1, h2⟩ | ⟨h1, h2⟩ | ⟨h1, h2⟩ |
      ⟨h1, h2⟩ | ⟨h1, h2⟩ <;>
    first
      | exact absurd h1 (by decide)
      | exact absurd (h1.symm.trans h2) (by decide)

/-! ## Status transitions: the claims -/

/-- C1: for an existing order in one of the seven statuses, `from`, and a
requested status `to`, `updateOrderStatus` answers 200 exactly when `(from, to)` is one of the eight
pairs of the transition table (the store and the broker working), and answers
the 400 "Cannot transition" response, leaving the world as it was, for every
other pair; the pairs with `to = from` and those leaving `cancelled` or
`refunded` are among the rejected ones. -/
theorem updateOrderStatus_transition_table (env : Env) (w : World) (id dst : String)
    (note : Option String) (o : Order) (hf : env.findErr = none)
    (ho : findById w.orders id = some o) (_hst : o.status ∈ statuses) :
    ((o.status, dst) ∈ specTransitionTable → env.saveErr = none → env.publishErr = none →
        (updateOrderStatus env w id dst note).1 =
          .json 200 (.orderUpdated "Order status updated" (applyStatus o dst note))) ∧
      ((o.status, dst) ∉ specTransitionTable →
        updateOrderStatus env w id dst note = (invalidTransition o.status dst, w)) ∧
      ((updateOrderStatus env w id dst note).1.isSuccess = true →
        (o.status, dst) ∈ specTransitionTable) ∧
      (dst = o.status ∨ o.status = "cancelled" ∨ o.status = "refunded" →
        updateOrderStatus env w id dst note = (invalidTransition o.status dst, w)) := by
  have hrej : (o.status, dst) ∉ specTransitionTable →
      updateOrderStatus env w id dst note = (invalidTransition o.status dst, w) := by
    intro hn
    apply updateOrderStatus_rejected note hf ho
    cases ha : transitionAllowed o.status dst with
    | false => rfl
    | true => exact absurd ((transitionAllowed_iff _ _).mp ha) hn
  refine ⟨?_, hrej, ?_, fun h => hrej (not_mem_specTransitionTable_of_terminal h)⟩
  · intro hm hs hp
    exact (updateOrderStatus_allowed note hf ho ((transitionAllowed_iff _ _).mpr hm) hs hp).1
  · intro hsucc
    obtain ⟨o1, ho1, ha, -⟩ := updateOrderStatus_success hsucc
    rw [ho] at ho1
    cases ho1
    exact (transitionAllowed_iff _ _).mp ha

/-- Witness of C1: a pending order is confirmed with a 200 answer, and a
cancelled order rejects the same request with the 400 answer. -/
theorem updateOrderStatus_transition_table_witness :
    (updateOrderStatus sampleEnv (sampleWorld "pending" "paid") "o1" "confirmed" none).1 =
        .json 200 (.orderUpdated "Order status updated"
          (applyStatus (sampleOrder "pending" "paid") "confirmed" none)) ∧
      updateOrderStatus sampleEnv (sampleWorld "cancelled" "paid") "o1" "confirmed" none =
        (invalidTransition "cancelled" "confirmed", sampleWorld "cancelled" "paid") :=
  ⟨(updateOrderStatus_transition_table sampleEnv (sampleWorld "pending" "paid") "o1"
      "confirmed" none (sampleOrder "pending" "paid") rfl rfl (by decide)).1 (by decide) rfl rfl,
   (updateOrderStatus_transition_table sampleEnv (sampleWorld "cancelled" "paid") "o1"
      "confirmed" none (sampleOrder "cancelled" "paid") rfl rfl (by decide)).2.1 (by decide)⟩

/-- C2: a successful `updateOrderStatus` with target `t` leaves the order in
status `t` with its former history followed by exactly one new entry, whose
status is `t`; the earlier entries are kept in place and the length grows by
one. -/
theorem updateOrderStatus_appends_history (env : Env) (w : World) (id t : String)
    (note : Option String) (o : Order) (ho : findById w.orders id = some o)
    (hs : (updateOrderStatus env w id t note).1.isSuccess = true) :
    ∃ o' e, (updateOrderStatus env w id t note).1 =
          .json 200 (.orderUpdated "Order status updated" o') ∧
      findById (updateOrderStatus env w id t note).2.orders id = some o' ∧
      o'.status = t ∧ e.status = t ∧
      o'.statusHistory = o.statusHistory ++ [e] ∧
      o'.statusHistory.length = o.statusHistory.length + 1 := by
  obtain ⟨o1, ho1, -, -, -, hr, hw⟩ := updateOrderStatus_success hs
  rw [ho] at ho1
  cases ho1
  refine ⟨applyStatus o t note, { status := t, note := noteOrDefault note t }, hr, ?_,
    applyStatus_status _ _ _, rfl, applyStatus_statusHistory _ _ _, ?_⟩
  · rw [hw]
    exact findById_saveExisting_same _ ho ((applyStatus_id _ _ _).trans (findById_id ho))
  · rw [applyStatus_statusHistory]
    simp

/-- Witness of C2: confirming the pending sample order. -/
theorem updateOrderStatus_appends_history_witness :
    ∃ o' e, (updateOrderStatus sampleEnv (sampleWorld "pending" "paid") "o1" "confirmed"
          none).1 = .json 200 (.orderUpdated "Order status updated" o') ∧
      findById (updateOrderStatus sampleEnv (sampleWorld "pending" "paid") "o1" "confirmed"
          none).2.orders "o1" = some o' ∧
      o'.status = "confirmed" ∧ e.status = "confirmed" ∧
      o'.statusHistory = (sampleOrder "pending" "paid").statusHistory ++ [e] ∧
      o'.statusHistory.length = (sampleOrder "pending" "paid").statusHistory.length + 1 :=
  updateOrderStatus_appends_history sampleEnv (sampleWorld "pending" "paid") "o1" "confirmed"
    none (sampleOrder "pending" "paid") rfl (by decide)

/-- C4: for an order in status `delivered`, `updateOrderStatus` with target
`refunded` succeeds (the store and the broker working), stores the order with
status `refunded` and payment status `refunded` whatever it was before, and
appends exactly one history entry. -/
theorem updateOrderStatus_delivered_refunded (env : Env) (w : World) (id : String)
    (note : Option String) (o : Order) (hf : env.findErr = none) (hs : env.saveErr = none)
    (hp : env.publishErr = none) (ho : findById w.orders id = some o)
    (hd : o.status = "delivered") :
    ∃ o', (updateOrderStatus env w id "refunded" note).1 =
          .json 200 (.orderUpdated "Order status updated" o') ∧
      findById (updateOrderStatus env w id "refunded" note).2.orders id = some o' ∧
      o'.status = "refunded" ∧ o'.paymentStatus = "refunded" ∧
      o'.statusHistory = o.statusHistory ++
        [{ status := "refunded", note := noteOrDefault note "refunded" }] ∧
      o'.statusHistory.length = o.statusHistory.length + 1 := by
  have ha : transitionAllowed o.status "refunded" = true := by rw [hd]; decide
  obtain ⟨hr, hw⟩ := updateOrderStatus_allowed note hf ho ha hs hp
  refine ⟨applyStatus o "refunded" note, hr, ?_, applyStatus_status _ _ _, ?_,
    applyStatus_statusHistory _ _ _, ?_⟩
  · rw [hw]
    exact findById_saveExisting_same _ ho ((applyStatus_id _ _ _).trans (findById_id ho))
  · rw [applyStatus_paymentStatus]
    simp
  · rw [applyStatus_statusHistory]
    simp

/-- Witness of C4: refunding a delivered order whose payment status is `paid`. -/
theorem updateOrderStatus_delivered_refunded_witness :
    ∃ o', (updateOrderStatus sampleEnv (sampleWorld "delivered" "paid") "o1" "refunded"
          none).1 = .json 200 (.orderUpdated "Order status updated" o') ∧
      findById (updateOrderStatus sampleEnv (sampleWorld "delivered" "paid") "o1" "refunded"
          none).2.orders "o1" = some o' ∧
      o'.status = "refunded" ∧ o'.paymentStatus = "refunded" ∧
      o'.statusHistory = (sampleOrder "delivered" "paid").statusHistory ++
        [{ status := "refunded", note := noteOrDefault none "refunded" }] ∧
      o'.statusHistory.length = (sampleOrder "delivered" "paid").statusHistory.length + 1 :=
  updateOrderStatus_delivered_refunded sampleEnv (sampleWorld "delivered" "paid") "o1" none
    (sampleOrder "delivered" "paid") rfl rfl rfl rfl rfl

theorem applyStatus_frame (o : Order) (status : String) (note : Option String) :
    (applyStatus o status note).items = o.items ∧
      (applyStatus o status note).subtotal = o.subtotal ∧
      (applyStatus o status note).taxAmount = o.taxAmount ∧
      (applyStatus o status note).shippingCost = o.shippingCost ∧
      (applyStatus o status note).totalAmount = o.totalAmount ∧
      (applyStatus o status note).orderNumber = o.orderNumber ∧
      (applyStatus o status note).userId = o.userId := by
  unfold applyStatus
  split <;> exact ⟨rfl, rfl, rfl, rfl, rfl, rfl, rfl⟩

/-- C5: a successful `updateOrderStatus` whose target is not `refunded` leaves
`paymentStatus` as it was, and no successful transition changes the items,
`subtotal`, `taxAmount`, `shippingCost`, `totalAmount`, `orderNumber` or
`userId` of the order; the other stored orders are not touched. -/
theorem updateOrderStatus_frame (env : Env) (w : World) (id t : String)
    (note : Option String) (o : Order) (ho : findById w.orders id = some o)
    (hs : (updateOrderStatus env w id t note).1.isSuccess = true) :
    ∃ o', (updateOrderStatus env w id t note).1 =
          .json 200 (.orderUpdated "Order status updated" o') ∧
      findById (updateOrderStatus env w id t note).2.orders id = some o' ∧
      (t ≠ "refunded" → o'.paymentStatus = o.paymentStatus) ∧
      o'.items = o.items ∧ o'.subtotal = o.subtotal ∧ o'.taxAmount = o.taxAmount ∧
      o'.shippingCost = o.shippingCost ∧ o'.totalAmount = o.totalAmount ∧
      o'.orderNumber = o.orderNumber ∧ o'.userId = o.userId ∧
      ∀ id', id' ≠ id →
        findById (updateOrderStatus env w id t note).2.orders id' = findById w.orders id' := by
  obtain ⟨o1, ho1, -, -, -, hr, hw⟩ := updateOrderStatus_success hs
  rw [ho] at ho1
  cases ho1
  have hid : (applyStatus o t note).id = id := (applyStatus_id _ _ _).trans (findById_id ho)
  obtain ⟨h1, h2, h3, h4, h5, h6, h7⟩ := applyStatus_frame o t note
  refine ⟨applyStatus o t note, hr, ?_, ?_, h1, h2, h3, h4, h5, h6, h7, ?_⟩
  · rw [hw]
    exact findById_saveExisting_same _ ho hid
  · intro hne
    rw [applyStatus_paymentStatus, if_neg hne]
  · intro id' hne
    rw [hw]
    exact findById_saveExisting_other _ _ _ (fun e => hne (e.symm.trans hid))

/-- Witness of C5: cancelling a pending order whose payment status is `paid`. -/
theorem updateOrderStatus_frame_witness :
    ∃ o', (updateOrderStatus sampleEnv (sampleWorld "pending" "paid") "o1" "cancelled"
          none).1 = .json 200 (.orderUpdated "Order status updated" o') ∧
      findById (updateOrderStatus sampleEnv (sampleWorld "pending" "paid") "o1" "cancelled"
          none).2.orders "o1" = some o' ∧
      o'.paymentStatus = "paid" ∧ o'.totalAmount = (sampleOrder "pending" "paid").totalAmount :=
  let ⟨o', h1, h2, h3, _, _, _, _, h8, _⟩ :=
    updateOrderStatus_frame sampleEnv (sampleWorld "pending" "paid") "o1" "cancelled" none
      (sampleOrder "pending" "paid") rfl (by decide)
  ⟨o', h1, h2, h3 (by decide), h8⟩

/-- C6, counterexample: a request that supplies the empty string as its note
succeeds, and the appended entry carries the text "Status changed to confirmed",
not the supplied note. -/
theorem updateOrderStatus_empty_note_replaced :
    (updateOrderStatus sampleEnv (sampleWorld "pending" "paid") "o1" "confirmed"
        (some "")).1.isSuccess = true ∧
      (findById (updateOrderStatus sampleEnv (sampleWorld "pending" "paid") "o1" "confirmed"
        (some "")).2.orders "o1").map (fun o => o.statusHistory) =
        some [{ status := "pending", note := "Order created" },
              { status := "confirmed", note := "Status changed to confirmed" }] ∧
      (findById (updateOrderStatus sampleEnv (sampleWorld "pending" "paid") "o1" "confirmed"
        (some "")).2.orders "o1").bind
          (fun o => o.statusHistory.getLast?.map (fun e => e.note)) ≠ some "" := by
  decide

/-- C6, amended: after a successful `updateOrderStatus` with target `t` the
note of the appended entry is the supplied note when a non-empty note is
supplied, and is "Status changed to <t>" when no note is supplied or the
supplied note is the empty string. -/
theorem updateOrderStatus_note (env : Env) (w : World) (id t : String)
    (note : Option String) (o : Order) (ho : findById w.orders id = some o)
    (hs : (updateOrderStatus env w id t note).1.isSuccess = true) :
    ∃ o' e, findById (updateOrderStatus env w id t note).2.orders id = some o' ∧
      o'.statusHistory = o.statusHistory ++ [e] ∧ e.status = t ∧
      (∀ n, note = some n → n ≠ "" → e.note = n) ∧
      (note = none ∨ note = some "" → e.note = "Status changed to " ++ t) := by
  obtain ⟨o1, ho1, -, -, -, -, hw⟩ := updateOrderStatus_success hs
  rw [ho] at ho1
  cases ho1
  refine ⟨applyStatus o t note, { status := t, note := noteOrDefault note t }, ?_,
    applyStatus_statusHistory _ _ _, rfl, ?_, ?_⟩
  · rw [hw]
    exact findById_saveExisting_same _ ho ((applyStatus_id _ _ _).trans (findById_id ho))
  · intro n hn hne
    subst hn
    simp [noteOrDefault, hne]
  · intro h
    rcases h with h | h <;> subst h <;> simp [noteOrDefault]

/-- Witness of C6 (amended): a supplied non-empty note is recorded as it is. -/
theorem updateOrderStatus_note_witness :
    ∃ o' e, findById (updateOrderStatus sampleEnv (sampleWorld "pending" "paid") "o1"
          "confirmed" (some "checked by hand")).2.orders "o1" = some o' ∧
      o'.statusHistory = (sampleOrder "pending" "paid").statusHistory ++ [e] ∧
      e.status = "confirmed" ∧ e.note = "checked by hand" :=
  let ⟨o', e, h1, h2, h3, h4, _⟩ :=
    updateOrderStatus_note sampleEnv (sampleWorld "pending" "paid") "o1" "confirmed"
      (some "checked by hand") (sampleOrder "pending" "paid") rfl (by decide)
  ⟨o', e, h1, h2, h3, h4 "checked by hand" rfl (by decide)⟩

/-- C7: when `updateOrderStatus` fails with the 404 answer (no order has the
id) or with the 400 "Cannot transition" answer, the world is exactly what it
was before the call: no stored order has changed and no event was published.
Both answers are given in exactly the stated situations. -/
theorem updateOrderStatus_failure_unchanged (env : Env) (w : World) (id t : String)
    (note : Option String) :
    (env.findErr = none → findById w.orders id = none →
        updateOrderStatus env w id t note = (notFound, w)) ∧
      (∀ o, env.findErr = none → findById w.orders id = some o → o.status ∈ statuses →
        transitionAllowed o.status t = false →
        updateOrderStatus env w id t note = (invalidTransition o.status t, w)) ∧
      ((updateOrderStatus env w id t note).1 = notFound ∨
          (∃ src dst, (updateOrderStatus env w id t note).1 = invalidTransition src dst) →
        (updateOrderStatus env w id t note).2 = w) := by
  refine ⟨?_, ?_, ?_⟩
  · intro hf ho
    unfold updateOrderStatus
    simp [hf, ho]
  · intro o hf ho _ ha
    exact updateOrderStatus_rejected note hf ho ha
  · intro h
    by_cases hsucc : (updateOrderStatus env w id t note).1.isSuccess = true
    · exfalso
      rcases h with h | ⟨src, dst, h⟩ <;> rw [h] at hsucc <;>
        simp [notFound, invalidTransition, Response.isSuccess] at hsucc
    · revert h hsucc
      unfold updateOrderStatus publishEvent
      cases hf : env.findErr with
      | some e => simp
      | none =>
        cases ho : findById w.orders id with
        | none => simp
        | some o =>
          cases ha : transitionAllowed o.status t with
          | false => simp [ha]
          | true =>
            cases hs : env.saveErr with
            | some e => simp [ha]
            | none =>
              cases hc : w.channel with
              | false => simp [ha, hc, Response.isSuccess]
              | true =>
                cases hp : env.publishErr with
                | some e => simp [ha, hc, notFound, invalidTransition]
                | none => simp [ha, hc, Response.isSuccess]

/-- Witness of C7: an unknown id gives the 404 answer and a request on a
cancelled order gives the 400 answer, the world staying as it was. -/
theorem updateOrderStatus_failure_unchanged_witness :
    updateOrderStatus sampleEnv (sampleWorld "pending" "paid") "o2" "confirmed" none =
        (notFound, sampleWorld "pending" "paid") ∧
      updateOrderStatus sampleEnv (sampleWorld "cancelled" "paid") "o1" "confirmed" none =
        (invalidTransition "cancelled" "confirmed", sampleWorld "cancelled" "paid") :=
  ⟨(updateOrderStatus_failure_unchanged sampleEnv (sampleWorld "pending" "paid") "o2"
      "confirmed" none).1 rfl rfl,
   (updateOrderStatus_failure_unchanged sampleEnv (sampleWorld "cancelled" "paid") "o1"
      "confirmed" none).2.1 (sampleOrder "cancelled" "paid") rfl rfl (by decide) (by decide)⟩

/-! ## Order creation and sequences of updates -/

theorem updateOrderStatus_not_success {env : Env} {w : World} {id t : String}
    {note : Option String} (hp : env.publishErr = none)
    (h : (updateOrderStatus env w id t note).1.isSuccess = false) :
    (updateOrderStatus env w id t note).2 = w := by
  revert h
  unfold updateOrderStatus publishEvent
  cases hf : env.findErr with
  | some e => simp
  | none =>
    cases ho : findById w.orders id with
    | none => simp
    | some o =>
      cases ha : transitionAllowed o.status t with
      | false => simp [ha]
      | true =>
        cases hs : env.saveErr with
        | some e => simp [ha]
        | none =>
          cases hc : w.channel with
          | false => simp [ha, hc, Response.isSuccess]
          | true => simp [ha, hc, hp, Response.isSuccess]

theorem updateOrderStatus_step {env : Env} {w : World} {id t : String}
    {note : Option String} {i : String} {o : Order} (hp : env.publishErr = none)
    (ho : findById w.orders i = some o) :
    ((id = i ∧ (updateOrderStatus env w id t note).1.isSuccess = true) ∧
        findById (updateOrderStatus env w id t note).2.orders i =
          some (applyStatus o t note)) ∨
      (¬ (id = i ∧ (updateOrderStatus env w id t note).1.isSuccess = true) ∧
        findById (updateOrderStatus env w id t note).2.orders i = some o) := by
  cases hs : (updateOrderStatus env w id t note).1.isSuccess with
  | false =>
    right
    rw [updateOrderStatus_not_success hp hs]
    exact ⟨by simp, ho⟩
  | true =>
    obtain ⟨o1, ho1, -, -, -, -, hw⟩ := updateOrderStatus_success hs
    have hid1 : (applyStatus o1 t note).id = id :=
      (applyStatus_id _ _ _).trans (findById_id ho1)
    by_cases hi : id = i
    · left
      subst hi
      rw [ho] at ho1
      cases ho1
      refine ⟨⟨rfl, rfl⟩, ?_⟩
      rw [hw]
      exact findById_saveExisting_same _ ho hid1
    · right
      refine ⟨fun h => hi h.1, ?_⟩
      rw [hw, findById_saveExisting_other _ _ _ (fun e => hi (hid1.symm.trans e))]
      exact ho

theorem runUpdates_history (calls : List StatusCall) :
    ∀ (w : World) (i : String) (o : Order), findById w.orders i = some o →
      (∀ c ∈ calls, c.env.publishErr = none) →
      o.statusHistory.getLast?.map (fun e => e.status) = some o.status →
      ∃ o', findById (runUpdates w calls).orders i = some o' ∧
        o'.statusHistory.length = o.statusHistory.length + successCount i w calls ∧
        o'.statusHistory.getLast?.map (fun e => e.status) = some o'.status := by
  induction calls with
  | nil =>
    intro w i o ho _ hl
    exact ⟨o, ho, rfl, hl⟩
  | cons c cs ih =>
    intro w i o ho hp hl
    have hpc : c.env.publishErr = none := hp c (List.mem_cons_self _ _)
    have hpcs : ∀ d ∈ cs, d.env.publishErr = none :=
      fun d hd => hp d (List.mem_cons_of_mem _ hd)
    rcases @updateOrderStatus_step c.env w c.id c.status c.note i o hpc ho with
      ⟨hcond, hfind⟩ | ⟨hcond, hfind⟩
    · have hl' : (applyStatus o c.status c.note).statusHistory.getLast?.map
          (fun e => e.status) = some (applyStatus o c.status c.note).status := by
        rw [applyStatus_statusHistory, applyStatus_status]
        simp
      obtain ⟨o', h1, h2, h3⟩ := ih _ i _ hfind hpcs hl'
      refine ⟨o', h1, ?_, h3⟩
      rw [h2, applyStatus_statusHistory]
      simp only [successCount, if_pos hcond, List.length_append, List.length_singleton]
      omega
    · obtain ⟨o', h1, h2, h3⟩ := ih _ i _ hfind hpcs hl
      refine ⟨o', h1, ?_, h3⟩
      rw [h2]
      simp only [successCount, if_neg hcond]
      omega

theorem findById_saveNew {orders orders' : List Order} {o : Order}
    (h : saveNew orders o = .ok orders') : findById orders' o.id = some o := by
  unfold saveNew at h
  split at h
  · cases h
  · rename_i hany
    cases h
    have hnone : List.find? (fun a => a.id == o.id) orders = none := by
      rw [List.find?_eq_none]
      intro a ha hid
      apply hany
      rw [List.any_eq_true]
      exact ⟨a, ha, by simp [beq_iff_eq.mp hid]⟩
    simp [findById, List.find?_append, hnone]

theorem createOrder_created {env : Env} {w : World} {body : CreateBody} {msg : String}
    {o : Order} (h : (createOrder env w body).1 = .json 201 (.orderCreated msg o)) :
    o = newOrder env body ∧ findById (createOrder env w body).2.orders o.id = some o := by
  unfold createOrder publishEvent at h ⊢
  cases hs : env.saveErr with
  | some e => simp [hs] at h
  | none =>
    cases hn : saveNew w.orders (newOrder env body) with
    | error e => simp [hs, hn] at h
    | ok orders =>
      have hfind := findById_saveNew hn
      cases hc : w.channel with
      | false =>
        simp only [hs, hn, hc] at h ⊢
        simp at h
        obtain ⟨-, rfl⟩ := h
        exact ⟨rfl, by simpa using hfind⟩
      | true =>
        cases hp : env.publishErr with
        | some e => simp [hs, hn, hc, hp] at h
        | none =>
          simp only [hs, hn, hc, hp] at h ⊢
          simp at h
          obtain ⟨-, rfl⟩ := h
          exact ⟨rfl, by simpa using hfind⟩

/-- Supporting lemma for the history-length claim: after `createOrder` and any
sequence of `updateOrderStatus` calls in none of which `channel.publish`
raises, `n` of them on this order succeeding (the others failing in any other
way and at any place), the stored order has a status history of `n + 1`
entries, and the status of the last entry is the order's status. -/
theorem statusHistory_length_after_updates (env : Env) (w : World) (body : CreateBody)
    (o : Order)
    (hc : (createOrder env w body).1 =
      .json 201 (.orderCreated "Order created successfully" o))
    (calls : List StatusCall) (hp : ∀ c ∈ calls, c.env.publishErr = none) :
    ∃ o', findById (runUpdates (createOrder env w body).2 calls).orders o.id = some o' ∧
      o'.statusHistory.length = successCount o.id (createOrder env w body).2 calls + 1 ∧
      o'.statusHistory.getLast?.map (fun e => e.status) = some o'.status := by
  obtain ⟨ho, hfind⟩ := createOrder_created hc
  have hl : o.statusHistory.getLast?.map (fun e => e.status) = some o.status := by
    rw [ho]; rfl
  obtain ⟨o', h1, h2, h3⟩ := runUpdates_history calls _ _ _ hfind hp hl
  refine ⟨o', h1, ?_, h3⟩
  rw [h2, ho]
  simp only [newOrder, List.length_singleton]
  omega

/-- Use of the supporting lemma: an order is created and receives the four
sample requests, two of which succeed; its history has three entries. -/
theorem statusHistory_length_after_updates_witness :
    successCount "o1" (createOrder sampleEnv emptyWorld (sampleBody 2 10)).2 sampleCalls = 2 ∧
      ∃ o', findById (runUpdates (createOrder sampleEnv emptyWorld (sampleBody 2 10)).2
          sampleCalls).orders "o1" = some o' ∧
        o'.statusHistory.length =
          successCount "o1" (createOrder sampleEnv emptyWorld (sampleBody 2 10)).2
            sampleCalls + 1 ∧
        o'.statusHistory.getLast?.map (fun e => e.status) = some o'.status :=
  ⟨by decide,
   statusHistory_length_after_updates sampleEnv emptyWorld (sampleBody 2 10)
    (newOrder sampleEnv (sampleBody 2 10)) rfl sampleCalls (by decide)⟩

/-- C3, at the failing input: an order is created and then receives one
`updateOrderStatus` call, legal from `pending`, during which `channel.publish`
raises. The call fails (it ends in `next(err)`), so that none of the calls
succeeded, yet the stored order has a status history of two entries, not one:
the save had gone through before the publish raised. The status of the last
history entry is still the order's status. -/
theorem statusHistory_length_broker_failure :
    (createOrder sampleEnv emptyWorld (sampleBody 2 10)).1.isSuccess = true ∧
      (updateOrderStatus brokerDownEnv (createOrder sampleEnv emptyWorld (sampleBody 2 10)).2
        "o1" "confirmed" none).1 =
        .next { name := "IllegalOperationError", message := "Channel closed" } ∧
      successCount "o1" (createOrder sampleEnv emptyWorld (sampleBody 2 10)).2
        brokerDownCalls = 0 ∧
      (findById (runUpdates (createOrder sampleEnv emptyWorld (sampleBody 2 10)).2
        brokerDownCalls).orders "o1").map (fun o => o.statusHistory.length) = some 2 ∧
      (findById (runUpdates (createOrder sampleEnv emptyWorld (sampleBody 2 10)).2
        brokerDownCalls).orders "o1").map
          (fun o => (o.statusHistory.getLast?.map (fun e => e.status), o.status)) =
        some (some "confirmed", "confirmed") := by
  refine ⟨?_, ?_, ?_, ?_, ?_⟩
  · decide
  · rfl
  · decide
  · decide
  · decide

/-! ## Lemmas on JavaScript numbers -/

theorem doubleUnit_pos : 0 < doubleUnit := by
  unfold doubleUnit
  positivity

theorem roundHalfEven_mul_left (c num den : ℕ) (hc : 0 < c) :
    roundHalfEven (c * num) (c * den) = roundHalfEven num den := by
  unfold roundHalfEven
  have h1 : c * num / (c * den) = num / den := Nat.mul_div_mul_left _ _ hc
  have h2 : c * num % (c * den) = c * (num % den) := Nat.mul_mod_mul_left _ _ _
  have h3 : 2 * (c * (num % den)) = c * (2 * (num % den)) := by ring
  simp only [h1, h2, h3, Nat.mul_lt_mul_left hc]

theorem roundToDouble_mul_left (c num den : ℕ) (hc : 0 < c) :
    roundToDouble (c * num) (c * den) = roundToDouble num den := by
  unfold roundToDouble
  have h1 : c * num / (c * den) = num / den := Nat.mul_div_mul_left _ _ hc
  simp only [h1, roundHalfEven_mul_left c num den hc, Nat.mul_assoc,
    roundHalfEven_mul_left c num _ hc]

theorem ofUnits_mul_left (s : Bool) (c num den : ℕ) (hc : 0 < c) :
    JsNumber.ofUnits s (c * num) (c * den) = JsNumber.ofUnits s num den := by
  unfold JsNumber.ofUnits
  have h1 : c * num / (c * den) = num / den := Nat.mul_div_mul_left _ _ hc
  simp only [h1, roundToDouble_mul_left c num den hc]

theorem ofRat_div (n : ℤ) (d : ℕ) (hd : 0 < d) :
    JsNumber.ofRat ((n : ℚ) / (d : ℚ)) =
      JsNumber.ofUnits (decide (n < 0)) (n.natAbs * doubleUnit) d := by
  have hd0 : ((d : ℤ)) ≠ 0 := by exact_mod_cast hd.ne'
  obtain ⟨c, hn, hdc⟩ := Rat.exists_eq_mul_div_num_and_eq_mul_div_den n hd0
  have hq : ((n : ℚ) / ((d : ℤ) : ℚ)) = (n : ℚ) / (d : ℚ) := by push_cast; rfl
  rw [hq] at hn hdc
  set q : ℚ := (n : ℚ) / (d : ℚ) with hqdef
  have hden : (0 : ℤ) < (q.den : ℤ) := by exact_mod_cast q.den_pos
  have hcpos : 0 < c := by
    by_contra hle
    push_neg at hle
    have : (d : ℤ) ≤ 0 := by
      rw [hdc]
      exact mul_nonpos_of_nonpos_of_nonneg hle hden.le
    have hdpos : (0 : ℤ) < (d : ℤ) := by exact_mod_cast hd
    omega
  have hsign : decide (q < 0) = decide (n < 0) := by
    have : q < 0 ↔ n < 0 := by
      rw [← Rat.num_neg]
      constructor
      · intro h
        rw [hn]
        exact mul_neg_of_pos_of_neg hcpos h
      · intro h
        rw [hn] at h
        by_contra hge
        push_neg at hge
        have := mul_nonneg hcpos.le hge
        omega
    simp only [this]
  have hnat : n.natAbs = c.natAbs * q.num.natAbs := by
    rw [← Int.natAbs_mul, ← hn]
  have hdnat : d = c.natAbs * q.den := by
    have : (d : ℤ) = ((c.natAbs * q.den : ℕ) : ℤ) := by
      push_cast
      rw [abs_of_pos hcpos]
      exact hdc
    exact_mod_cast this
  unfold JsNumber.ofRat
  rw [hsign]
  conv_rhs => rw [hnat, hdnat, Nat.mul_assoc]
  exact (ofUnits_mul_left _ _ _ _ (Int.natAbs_pos.mpr hcpos.ne')).symm

theorem ofRat_decimal (digits : ℤ) (scale : ℕ) :
    JsNumber.ofRat ((digits : ℚ) / 10 ^ scale) = JsNumber.ofDecimal digits scale := by
  have h := ofRat_div digits (10 ^ scale) (by positivity)
  push_cast at h
  rw [h]
  rfl

theorem log2Step_spec (n k : ℕ) (p : ℕ × ℕ) (h1 : p.1 * 2 ^ p.2 ≤ n)
    (h2 : n < (p.1 + 1) * 2 ^ p.2) (hm : p.1 < 2 ^ (2 * k)) (hpos : 0 < p.1) :
    (log2Step p k).1 * 2 ^ (log2Step p k).2 ≤ n ∧
      n < ((log2Step p k).1 + 1) * 2 ^ (log2Step p k).2 ∧
      (log2Step p k).1 < 2 ^ k ∧ 0 < (log2Step p k).1 := by
  have hd : 0 < 2 ^ k := by positivity
  unfold log2Step
  by_cases h : 2 ^ k ≤ p.1
  · simp only [if_pos h]
    have hle : p.1 / 2 ^ k * 2 ^ k ≤ p.1 := Nat.div_mul_le_self _ _
    have hlt : p.1 < (p.1 / 2 ^ k + 1) * 2 ^ k := by
      have := Nat.lt_succ_iff.mpr (le_refl (p.1 / 2 ^ k))
      exact (Nat.div_lt_iff_lt_mul hd).mp this
    refine ⟨?_, ?_, ?_, Nat.div_pos h hd⟩
    · calc p.1 / 2 ^ k * 2 ^ (p.2 + k) = p.1 / 2 ^ k * 2 ^ k * 2 ^ p.2 := by
            rw [pow_add]; ring
        _ ≤ p.1 * 2 ^ p.2 := Nat.mul_le_mul_right _ hle
        _ ≤ n := h1
    · calc n < (p.1 + 1) * 2 ^ p.2 := h2
        _ ≤ (p.1 / 2 ^ k + 1) * 2 ^ k * 2 ^ p.2 := Nat.mul_le_mul_right _ hlt
        _ = (p.1 / 2 ^ k + 1) * 2 ^ (p.2 + k) := by rw [pow_add]; ring
    · apply Nat.div_lt_of_lt_mul
      calc p.1 < 2 ^ (2 * k) := hm
        _ = 2 ^ k * 2 ^ k := by rw [two_mul, pow_add]
  · simp only [if_neg h]
    exact ⟨h1, h2, not_le.mp h, hpos⟩

theorem floorLog2_spec (n : ℕ) (hpos : 0 < n) (hn : n < 2 ^ 4096) :
    2 ^ floorLog2 n ≤ n ∧ n < 2 ^ (floorLog2 n + 1) := by
  have s1 := log2Step_spec n 2048 (n, 0) (by simp) (by simp) hn hpos
  have s2 := log2Step_spec n 1024 _ s1.1 s1.2.1 s1.2.2.1 s1.2.2.2
  have s3 := log2Step_spec n 512 _ s2.1 s2.2.1 s2.2.2.1 s2.2.2.2
  have s4 := log2Step_spec n 256 _ s3.1 s3.2.1 s3.2.2.1 s3.2.2.2
  have s5 := log2Step_spec n 128 _ s4.1 s4.2.1 s4.2.2.1 s4.2.2.2
  have s6 := log2Step_spec n 64 _ s5.1 s5.2.1 s5.2.2.1 s5.2.2.2
  have s7 := log2Step_spec n 32 _ s6.1 s6.2.1 s6.2.2.1 s6.2.2.2
  have s8 := log2Step_spec n 16 _ s7.1 s7.2.1 s7.2.2.1 s7.2.2.2
  have s9 := log2Step_spec n 8 _ s8.1 s8.2.1 s8.2.2.1 s8.2.2.2
  have s10 := log2Step_spec n 4 _ s9.1 s9.2.1 s9.2.2.1 s9.2.2.2
  have s11 := log2Step_spec n 2 _ s10.1 s10.2.1 s10.2.2.1 s10.2.2.2
  have s12 := log2Step_spec n 1 _ s11.1 s11.2.1 s11.2.2.1 s11.2.2.2
  unfold floorLog2
  simp only [List.foldl]
  obtain ⟨a, b, c, d⟩ := s12
  generalize log2Step _ 1 = p at a b c d ⊢
  have hp1 : p.1 = 1 := by
    have : p.1 < 2 := by simpa using c
    omega
  rw [hp1] at a b
  constructor
  · simpa using a
  · rw [pow_succ]
    omega

theorem le_roundHalfEven (num den : ℕ) : num / den ≤ roundHalfEven num den := by
  unfold roundHalfEven
  simp only []
  split_ifs <;> omega

theorem roundHalfEven_le (num den : ℕ) : roundHalfEven num den ≤ num / den + 1 := by
  unfold roundHalfEven
  simp only []
  split_ifs <;> omega

theorem roundHalfEven_of_dvd (num den : ℕ) (hden : 0 < den) (h : den ∣ num) :
    roundHalfEven num den = num / den := by
  unfold roundHalfEven
  simp only [Nat.mod_eq_zero_of_dvd h, Nat.mul_zero, hden, if_true]

theorem roundToDouble_lt (num den : ℕ) (ha : num / den < 2 ^ 2097) :
    roundToDouble num den < 2 ^ 2098 := by
  have h2098 : (2 : ℕ) ^ 2098 = 2 * 2 ^ 2097 := by rw [← pow_succ']
  unfold roundToDouble
  simp only []
  by_cases h : num / den < 2 ^ 53
  · rw [if_pos h]
    have h1 := roundHalfEven_le num den
    have h2 : (2 : ℕ) ^ 53 ≤ 2 ^ 2097 := Nat.pow_le_pow_right (by norm_num) (by norm_num)
    omega
  · rw [if_neg h]
    have hpos : 0 < num / den := lt_of_lt_of_le (by positivity) (not_lt.mp h)
    have h4096 : num / den < 2 ^ 4096 :=
      lt_of_lt_of_le ha (Nat.pow_le_pow_right (by norm_num) (by norm_num))
    have hspec := (floorLog2_spec _ hpos h4096).1
    set e := floorLog2 (num / den) - 52 with he
    have hpe : 2 ^ e ≤ 2 ^ floorLog2 (num / den) :=
      Nat.pow_le_pow_right (by norm_num) (Nat.sub_le _ _)
    have h1 := roundHalfEven_le num (den * 2 ^ e)
    rw [← Nat.div_div_eq_div_mul] at h1
    have h3 : num / den / 2 ^ e * 2 ^ e ≤ num / den := Nat.div_mul_le_self _ _
    calc roundHalfEven num (den * 2 ^ e) * 2 ^ e
        ≤ (num / den / 2 ^ e + 1) * 2 ^ e := Nat.mul_le_mul_right _ h1
      _ = num / den / 2 ^ e * 2 ^ e + 2 ^ e := by ring
      _ ≤ num / den + num / den := Nat.add_le_add h3 (le_trans hpe hspec)
      _ < 2 ^ 2098 := by omega

theorem roundToDouble_pos (num den : ℕ) (h1 : 1 ≤ num / den) (ha : num / den < 2 ^ 4096) :
    1 ≤ roundToDouble num den := by
  unfold roundToDouble
  simp only []
  by_cases h : num / den < 2 ^ 53
  · rw [if_pos h]
    exact le_trans h1 (le_roundHalfEven num den)
  · rw [if_neg h]
    have hspec := (floorLog2_spec _ h1 ha).1
    set e := floorLog2 (num / den) - 52 with he
    have hpe : 2 ^ e ≤ 2 ^ floorLog2 (num / den) :=
      Nat.pow_le_pow_right (by norm_num) (Nat.sub_le _ _)
    have h2 := le_roundHalfEven num (den * 2 ^ e)
    rw [← Nat.div_div_eq_div_mul] at h2
    have h3 : 1 ≤ num / den / 2 ^ e := Nat.div_pos (le_trans hpe hspec) (by positivity)
    have h4 : 1 ≤ 2 ^ e := Nat.one_le_two_pow
    calc 1 = 1 * 1 := rfl
      _ ≤ roundHalfEven num (den * 2 ^ e) * 2 ^ e := Nat.mul_le_mul (le_trans h3 h2) h4

/-- A whole number up to `2 ^ 53` is a double. -/
theorem roundToDouble_natCast (n : ℕ) (h1 : 1 ≤ n) (h2 : n ≤ 2 ^ 53) :
    roundToDouble (n * doubleUnit) 1 = n * doubleUnit := by
  have hU : doubleUnit = 2 ^ 1074 := rfl
  have hUge : 2 ^ 53 ≤ doubleUnit := by
    rw [hU]; exact Nat.pow_le_pow_right (by norm_num) (by norm_num)
  have hge : 2 ^ 53 ≤ n * doubleUnit :=
    le_trans hUge (Nat.le_mul_of_pos_left _ h1)
  have hle : n * doubleUnit ≤ 2 ^ 1127 := by
    have : (2 : ℕ) ^ 1127 = 2 ^ 53 * 2 ^ 1074 := by rw [← pow_add]
    rw [this, hU]
    exact Nat.mul_le_mul_right _ h2
  have hpos : 0 < n * doubleUnit := lt_of_lt_of_le (by positivity) hge
  have h4096 : n * doubleUnit < 2 ^ 4096 :=
    lt_of_le_of_lt hle (Nat.pow_lt_pow_right (by norm_num) (by norm_num))
  obtain ⟨hs1, hs2⟩ := floorLog2_spec _ hpos h4096
  unfold roundToDouble
  simp only [Nat.div_one, if_neg (not_lt.mpr hge), one_mul]
  set L := floorLog2 (n * doubleUnit) with hL
  have hL1127 : L ≤ 1127 :=
    (Nat.pow_le_pow_iff_right (by norm_num)).mp (le_trans hs1 hle)
  have hdvd : 2 ^ (L - 52) ∣ n * doubleUnit := by
    by_cases hc : L ≤ 1126
    · have : 2 ^ (L - 52) ∣ doubleUnit := by
        rw [hU]; exact pow_dvd_pow 2 (by omega)
      exact Dvd.dvd.mul_left this n
    · have hLeq : L = 1127 := by omega
      have hx : n * doubleUnit = 2 ^ 1127 := by
        apply le_antisymm hle
        rw [← hLeq]; exact hs1
      rw [hx]
      exact pow_dvd_pow 2 (by omega)
  rw [roundHalfEven_of_dvd _ _ (by positivity) hdvd, Nat.div_mul_cancel hdvd]

theorem ofUnits_natCast (n : ℕ) (h1 : 1 ≤ n) (h2 : n ≤ 2 ^ 53) :
    JsNumber.ofUnits false (n * doubleUnit) 1 = .finite ((n * doubleUnit : ℕ) : ℤ) := by
  have hU : doubleUnit = 2 ^ 1074 := rfl
  have hle : n * doubleUnit ≤ 2 ^ 1127 := by
    have : (2 : ℕ) ^ 1127 = 2 ^ 53 * 2 ^ 1074 := by rw [← pow_add]
    rw [this, hU]
    exact Nat.mul_le_mul_right _ h2
  have hlt : n * doubleUnit < 2 ^ 2098 :=
    lt_of_le_of_lt hle (Nat.pow_lt_pow_right (by norm_num) (by norm_num))
  unfold JsNumber.ofUnits
  simp only [Nat.div_one, if_neg (not_le.mpr hlt), roundToDouble_natCast n h1 h2]
  rfl

/-- The shape of a rounded result: an infinity of the given sign, or a finite
number of that sign. -/
theorem ofUnits_cases (s : Bool) (num den : ℕ) :
    JsNumber.ofUnits s num den = .infinity s ∨
      (num / den < 2 ^ 2098 ∧ roundToDouble num den < 2 ^ 2098 ∧
        JsNumber.ofUnits s num den =
          .finite (if s then -(roundToDouble num den : ℤ) else (roundToDouble num den : ℤ))) := by
  unfold JsNumber.ofUnits
  by_cases h1 : 2 ^ 2098 ≤ num / den
  · left; rw [if_pos h1]
  · by_cases h2 : 2 ^ 2098 ≤ roundToDouble num den
    · left; simp only [if_neg h1, if_pos h2]
    · right
      simp only [if_neg h1, if_neg h2]
      exact ⟨not_le.mp h1, not_le.mp h2, by simp⟩

theorem ofRat_natCast (n : ℕ) (h1 : 1 ≤ n) (h2 : n ≤ 2 ^ 53) :
    JsNumber.ofRat (n : ℚ) = .finite ((n * doubleUnit : ℕ) : ℤ) := by
  have h := ofRat_div (n : ℤ) 1 (by norm_num)
  simp only [Int.cast_natCast, Nat.cast_one, div_one, Int.natAbs_ofNat] at h
  rw [h]
  have hs : decide ((n : ℤ) < 0) = false := by
    simp
  rw [hs]
  exact ofUnits_natCast n h1 h2

/-- What `isInt` accepts: the numbers whose double is a whole number `m` with
`min ≤ m` and of magnitude below `10 ^ 21`. -/
theorem isInt_iff (q : ℚ) (min : ℤ) :
    isInt q min = true ↔
      ∃ m : ℤ, JsNumber.ofRat q = .finite (m * (doubleUnit : ℤ)) ∧ min ≤ m ∧
        m.natAbs < 10 ^ 21 := by
  have hU : (0 : ℤ) < (doubleUnit : ℤ) := by exact_mod_cast doubleUnit_pos
  unfold isInt
  cases hq : JsNumber.ofRat q with
  | finite k =>
    simp only [Bool.and_eq_true, decide_eq_true_eq]
    constructor
    · rintro ⟨⟨⟨m, rfl⟩, h2⟩, h3⟩
      refine ⟨m, by rw [mul_comm], ?_, ?_⟩
      · rw [mul_comm] at h3
        exact le_of_mul_le_mul_left h3 hU
      · rw [Int.natAbs_mul, Int.natAbs_ofNat, mul_comm] at h2
        exact lt_of_mul_lt_mul_right h2 (Nat.zero_le _)
    · rintro ⟨m, hm, h1, h2⟩
      cases hm
      refine ⟨⟨Dvd.intro_left m rfl, ?_⟩, ?_⟩
      · rw [Int.natAbs_mul, Int.natAbs_ofNat]
        exact Nat.mul_lt_mul_of_pos_right h2 doubleUnit_pos
      · exact mul_le_mul_of_nonneg_right h1 hU.le
  | infinity s => simp
  | nan => simp

/-- A whole number from 1 to `2 ^ 53` passes `isInt({ min: 1 })`. -/
theorem isInt_natCast (n : ℕ) (h1 : 1 ≤ n) (h2 : n ≤ 2 ^ 53) : isInt (n : ℚ) 1 = true := by
  rw [isInt_iff]
  refine ⟨n, ?_, by exact_mod_cast h1, ?_⟩
  · rw [ofRat_natCast n h1 h2]
    push_cast
    rfl
  · rw [Int.natAbs_ofNat]
    exact lt_of_le_of_lt h2 (by norm_num)

/-- A number that is not positive fails `isInt({ min: 1 })`. -/
theorem isInt_of_nonpos (q : ℚ) (h : q ≤ 0) : isInt q 1 = false := by
  have hU : (0 : ℤ) < (doubleUnit : ℤ) := by exact_mod_cast doubleUnit_pos
  unfold isInt JsNumber.ofRat
  rcases ofUnits_cases (decide (q < 0)) (q.num.natAbs * doubleUnit) q.den with h1 | ⟨-, -, h1⟩
  · rw [h1]
  · have hk : (if decide (q < 0) = true then
        -(roundToDouble (q.num.natAbs * doubleUnit) q.den : ℤ)
        else (roundToDouble (q.num.natAbs * doubleUnit) q.den : ℤ)) ≤ 0 := by
      by_cases hq : q < 0
      · simp only [hq, decide_True, if_true]
        omega
      · have hq0 : q = 0 := le_antisymm h (not_lt.mp hq)
        subst hq0
        simp [roundToDouble, roundHalfEven]
    generalize (if decide (q < 0) = true then
        -(roundToDouble (q.num.natAbs * doubleUnit) q.den : ℤ)
        else (roundToDouble (q.num.natAbs * doubleUnit) q.den : ℤ)) = k at h1 hk
    rw [h1]
    have : decide (1 * (doubleUnit : ℤ) ≤ k) = false := by
      rw [decide_eq_false_iff_not]
      omega
    simp only [this, Bool.and_false]

theorem natAbs_num_lt (u : ℚ) (B : ℕ) (h0 : 0 ≤ u) (h : u < (B : ℚ)) :
    u.num.natAbs < B * u.den := by
  have hnum : 0 ≤ u.num := Rat.num_nonneg.mpr h0
  have hden : (0 : ℚ) < (u.den : ℚ) := by exact_mod_cast u.den_pos
  have h2 : (u.num : ℚ) < (B : ℚ) * (u.den : ℚ) := by
    rw [← Rat.mul_den_eq_num u]
    exact mul_lt_mul_of_pos_right h hden
  have h3 : u.num < (B : ℤ) * (u.den : ℤ) := by exact_mod_cast h2
  zify
  rw [abs_of_nonneg hnum]
  exact h3

theorem den_le_natAbs_num (u : ℚ) (P : ℕ) (hP : 0 < P) (h : u ≤ -(1 / (P : ℚ))) :
    u.den ≤ u.num.natAbs * P := by
  have hPq : (0 : ℚ) < (P : ℚ) := by exact_mod_cast hP
  have hneg : u < 0 := lt_of_le_of_lt h (by simp [hPq])
  have hnum : u.num < 0 := Rat.num_neg.mpr hneg
  have hden : (0 : ℚ) < (u.den : ℚ) := by exact_mod_cast u.den_pos
  have h4 : (1 : ℚ) ≤ -u * P := by
    have := mul_le_mul_of_nonneg_right h hPq.le
    rw [neg_mul, one_div, inv_mul_cancel₀ hPq.ne'] at this
    linarith
  have h2 : (u.den : ℚ) ≤ (-(u.num : ℚ)) * (P : ℚ) := by
    rw [← Rat.mul_den_eq_num u]
    calc (u.den : ℚ) = 1 * u.den := (one_mul _).symm
      _ ≤ -u * P * u.den := mul_le_mul_of_nonneg_right h4 hden.le
      _ = -(u * u.den) * P := by ring
  have h3 : (u.den : ℤ) ≤ (-u.num) * (P : ℤ) := by exact_mod_cast h2
  zify
  rw [abs_of_neg hnum]
  exact h3

/-- A number from 0 to below `2 ^ 1023` passes `isFloat({ min: 0 })`. -/
theorem isFloat_of_nonneg (u : ℚ) (h0 : 0 ≤ u) (h1 : u < 2 ^ 1023) : isFloat u 0 = true := by
  have h1' : u < ((2 ^ 1023 : ℕ) : ℚ) := by
    rw [Nat.cast_pow, Nat.cast_ofNat]
    exact h1
  have hlt := natAbs_num_lt u (2 ^ 1023) h0 h1'
  have ha : u.num.natAbs * doubleUnit / u.den < 2 ^ 2097 := by
    rw [Nat.div_lt_iff_lt_mul u.den_pos]
    have : (2 : ℕ) ^ 2097 = 2 ^ 1023 * 2 ^ 1074 := by rw [← pow_add]
    rw [this]
    calc u.num.natAbs * doubleUnit < 2 ^ 1023 * u.den * doubleUnit :=
          Nat.mul_lt_mul_of_pos_right hlt doubleUnit_pos
      _ = 2 ^ 1023 * 2 ^ 1074 * u.den := by
          unfold doubleUnit; ring
  have hk := roundToDouble_lt _ _ ha
  have hs : decide (u < 0) = false := by simp [not_lt.mpr h0]
  have h2097 : (2 : ℕ) ^ 2097 ≤ 2 ^ 2098 := Nat.pow_le_pow_right (by norm_num) (by norm_num)
  unfold isFloat JsNumber.ofRat JsNumber.ofUnits
  rw [hs, if_neg (by omega), if_neg (by omega)]
  simp

/-- A number at or below `-2 ^ (-1074)` fails `isFloat({ min: 0 })`. -/
theorem isFloat_of_neg (u : ℚ) (h : u ≤ -(1 / 2 ^ 1074)) : isFloat u 0 = false := by
  have h' : u ≤ -(1 / ((doubleUnit : ℕ) : ℚ)) := by
    unfold doubleUnit
    rw [Nat.cast_pow, Nat.cast_ofNat]
    exact h
  have hneg : u < 0 :=
    lt_of_le_of_lt h' (by
      have : (0 : ℚ) < ((doubleUnit : ℕ) : ℚ) := by exact_mod_cast doubleUnit_pos
      simp [this])
  have hge := den_le_natAbs_num u doubleUnit doubleUnit_pos h'
  have ha : 1 ≤ u.num.natAbs * doubleUnit / u.den :=
    (Nat.one_le_div_iff u.den_pos).mpr hge
  have hs : decide (u < 0) = true := by simp [hneg]
  unfold isFloat JsNumber.ofRat
  rcases ofUnits_cases (decide (u < 0)) (u.num.natAbs * doubleUnit) u.den with h1 | ⟨h0, -, h1⟩
  · rw [h1]
  · rw [h1, hs]
    have h4096 : u.num.natAbs * doubleUnit / u.den < 2 ^ 4096 :=
      lt_of_lt_of_le h0 (Nat.pow_le_pow_right (by norm_num) (by norm_num))
    have hk := roundToDouble_pos _ _ ha h4096
    have : decide (0 * (doubleUnit : ℤ) ≤
        -(roundToDouble (u.num.natAbs * doubleUnit) u.den : ℤ)) = false := by
      rw [decide_eq_false_iff_not]
      omega
    simp only [if_true, this]

theorem ofDecimal_natCast (n : ℕ) (h1 : 1 ≤ n) (h2 : n ≤ 2 ^ 53) :
    JsNumber.ofDecimal (n : ℤ) 0 = .finite ((n * doubleUnit : ℕ) : ℤ) := by
  unfold JsNumber.ofDecimal
  have hs : decide ((n : ℤ) < 0) = false := by simp
  rw [hs, Int.natAbs_ofNat, pow_zero]
  exact ofUnits_natCast n h1 h2

/-- `Math.round` on a finite number: the integer `k` with
`k - 1/2 ≤ x < k + 1/2`. -/
theorem round_finite (u : ℤ) :
    ∃ k : ℤ, JsNumber.round (.finite u) = .finite (k * (doubleUnit : ℤ)) ∧
      (k : ℚ) - 1 / 2 ≤ (u : ℚ) / (doubleUnit : ℚ) ∧
      (u : ℚ) / (doubleUnit : ℚ) < (k : ℚ) + 1 / 2 := by
  have hU : (0 : ℤ) < (doubleUnit : ℤ) := by exact_mod_cast doubleUnit_pos
  have hUq : (0 : ℚ) < (doubleUnit : ℚ) := by exact_mod_cast doubleUnit_pos
  have h2U : (0 : ℤ) < 2 * (doubleUnit : ℤ) := by omega
  have h1 := Int.ediv_mul_le (2 * u + doubleUnit) h2U.ne'
  have h2 := Int.lt_ediv_add_one_mul_self (2 * u + doubleUnit) h2U
  generalize hk : (2 * u + (doubleUnit : ℤ)) / (2 * (doubleUnit : ℤ)) = k at h1 h2
  have h1q : (k : ℚ) * (2 * (doubleUnit : ℚ)) ≤ 2 * (u : ℚ) + (doubleUnit : ℚ) := by
    exact_mod_cast h1
  have h2q : 2 * (u : ℚ) + (doubleUnit : ℚ) < ((k : ℚ) + 1) * (2 * (doubleUnit : ℚ)) := by
    exact_mod_cast h2
  refine ⟨k, ?_, ?_, ?_⟩
  · simp only [JsNumber.round, hk]
  · rw [le_div_iff₀ hUq]
    linarith
  · rw [div_lt_iff₀ hUq]
    linarith

/-- Dividing a whole number `k` by 100 gives the double the decimal literal
`k / 100` denotes. -/
theorem div_hundred (k : ℤ) :
    (JsNumber.finite (k * (doubleUnit : ℤ))).div (.ofDecimal 100 0) = .ofDecimal k 2 := by
  have hU : (0 : ℤ) < (doubleUnit : ℤ) := by exact_mod_cast doubleUnit_pos
  have h100 : JsNumber.ofDecimal 100 0 = .finite ((100 * doubleUnit : ℕ) : ℤ) := by
    have h := ofDecimal_natCast 100 (by norm_num) (by norm_num)
    rw [Nat.cast_ofNat] at h
    exact h
  have hne : ¬ (((100 * doubleUnit : ℕ) : ℤ) = 0) := by
    have := doubleUnit_pos
    omega
  have hs1 : decide (k * (doubleUnit : ℤ) < 0) = decide (k < 0) := by
    have : k * (doubleUnit : ℤ) < 0 ↔ k < 0 := by
      constructor
      · intro h
        by_contra hk
        have := mul_nonneg (not_lt.mp hk) hU.le
        omega
      · intro h
        exact mul_neg_of_neg_of_pos h hU
    simp only [this]
  have hs2 : decide (((100 * doubleUnit : ℕ) : ℤ) < 0) = false := by
    rw [decide_eq_false_iff_not]
    omega
  rw [h100]
  simp only [JsNumber.div, if_neg hne, hs1, hs2, Bool.bne_false, Int.natAbs_mul,
    Int.natAbs_ofNat]
  unfold JsNumber.ofDecimal
  have e1 : k.natAbs * doubleUnit * doubleUnit = doubleUnit * (k.natAbs * doubleUnit) := by
    ring
  have e2 : 100 * doubleUnit = doubleUnit * 10 ^ 2 := by ring
  rw [e1, e2]
  exact ofUnits_mul_left _ _ _ _ doubleUnit_pos

/-- What `roundsToCents` says: the number is finite and its value is less than
half a cent away from `cents / 100`. -/
theorem roundsToCents_iff (x : JsNumber) (cents : ℤ) :
    x.roundsToCents cents = true ↔
      ∃ v : ℚ, x.toRat = some v ∧ |v - (cents : ℚ) / 100| < 1 / 200 := by
  have hUq : (0 : ℚ) < (doubleUnit : ℚ) := by exact_mod_cast doubleUnit_pos
  cases x with
  | finite k =>
    simp only [JsNumber.roundsToCents, JsNumber.toRat, decide_eq_true_eq, Option.some.injEq,
      exists_eq_left']
    have e : (k : ℚ) / (doubleUnit : ℚ) - (cents : ℚ) / 100 =
        (100 * (k : ℚ) - (cents : ℚ) * (doubleUnit : ℚ)) / (100 * (doubleUnit : ℚ)) := by
      field_simp
      ring
    have hpos : (0 : ℚ) < 100 * (doubleUnit : ℚ) := by positivity
    rw [e, abs_div, abs_of_pos hpos, div_lt_iff₀ hpos]
    constructor
    · intro h
      have h' : (2 : ℚ) * |100 * (k : ℚ) - (cents : ℚ) * (doubleUnit : ℚ)| <
          (doubleUnit : ℚ) := by
        exact_mod_cast h
      linarith
    · intro h
      have h' : (2 : ℚ) * |100 * (k : ℚ) - (cents : ℚ) * (doubleUnit : ℚ)| <
          (doubleUnit : ℚ) := by
        linarith
      exact_mod_cast h'
  | infinity s => simp [JsNumber.roundsToCents, JsNumber.toRat]
  | nan => simp [JsNumber.roundsToCents, JsNumber.toRat]

/-! ## Pricing in double precision -/

theorem orderAmounts_fields (body : CreateBody) :
    (orderAmounts body).processedItems = jsProcessedItems (body.items.map parseItem) ∧
      (orderAmounts body).subtotal = jsSubtotal (orderAmounts body).processedItems ∧
      (orderAmounts body).taxAmount = jsTaxAmount (orderAmounts body).subtotal ∧
      (orderAmounts body).shippingCost = jsShippingCost (orderAmounts body).subtotal ∧
      (orderAmounts body).totalAmount =
        jsTotalAmount (orderAmounts body).subtotal (orderAmounts body).taxAmount
          (orderAmounts body).shippingCost :=
  ⟨rfl, rfl, rfl, rfl, rfl⟩

theorem foldl_add_totalPrice (items : List JsItem) (acc : JsNumber) :
    List.foldl (fun (sum : JsNumber) (item : JsOrderItem) => sum.add item.totalPrice) acc
        (jsProcessedItems items) =
      List.foldl JsNumber.add acc (items.map (fun item => item.quantity.mul item.unitPrice)) := by
  induction items generalizing acc with
  | nil => rfl
  | cons a as ih =>
    simp only [jsProcessedItems, List.map_cons, List.foldl_cons] at ih ⊢
    exact ih _

theorem orderAmounts_subtotal (body : CreateBody) :
    (orderAmounts body).subtotal =
      List.foldl JsNumber.add (.ofDecimal 0 0)
        (body.items.map (fun item =>
          (JsNumber.ofRat item.quantity).mul (JsNumber.ofRat item.unitPrice))) := by
  show jsSubtotal (jsProcessedItems (body.items.map parseItem)) = _
  unfold jsSubtotal
  rw [foldl_add_totalPrice, List.map_map]
  rfl

/-- C8, counterexample: three items, one of each, at 32.02, 0.02 and 17.96.
The products sum to 50 exactly, and the subtotal `createOrder` computes is the
double 50.00000000000001, not 50. -/
theorem subtotal_not_exact_sum :
    (fiftyBody.items.map (fun item => item.quantity * item.unitPrice)).sum = 50 ∧
      (orderAmounts fiftyBody).subtotal = .ofDecimal 5000000000000001 14 ∧
      (orderAmounts fiftyBody).subtotal ≠ .ofDecimal 50 0 := by
  have e0 : JsNumber.ofRat (1 : ℚ) = .ofDecimal 1 0 := by
    rw [← ofRat_decimal]; norm_num
  have e1 : JsNumber.ofRat (32.02 : ℚ) = .ofDecimal 3202 2 := by
    rw [← ofRat_decimal]; norm_num
  have e2 : JsNumber.ofRat (0.02 : ℚ) = .ofDecimal 2 2 := by
    rw [← ofRat_decimal]; norm_num
  have e3 : JsNumber.ofRat (17.96 : ℚ) = .ofDecimal 1796 2 := by
    rw [← ofRat_decimal]; norm_num
  have hs : (orderAmounts fiftyBody).subtotal = .ofDecimal 5000000000000001 14 := by
    rw [orderAmounts_subtotal]
    simp only [fiftyBody, List.map_cons, List.map_nil, List.foldl_cons, List.foldl_nil, e0, e1,
      e2, e3]
    decide
  refine ⟨by norm_num [fiftyBody], hs, ?_⟩
  rw [hs]
  decide

/-- C8, amended: the items `createOrder` stores are the items of the request
in the same order, each with the fields of the request item (its numbers as
the doubles the body parser delivers) and with `totalPrice` the product
`quantity * unitPrice` in double arithmetic; `subtotal` is the sum of these
products in double arithmetic, added from the left starting at 0. -/
theorem orderAmounts_items_subtotal (env : Env) (body : CreateBody) :
    (newOrder env body).items.map (fun it => it.toItemInput) = body.items ∧
      (orderAmounts body).processedItems.map (fun it => it.toJsItem) =
        body.items.map parseItem ∧
      (∀ it : ItemInput, (parseItem it).productId = it.productId ∧
        (parseItem it).productName = it.productName ∧ (parseItem it).sku = it.sku ∧
        (parseItem it).quantity = JsNumber.ofRat it.quantity ∧
        (parseItem it).unitPrice = JsNumber.ofRat it.unitPrice) ∧
      (∀ it ∈ (orderAmounts body).processedItems,
        it.totalPrice = it.quantity.mul it.unitPrice) ∧
      (orderAmounts body).subtotal =
        List.foldl JsNumber.add (.ofDecimal 0 0)
          (body.items.map (fun item =>
            (JsNumber.ofRat item.quantity).mul (JsNumber.ofRat item.unitPrice))) := by
  refine ⟨?_, ?_, fun it => ⟨rfl, rfl, rfl, rfl, rfl⟩, ?_, orderAmounts_subtotal body⟩
  · simp [newOrder, Function.comp_def]
  · show (jsProcessedItems (body.items.map parseItem)).map (fun it => it.toJsItem) = _
    simp [jsProcessedItems, Function.comp_def]
  · intro it hit
    have hit' : it ∈ jsProcessedItems (body.items.map parseItem) := hit
    simp only [jsProcessedItems, List.mem_map] at hit'
    obtain ⟨item, -, rfl⟩ := hit'
    rfl

/-- C9, counterexample: one item at 1.8125. Eight percent of the subtotal is
0.145, exactly halfway between 14 and 15 cents, so that the claim asks for
0.15; the product `subtotal * 0.08 * 100` is the double 14.499999999999998,
`Math.round` gives 14, and the tax `createOrder` computes is 0.14. -/
theorem taxAmount_tie_rounds_down :
    (0.08 * 1.8125 * 100 : ℚ) = 14 + 1 / 2 ∧
      (orderAmounts (sampleBody 1 1.8125)).subtotal = .ofDecimal 18125 4 ∧
      taxProduct (.ofDecimal 18125 4) = .ofDecimal 14499999999999998 15 ∧
      (orderAmounts (sampleBody 1 1.8125)).taxAmount = .ofDecimal 14 2 ∧
      (orderAmounts (sampleBody 1 1.8125)).taxAmount ≠ .ofDecimal 15 2 := by
  have e0 : JsNumber.ofRat (1 : ℚ) = .ofDecimal 1 0 := by
    rw [← ofRat_decimal]; norm_num
  have e1 : JsNumber.ofRat (1.8125 : ℚ) = .ofDecimal 18125 4 := by
    rw [← ofRat_decimal]; norm_num
  have hs : (orderAmounts (sampleBody 1 1.8125)).subtotal = .ofDecimal 18125 4 := by
    rw [orderAmounts_subtotal]
    simp only [sampleBody, List.map_cons, List.map_nil, List.foldl_cons, List.foldl_nil, e0, e1]
    decide
  have ht : (orderAmounts (sampleBody 1 1.8125)).taxAmount = .ofDecimal 14 2 := by
    rw [(orderAmounts_fields _).2.2.1, hs]
    decide
  refine ⟨by norm_num, hs, by decide, ht, ?_⟩
  rw [ht]
  decide

/-- C9, amended: when the product `p = subtotal * 0.08 * 100`, computed in
double arithmetic, is finite, the tax `createOrder` computes is the double
the decimal `k / 100` denotes, where `k` is the integer with
`k - 1/2 ≤ p < k + 1/2` (`Math.round`, a tie of `p` going up). -/
theorem taxAmount_rounding (body : CreateBody) (u : ℤ)
    (hp : taxProduct (orderAmounts body).subtotal = .finite u) :
    ∃ k : ℤ, (k : ℚ) - 1 / 2 ≤ (u : ℚ) / (doubleUnit : ℚ) ∧
      (u : ℚ) / (doubleUnit : ℚ) < (k : ℚ) + 1 / 2 ∧
      (taxProduct (orderAmounts body).subtotal).toRat = some ((u : ℚ) / (doubleUnit : ℚ)) ∧
      (orderAmounts body).taxAmount = .ofDecimal k 2 := by
  obtain ⟨k, hk, h1, h2⟩ := round_finite u
  refine ⟨k, h1, h2, by rw [hp]; rfl, ?_⟩
  rw [(orderAmounts_fields body).2.2.1]
  unfold jsTaxAmount
  rw [hp, hk]
  exact div_hundred k

/-- Witness of C9 (amended): the order of one item at 1.8125, whose product is
the double 14.499999999999998. -/
theorem taxAmount_rounding_witness :
    ∃ k : ℤ, (k : ℚ) - 1 / 2 ≤ (tieProductUnits : ℚ) / (doubleUnit : ℚ) ∧
      (tieProductUnits : ℚ) / (doubleUnit : ℚ) < (k : ℚ) + 1 / 2 ∧
      (taxProduct (orderAmounts (sampleBody 1 1.8125)).subtotal).toRat =
        some ((tieProductUnits : ℚ) / (doubleUnit : ℚ)) ∧
      (orderAmounts (sampleBody 1 1.8125)).taxAmount = .ofDecimal k 2 :=
  taxAmount_rounding (sampleBody 1 1.8125) tieProductUnits (by
    have e0 : JsNumber.ofRat (1 : ℚ) = .ofDecimal 1 0 := by
      rw [← ofRat_decimal]; norm_num
    have e1 : JsNumber.ofRat (1.8125 : ℚ) = .ofDecimal 18125 4 := by
      rw [← ofRat_decimal]; norm_num
    rw [orderAmounts_subtotal]
    simp only [sampleBody, List.map_cons, List.map_nil, List.foldl_cons, List.foldl_nil, e0, e1]
    decide)

/-! ## Pricing with exact amounts -/

theorem foldl_totalPrice (items : List ItemInput) (acc : ℚ) :
    List.foldl (fun (sum : ℚ) (item : OrderItem) => sum + item.totalPrice) acc
        (items.map (fun item =>
          ({ toItemInput := item, totalPrice := item.quantity * item.unitPrice } : OrderItem))) =
      acc + (items.map (fun item => item.quantity * item.unitPrice)).sum := by
  induction items generalizing acc with
  | nil => simp
  | cons a as ih =>
    simp only [List.map_cons, List.foldl_cons, List.sum_cons, ih]
    ring

theorem newOrder_subtotal (env : Env) (body : CreateBody) :
    (newOrder env body).subtotal =
      (body.items.map (fun item => item.quantity * item.unitPrice)).sum := by
  simp only [newOrder, foldl_totalPrice, zero_add]

theorem newOrder_taxAmount (env : Env) (body : CreateBody) :
    (newOrder env body).taxAmount =
      mathRound ((newOrder env body).subtotal * 0.08 * 100) / 100 := rfl

theorem newOrder_shippingCost (env : Env) (body : CreateBody) :
    (newOrder env body).shippingCost =
      if (newOrder env body).subtotal > 50 then 0 else 9.99 := rfl

/-- C10: the `shippingCost` of an order created by `createOrder` is 0 when the
subtotal is strictly greater than 50 and 9.99 otherwise; a subtotal of
exactly 50 is charged 9.99, and no other value than 0 or 9.99 occurs. -/
theorem createOrder_shippingCost (env : Env) (w : World) (body : CreateBody) (o : Order)
    (hc : (createOrder env w body).1 =
      .json 201 (.orderCreated "Order created successfully" o)) :
    (o.subtotal > 50 → o.shippingCost = 0) ∧
      (o.subtotal ≤ 50 → o.shippingCost = 9.99) ∧
      (o.subtotal = 50 → o.shippingCost = 9.99) ∧
      (o.shippingCost = 0 ∨ o.shippingCost = 9.99) := by
  obtain ⟨ho, -⟩ := createOrder_created hc
  have hsc : o.shippingCost = if o.subtotal > 50 then 0 else 9.99 := by
    rw [ho]; exact newOrder_shippingCost env body
  refine ⟨?_, ?_, ?_, ?_⟩
  · intro h
    rw [hsc, if_pos h]
  · intro h
    rw [hsc, if_neg (not_lt.mpr h)]
  · intro h
    rw [hsc, if_neg (not_lt.mpr h.le)]
  · by_cases h : o.subtotal > 50
    · left; rw [hsc, if_pos h]
    · right; rw [hsc, if_neg h]

/-- Witness of C10: one item at 50 gives the subtotal 50 and the shipping cost
9.99. -/
theorem createOrder_shippingCost_witness :
    (newOrder sampleEnv (sampleBody 1 50)).subtotal = 50 ∧
      (newOrder sampleEnv (sampleBody 1 50)).shippingCost = 9.99 :=
  have hs : (newOrder sampleEnv (sampleBody 1 50)).subtotal = 50 := by
    rw [newOrder_subtotal]; norm_num [sampleBody]
  ⟨hs, (createOrder_shippingCost sampleEnv emptyWorld (sampleBody 1 50)
    (newOrder sampleEnv (sampleBody 1 50)) rfl).2.2.1 hs⟩

/-! ## Totals along the life of an order -/

theorem updateOrderStatus_orders_cases (env : Env) (w : World) (id t : String)
    (note : Option String) :
    (updateOrderStatus env w id t note).2.orders = w.orders ∨
      ∃ o1, findById w.orders id = some o1 ∧
        (updateOrderStatus env w id t note).2.orders =
          saveExisting w.orders (applyStatus o1 t note) := by
  unfold updateOrderStatus publishEvent
  cases hf : env.findErr with
  | some e => simp
  | none =>
    cases ho : findById w.orders id with
    | none => simp
    | some o =>
      cases ha : transitionAllowed o.status t with
      | false => simp [ha]
      | true =>
        cases hs : env.saveErr with
        | some e => simp [ha]
        | none =>
          right
          refine ⟨o, rfl, ?_⟩
          cases hc : w.channel with
          | false => simp [ha, hc]
          | true =>
            cases hp : env.publishErr with
            | some e => simp [ha, hc]
            | none => simp [ha, hc]

theorem updateOrderStatus_findById_cases {env : Env} {w : World} {id t : String}
    {note : Option String} {i : String} {o : Order} (ho : findById w.orders i = some o) :
    findById (updateOrderStatus env w id t note).2.orders i = some o ∨
      findById (updateOrderStatus env w id t note).2.orders i = some (applyStatus o t note) := by
  rcases updateOrderStatus_orders_cases env w id t note with h | ⟨o1, ho1, h⟩
  · left; rw [h]; exact ho
  · have hid1 : (applyStatus o1 t note).id = id :=
      (applyStatus_id _ _ _).trans (findById_id ho1)
    by_cases hi : id = i
    · right
      subst hi
      rw [ho] at ho1
      cases ho1
      rw [h]
      exact findById_saveExisting_same _ ho hid1
    · left
      rw [h, findById_saveExisting_other _ _ _ (fun e => hi (hid1.symm.trans e))]
      exact ho

theorem runUpdates_invariant (P : Order → Prop)
    (hP : ∀ o t note, P o → P (applyStatus o t note)) (calls : List StatusCall) :
    ∀ (w : World) (i : String) (o : Order), findById w.orders i = some o → P o →
      ∃ o', findById (runUpdates w calls).orders i = some o' ∧ P o' := by
  induction calls with
  | nil =>
    intro w i o ho hp
    exact ⟨o, ho, hp⟩
  | cons c cs ih =>
    intro w i o ho hp
    rcases @updateOrderStatus_findById_cases c.env w c.id c.status c.note i o ho with h | h
    · exact ih _ i o h hp
    · exact ih _ i _ h (hP o c.status c.note hp)

/-- C11: an order created by `createOrder` has
`totalAmount = subtotal + taxAmount + shippingCost`, and after any sequence of
`updateOrderStatus` calls (whatever their outcome) the stored order still has
the four amounts it was created with, so the equation still holds. -/
theorem totalAmount_invariant (env : Env) (w : World) (body : CreateBody) (o : Order)
    (hc : (createOrder env w body).1 =
      .json 201 (.orderCreated "Order created successfully" o))
    (calls : List StatusCall) :
    o.totalAmount = o.subtotal + o.taxAmount + o.shippingCost ∧
      ∃ o', findById (runUpdates (createOrder env w body).2 calls).orders o.id = some o' ∧
        o'.subtotal = o.subtotal ∧ o'.taxAmount = o.taxAmount ∧
        o'.shippingCost = o.shippingCost ∧
        o'.totalAmount = o'.subtotal + o'.taxAmount + o'.shippingCost := by
  obtain ⟨ho, hfind⟩ := createOrder_created hc
  have h0 : o.totalAmount = o.subtotal + o.taxAmount + o.shippingCost := by
    rw [ho]; rfl
  refine ⟨h0, ?_⟩
  obtain ⟨o', h1, h2, h3, h4, h5⟩ := runUpdates_invariant
    (fun x => x.subtotal = o.subtotal ∧ x.taxAmount = o.taxAmount ∧
      x.shippingCost = o.shippingCost ∧ x.totalAmount = o.totalAmount)
    (fun x t note hx => by
      obtain ⟨-, f2, f3, f4, f5, -, -⟩ := applyStatus_frame x t note
      exact ⟨f2.trans hx.1, f3.trans hx.2.1, f4.trans hx.2.2.1, f5.trans hx.2.2.2⟩)
    calls _ _ o hfind ⟨rfl, rfl, rfl, rfl⟩
  exact ⟨o', h1, h2, h3, h4, by rw [h5, h0, h2, h3, h4]⟩

/-- Witness of C11: the order created from one item, 2 at 10, after the four
sample requests. -/
theorem totalAmount_invariant_witness :
    ∃ o', findById (runUpdates (createOrder sampleEnv emptyWorld (sampleBody 2 10)).2
        sampleCalls).orders "o1" = some o' ∧
      o'.totalAmount = o'.subtotal + o'.taxAmount + o'.shippingCost :=
  let ⟨o', h1, _, _, _, h5⟩ :=
    (totalAmount_invariant sampleEnv emptyWorld (sampleBody 2 10)
      (newOrder sampleEnv (sampleBody 2 10)) rfl sampleCalls).2
  ⟨o', h1, h5⟩

/-! ## The two pricing examples in double precision -/

/-- C12, counterexample: for the single item `{quantity: 2, unitPrice: 10}` the
total `createOrder` computes, `20 + 1.6 + 9.99` in double arithmetic, is the
double 31.590000000000003 and not the double 31.59. -/
theorem single_item_totalAmount_not_3159 :
    (orderAmounts (sampleBody 2 10)).totalAmount = .ofDecimal 31590000000000003 15 ∧
      (orderAmounts (sampleBody 2 10)).totalAmount ≠ .ofDecimal 3159 2 := by
  have e0 : JsNumber.ofRat (2 : ℚ) = .ofDecimal 2 0 := by
    rw [← ofRat_decimal]; norm_num
  have e1 : JsNumber.ofRat (10 : ℚ) = .ofDecimal 10 0 := by
    rw [← ofRat_decimal]; norm_num
  have hs : (orderAmounts (sampleBody 2 10)).subtotal = .ofDecimal 20 0 := by
    rw [orderAmounts_subtotal]
    simp only [sampleBody, List.map_cons, List.map_nil, List.foldl_cons, List.foldl_nil, e0, e1]
    decide
  have ht : (orderAmounts (sampleBody 2 10)).totalAmount =
      .ofDecimal 31590000000000003 15 := by
    obtain ⟨-, -, h3, h4, h5⟩ := orderAmounts_fields (sampleBody 2 10)
    rw [h5, h4, h3, hs]
    decide
  refine ⟨ht, ?_⟩
  rw [ht]
  decide

/-- C12, amended: `createOrder` applied to the single item
`{quantity: 2, unitPrice: 10}` computes `subtotal = 20`, `taxAmount = 1.6`,
`shippingCost = 9.99` and `totalAmount = 31.590000000000003`, the sum
`20 + 1.6 + 9.99` in double arithmetic; this total is finite and less than
half a cent away from 31.59. -/
theorem orderAmounts_single_item_example (body : CreateBody) (it : ItemInput)
    (hitems : body.items = [it]) (hq : it.quantity = 2) (hu : it.unitPrice = 10) :
    (orderAmounts body).subtotal = .ofDecimal 20 0 ∧
      (orderAmounts body).taxAmount = .ofDecimal 16 1 ∧
      (orderAmounts body).shippingCost = .ofDecimal 999 2 ∧
      (orderAmounts body).totalAmount = .ofDecimal 31590000000000003 15 ∧
      ∃ v : ℚ, (orderAmounts body).totalAmount.toRat = some v ∧
        |v - (3159 : ℚ) / 100| < 1 / 200 := by
  have e0 : JsNumber.ofRat (2 : ℚ) = .ofDecimal 2 0 := by
    rw [← ofRat_decimal]; norm_num
  have e1 : JsNumber.ofRat (10 : ℚ) = .ofDecimal 10 0 := by
    rw [← ofRat_decimal]; norm_num
  have hs : (orderAmounts body).subtotal = .ofDecimal 20 0 := by
    rw [orderAmounts_subtotal, hitems]
    simp only [List.map_cons, List.map_nil, List.foldl_cons, List.foldl_nil, hq, hu, e0, e1]
    decide
  obtain ⟨-, -, h3, h4, h5⟩ := orderAmounts_fields body
  have htax : (orderAmounts body).taxAmount = .ofDecimal 16 1 := by
    rw [h3, hs]
    decide
  have hship : (orderAmounts body).shippingCost = .ofDecimal 999 2 := by
    rw [h4, hs]
    decide
  have htot : (orderAmounts body).totalAmount = .ofDecimal 31590000000000003 15 := by
    rw [h5, htax, hship, hs]
    decide
  refine ⟨hs, htax, hship, htot, ?_⟩
  have hc : (orderAmounts body).totalAmount.roundsToCents 3159 = true := by
    rw [htot]
    decide
  have := (roundsToCents_iff _ _).mp hc
  push_cast at this
  exact this

/-- Witness of C12 (amended): the sample body with one item, 2 at 10. -/
theorem orderAmounts_single_item_example_witness :
    (orderAmounts (sampleBody 2 10)).subtotal = .ofDecimal 20 0 ∧
      (orderAmounts (sampleBody 2 10)).taxAmount = .ofDecimal 16 1 ∧
      (orderAmounts (sampleBody 2 10)).shippingCost = .ofDecimal 999 2 ∧
      (orderAmounts (sampleBody 2 10)).totalAmount = .ofDecimal 31590000000000003 15 :=
  have h := orderAmounts_single_item_example (sampleBody 2 10)
    { productId := "p1", productName := "Mug", sku := "MUG-1", quantity := 2, unitPrice := 10 }
    rfl rfl rfl
  ⟨h.1, h.2.1, h.2.2.1, h.2.2.2.1⟩

/-- C13, counterexample: three items, one of each, at 51.59, 1.71 and 6.7.
The products sum to 60 exactly, and `createOrder` computes the subtotal
60.00000000000001 and the total 64.80000000000001, not 64.8 (the shipping
cost is 0 and the tax 4.8). -/
theorem sixty_totalAmount_not_648 :
    (sixtyDecimalBody.items.map (fun item => item.quantity * item.unitPrice)).sum = 60 ∧
      (orderAmounts sixtyDecimalBody).subtotal = .ofDecimal 6000000000000001 14 ∧
      (orderAmounts sixtyDecimalBody).shippingCost = .ofDecimal 0 0 ∧
      (orderAmounts sixtyDecimalBody).taxAmount = .ofDecimal 48 1 ∧
      (orderAmounts sixtyDecimalBody).totalAmount = .ofDecimal 6480000000000001 14 ∧
      (orderAmounts sixtyDecimalBody).totalAmount ≠ .ofDecimal 648 1 := by
  have e0 : JsNumber.ofRat (1 : ℚ) = .ofDecimal 1 0 := by
    rw [← ofRat_decimal]; norm_num
  have e1 : JsNumber.ofRat (51.59 : ℚ) = .ofDecimal 5159 2 := by
    rw [← ofRat_decimal]; norm_num
  have e2 : JsNumber.ofRat (1.71 : ℚ) = .ofDecimal 171 2 := by
    rw [← ofRat_decimal]; norm_num
  have e3 : JsNumber.ofRat (6.7 : ℚ) = .ofDecimal 67 1 := by
    rw [← ofRat_decimal]; norm_num
  have hs : (orderAmounts sixtyDecimalBody).subtotal = .ofDecimal 6000000000000001 14 := by
    rw [orderAmounts_subtotal]
    simp only [sixtyDecimalBody, List.map_cons, List.map_nil, List.foldl_cons, List.foldl_nil,
      e0, e1, e2, e3]
    decide
  obtain ⟨-, -, h3, h4, h5⟩ := orderAmounts_fields sixtyDecimalBody
  have htax : (orderAmounts sixtyDecimalBody).taxAmount = .ofDecimal 48 1 := by
    rw [h3, hs]
    decide
  have hship : (orderAmounts sixtyDecimalBody).shippingCost = .ofDecimal 0 0 := by
    rw [h4, hs]
    decide
  have htot : (orderAmounts sixtyDecimalBody).totalAmount =
      .ofDecimal 6480000000000001 14 := by
    rw [h5, htax, hship, hs]
    decide
  refine ⟨by norm_num [sixtyDecimalBody], hs, hship, htax, htot, ?_⟩
  rw [htot]
  decide

/-- C13, amended: for every item list for which the subtotal `createOrder`
computes (the sum of the products in double arithmetic) is exactly 60,
`shippingCost` is 0, `taxAmount` is 4.8 and `totalAmount` is 64.8. -/
theorem orderAmounts_sixty_example (body : CreateBody)
    (hs : (orderAmounts body).subtotal = .ofDecimal 60 0) :
    (orderAmounts body).shippingCost = .ofDecimal 0 0 ∧
      (orderAmounts body).taxAmount = .ofDecimal 48 1 ∧
      (orderAmounts body).totalAmount = .ofDecimal 648 1 := by
  obtain ⟨-, -, h3, h4, h5⟩ := orderAmounts_fields body
  have htax : (orderAmounts body).taxAmount = .ofDecimal 48 1 := by
    rw [h3, hs]
    decide
  have hship : (orderAmounts body).shippingCost = .ofDecimal 0 0 := by
    rw [h4, hs]
    decide
  refine ⟨hship, htax, ?_⟩
  rw [h5, htax, hship, hs]
  decide

/-- Witness of C13 (amended): two items, 2 at 12.5 and 7 at 5, for which the
computed subtotal is 60. -/
theorem orderAmounts_sixty_example_witness :
    (orderAmounts sixtyBody).subtotal = .ofDecimal 60 0 ∧
      (orderAmounts sixtyBody).shippingCost = .ofDecimal 0 0 ∧
      (orderAmounts sixtyBody).taxAmount = .ofDecimal 48 1 ∧
      (orderAmounts sixtyBody).totalAmount = .ofDecimal 648 1 :=
  have hs : (orderAmounts sixtyBody).subtotal = .ofDecimal 60 0 := by
    have e0 : JsNumber.ofRat (2 : ℚ) = .ofDecimal 2 0 := by
      rw [← ofRat_decimal]; norm_num
    have e1 : JsNumber.ofRat (12.5 : ℚ) = .ofDecimal 125 1 := by
      rw [← ofRat_decimal]; norm_num
    have e2 : JsNumber.ofRat (7 : ℚ) = .ofDecimal 7 0 := by
      rw [← ofRat_decimal]; norm_num
    have e3 : JsNumber.ofRat (5 : ℚ) = .ofDecimal 5 0 := by
      rw [← ofRat_decimal]; norm_num
    rw [orderAmounts_subtotal]
    simp only [sixtyBody, List.map_cons, List.map_nil, List.foldl_cons, List.foldl_nil, e0, e1,
      e2, e3]
    decide
  ⟨hs, orderAmounts_sixty_example sixtyBody hs⟩

/-- C15: an order built by `createOrder` has status `pending` (the schema
default) and a status history of exactly one entry, with status `pending` and
note "Order created"; its billing address is the supplied one when one is
given and the shipping address when none is given. -/
theorem createOrder_initial_state (env : Env) (w : World) (body : CreateBody) (o : Order)
    (hc : (createOrder env w body).1 =
      .json 201 (.orderCreated "Order created successfully" o)) :
    o.status = "pending" ∧
      o.statusHistory = [{ status := "pending", note := "Order created" }] ∧
      o.statusHistory.length = 1 ∧
      (∀ b, body.billingAddress = some b → o.billingAddress = b) ∧
      (body.billingAddress = none → o.billingAddress = body.shippingAddress) ∧
      o.shippingAddress = body.shippingAddress := by
  obtain ⟨ho, -⟩ := createOrder_created hc
  subst ho
  refine ⟨rfl, rfl, rfl, ?_, ?_, rfl⟩
  · intro b hb
    simp [newOrder, hb]
  · intro hb
    simp [newOrder, hb]

/-- Witness of C15: the sample body with a billing address of its own. -/
theorem createOrder_initial_state_witness :
    (newOrder sampleEnv { sampleBody 2 10 with billingAddress := some billingSample }).status =
        "pending" ∧
      (newOrder sampleEnv
        { sampleBody 2 10 with billingAddress := some billingSample }).billingAddress =
        billingSample ∧
      (newOrder sampleEnv (sampleBody 2 10)).billingAddress = sampleAddress :=
  have h1 := createOrder_initial_state sampleEnv emptyWorld
    { sampleBody 2 10 with billingAddress := some billingSample }
    (newOrder sampleEnv { sampleBody 2 10 with billingAddress := some billingSample }) rfl
  have h2 := createOrder_initial_state sampleEnv emptyWorld (sampleBody 2 10)
    (newOrder sampleEnv (sampleBody 2 10)) rfl
  ⟨h1.1, h1.2.2.2.1 billingSample rfl, h2.2.2.2.2.1 rfl⟩

/-! ## Validation of `POST /orders` -/

theorem mem_checkItems {name : String} {ok : ItemInput → Bool} {items : List ItemInput}
    {issue : ValidationIssue} (h : issue ∈ checkItems name ok items) :
    ∃ i it, it ∈ items ∧ ok it = false ∧ issue.field = .item i name := by
  unfold checkItems at h
  rw [List.mem_map] at h
  obtain ⟨p, hp, rfl⟩ := h
  rw [List.mem_filter] at hp
  have hm := List.mem_enum hp.1
  exact ⟨p.1, p.2, hm.2 ▸ List.getElem_mem hm.1, by simpa using hp.2, rfl⟩

theorem checkItems_ne_nil {name : String} {ok : ItemInput → Bool} {items : List ItemInput}
    {it : ItemInput} (hit : it ∈ items) (hok : ok it = false) :
    checkItems name ok items ≠ [] := by
  obtain ⟨n, hn, hget⟩ := List.getElem_of_mem hit
  have hmem : (n, it) ∈ items.enum := by
    rw [List.mk_mem_enum_iff_getElem?]
    rw [List.getElem?_eq_getElem hn, hget]
  intro hnil
  have : ({ field := .item n name, message := "Invalid value" } : ValidationIssue) ∈
      checkItems name ok items := by
    unfold checkItems
    rw [List.mem_map]
    exact ⟨(n, it), List.mem_filter.mpr ⟨hmem, by simp [hok]⟩, rfl⟩
  rw [hnil] at this
  exact List.not_mem_nil _ this

theorem mem_checkNotEmpty {name message value : String} {issue : ValidationIssue}
    (h : issue ∈ checkNotEmpty name message value) : issue.field = .top name := by
  unfold checkNotEmpty at h
  split at h
  · exact absurd h (List.not_mem_nil _)
  · rw [List.mem_singleton] at h
    rw [h]

theorem postOrders_of_issues {env : Env} {w : World} {body : CreateBody}
    (h : validateCreateOrder body ≠ []) :
    postOrders env w body =
      (.validationError 422 "Validation Error" (validateCreateOrder body), w) := by
  unfold postOrders validate
  have : (validateCreateOrder body).isEmpty = false := by
    cases hv : validateCreateOrder body with
    | nil => exact absurd hv h
    | cons a as => rfl
  simp [this]

/-- C14, counterexample: a request with one item of quantity 1.5 at 10 has a
non-empty item list, every quantity at least 1 and every price at least 0, and
the route still answers with the validation error, for the quantity. So does
a request with one item of quantity `10 ^ 21`, a whole number: `String(1e21)`
is `1e+21`, which `isInt` rejects. -/
theorem postOrders_fractional_quantity_rejected :
    (sampleBody 1.5 10).items ≠ [] ∧
      (∀ it ∈ (sampleBody 1.5 10).items, 1 ≤ it.quantity ∧ 0 ≤ it.unitPrice) ∧
      postOrders sampleEnv emptyWorld (sampleBody 1.5 10) =
        (.validationError 422 "Validation Error"
          [{ field := .item 0 "quantity", message := "Invalid value" }], emptyWorld) ∧
      postOrders sampleEnv emptyWorld (sampleBody 1000000000000000000000 10) =
        (.validationError 422 "Validation Error"
          [{ field := .item 0 "quantity", message := "Invalid value" }], emptyWorld) := by
  have hq : isInt (1.5 : ℚ) 1 = false := by
    have e : JsNumber.ofRat (1.5 : ℚ) = .ofDecimal 15 1 := by
      rw [← ofRat_decimal]; norm_num
    unfold isInt
    rw [e]
    decide
  have hq21 : isInt (1000000000000000000000 : ℚ) 1 = false := by
    have e : JsNumber.ofRat (1000000000000000000000 : ℚ) =
        .ofDecimal 1000000000000000000000 0 := by
      rw [← ofRat_decimal]; norm_num
    unfold isInt
    rw [e]
    decide
  have hu : isFloat (10 : ℚ) 0 = true := isFloat_of_nonneg 10 (by norm_num) (by norm_num)
  have hv : ∀ q : ℚ, isInt q 1 = false → validateCreateOrder (sampleBody q 10) =
      [{ field := .item 0 "quantity", message := "Invalid value" }] := by
    intro q hq
    simp [validateCreateOrder, checkNotEmpty, checkItems, notEmpty, sampleBody, sampleAddress,
      List.enum, List.enumFrom, hq, hu]
  refine ⟨by simp [sampleBody], ?_, ?_, ?_⟩
  · intro it hit
    simp only [sampleBody, List.mem_singleton] at hit
    subst hit
    norm_num
  · rw [postOrders_of_issues (by rw [hv _ hq]; simp), hv _ hq]
  · rw [postOrders_of_issues (by rw [hv _ hq21]; simp), hv _ hq21]

/-- C14, amended: the route `POST /orders` answers with the validation error,
storing no order and publishing no event, whenever the item list is empty, or
some item has a quantity that is at most 0 or that `isInt({ min: 1 })`
rejects, or some item has a unit price that is at most `-2 ^ (-1074)` or that
`isFloat({ min: 0 })` rejects. `isInt({ min: 1 })` accepts a quantity exactly
when the double the body parser makes of it is a whole number from 1 to below
`10 ^ 21`. When the list is non-empty and every item has a whole quantity
from 1 to `2 ^ 53` and a unit price from 0 to below `2 ^ 1023`, no validation
issue concerns the item list, a quantity or a unit price; and a request
without validation issues reaches `createOrder`. -/
theorem postOrders_validation (env : Env) (w : World) (body : CreateBody) :
    ((body.items = [] ∨
        (∃ it ∈ body.items, it.quantity ≤ 0 ∨ isInt it.quantity 1 = false) ∨
        (∃ it ∈ body.items, it.unitPrice ≤ -(1 / 2 ^ 1074) ∨
          isFloat it.unitPrice 0 = false)) →
        validateCreateOrder body ≠ [] ∧
        postOrders env w body =
          (.validationError 422 "Validation Error" (validateCreateOrder body), w)) ∧
      (∀ q : ℚ, isInt q 1 = true ↔
        ∃ m : ℤ, JsNumber.ofRat q = .finite (m * (doubleUnit : ℤ)) ∧ 1 ≤ m ∧
          m.natAbs < 10 ^ 21) ∧
      ((body.items ≠ [] ∧
          ∀ it ∈ body.items, (∃ n : ℕ, it.quantity = (n : ℚ) ∧ 1 ≤ n ∧ n ≤ 2 ^ 53) ∧
            0 ≤ it.unitPrice ∧ it.unitPrice < 2 ^ 1023) →
        ∀ issue ∈ validateCreateOrder body, issue.field ≠ .top "items" ∧
          ∀ i, issue.field ≠ .item i "quantity" ∧ issue.field ≠ .item i "unitPrice") ∧
      (validateCreateOrder body = [] →
        postOrders env w body = (.handled (createOrder env w body).1,
          (createOrder env w body).2)) := by
  refine ⟨?_, fun q => isInt_iff q 1, ?_, ?_⟩
  · intro h
    have hne : validateCreateOrder body ≠ [] := by
      intro hnil
      unfold validateCreateOrder at hnil
      simp only [List.append_eq_nil] at hnil
      obtain ⟨⟨⟨⟨⟨⟨⟨⟨⟨⟨⟨-, hitems⟩, -⟩, -⟩, -⟩, hq⟩, hu⟩, -⟩, -⟩, -⟩, -⟩, -⟩ := hnil
      rcases h with h | ⟨it, hit, h⟩ | ⟨it, hit, h⟩
      · rw [h] at hitems
        simp at hitems
      · refine checkItems_ne_nil hit ?_ hq
        rcases h with h | h
        · exact isInt_of_nonpos _ h
        · exact h
      · refine checkItems_ne_nil hit ?_ hu
        rcases h with h | h
        · exact isFloat_of_neg _ h
        · exact h
    exact ⟨hne, postOrders_of_issues hne⟩
  · intro ⟨hne, hall⟩ issue hissue
    unfold validateCreateOrder at hissue
    simp only [List.mem_append] at hissue
    have hlen : 1 ≤ body.items.length := by
      cases hb : body.items with
      | nil => exact absurd hb hne
      | cons a as => simp
    rcases hissue with (((((((((((h | h) | h) | h) | h) | h) | h) | h) | h) | h) | h) | h)
    · rw [mem_checkNotEmpty h]; simp
    · rw [if_pos hlen] at h; exact absurd h (List.not_mem_nil _)
    · obtain ⟨i, it, -, -, hf⟩ := mem_checkItems h
      rw [hf]; simp
    · obtain ⟨i, it, -, -, hf⟩ := mem_checkItems h
      rw [hf]; simp
    · obtain ⟨i, it, -, -, hf⟩ := mem_checkItems h
      rw [hf]; simp
    · obtain ⟨i, it, hit, hok, -⟩ := mem_checkItems h
      obtain ⟨⟨n, hn, h1, h2⟩, -, -⟩ := hall it hit
      rw [hn, isInt_natCast n h1 h2] at hok
      cases hok
    · obtain ⟨i, it, hit, hok, -⟩ := mem_checkItems h
      obtain ⟨-, h3, h4⟩ := hall it hit
      rw [isFloat_of_nonneg _ h3 h4] at hok
      cases hok
    · rw [mem_checkNotEmpty h]; simp
    · rw [mem_checkNotEmpty h]; simp
    · rw [mem_checkNotEmpty h]; simp
    · rw [mem_checkNotEmpty h]; simp
    · rw [mem_checkNotEmpty h]; simp
  · intro h
    unfold postOrders validate
    simp [h]

/-- Witness of C14 (amended): an empty item list is rejected and the world is
left as it was; one item, 2 at 10, raises no issue and reaches `createOrder`. -/
theorem postOrders_validation_witness :
    postOrders sampleEnv emptyWorld { sampleBody 2 10 with items := [] } =
        (.validationError 422 "Validation Error"
          (validateCreateOrder { sampleBody 2 10 with items := [] }), emptyWorld) ∧
      postOrders sampleEnv emptyWorld (sampleBody 2 10) =
        (.handled (createOrder sampleEnv emptyWorld (sampleBody 2 10)).1,
          (createOrder sampleEnv emptyWorld (sampleBody 2 10)).2) ∧
      ∀ issue ∈ validateCreateOrder { sampleBody 2 10 with userId := "" },
        issue.field ≠ .top "items" ∧
          ∀ i, issue.field ≠ .item i "quantity" ∧ issue.field ≠ .item i "unitPrice" :=
  have hq : isInt (2 : ℚ) 1 = true := by
    have h := isInt_natCast 2 (by norm_num) (by norm_num)
    rw [Nat.cast_ofNat] at h
    exact h
  have hu : isFloat (10 : ℚ) 0 = true := isFloat_of_nonneg 10 (by norm_num) (by norm_num)
  ⟨((postOrders_validation sampleEnv emptyWorld { sampleBody 2 10 with items := [] }).1
      (Or.inl rfl)).2,
   (postOrders_validation sampleEnv emptyWorld (sampleBody 2 10)).2.2.2
      (by
        simp [validateCreateOrder, checkNotEmpty, checkItems, notEmpty, sampleBody,
          sampleAddress, List.enum, List.enumFrom, hq, hu]),
   (postOrders_validation sampleEnv emptyWorld { sampleBody 2 10 with userId := "" }).2.2.1
      ⟨by simp [sampleBody], by
        intro it hit
        simp only [sampleBody, List.mem_singleton] at hit
        subst hit
        exact ⟨⟨2, by norm_num, by norm_num, by norm_num⟩, by norm_num, by norm_num⟩⟩⟩

/-! ## Saving before publishing -/

theorem saveNew_ok {orders orders' : List Order} {o : Order}
    (h : saveNew orders o = .ok orders') : orders' = orders ++ [o] := by
  unfold saveNew at h
  split at h
  · cases h
  · cases h; rfl

theorem mem_pre_of_two {a : Step} {m m' : Envelope} {pre post : List Step}
    (h : [a, .published m'] = pre ++ .published m :: post) (ha : ∀ x, a ≠ .published x) :
    a ∈ pre ∧ m = m' := by
  cases pre with
  | nil =>
    simp only [List.nil_append, List.cons.injEq] at h
    exact absurd h.1 (ha m)
  | cons b pre' =>
    cases pre' with
    | nil =>
      simp only [List.cons_append, List.nil_append, List.cons.injEq, Step.published.injEq] at h
      exact ⟨by rw [h.1]; exact List.mem_singleton.mpr rfl, h.2.1.symm⟩
    | cons c pre'' =>
      simp at h

theorem createOrderSteps_cases (env : Env) (w : World) (body : CreateBody) :
    (createOrderSteps env w body = [] ∧ (createOrder env w body).2 = w ∧
        (env.saveErr ≠ none ∨ ∃ e, saveNew w.orders (newOrder env body) = .error e)) ∨
      (env.saveErr = none ∧
        saveNew w.orders (newOrder env body) = .ok (w.orders ++ [newOrder env body]) ∧
        (createOrderSteps env w body = [.inserted (newOrder env body)] ∨
          ∃ m, createOrderSteps env w body = [.inserted (newOrder env body), .published m] ∧
            m.event = "order.created" ∧
            m.data = .orderCreated (newOrder env body).id (newOrder env body).orderNumber
              (newOrder env body).userId (newOrder env body).totalAmount
              (newOrder env body).items)) := by
  unfold createOrderSteps createOrder publishEventSteps publishEvent
  cases hs : env.saveErr with
  | some e => left; simp
  | none =>
    cases hn : saveNew w.orders (newOrder env body) with
    | error e => left; simp [hn]
    | ok orders =>
      right
      have ho := saveNew_ok hn
      subst ho
      refine ⟨rfl, rfl, ?_⟩
      cases hc : w.channel with
      | false => left; simp [hn, hc]
      | true =>
        cases hp : env.publishErr with
        | some e => left; simp [hn, hc]
        | none => right; simp [hn, hc]

theorem createOrder_replay (env : Env) (w : World) (body : CreateBody) :
    replay w (createOrderSteps env w body) = (createOrder env w body).2 := by
  unfold createOrderSteps createOrder publishEventSteps publishEvent replay
  cases hs : env.saveErr with
  | some e => simp
  | none =>
    cases hn : saveNew w.orders (newOrder env body) with
    | error e => simp [hn]
    | ok orders =>
      have ho := saveNew_ok hn
      subst ho
      cases hc : w.channel with
      | false => simp [hn, hc, Step.apply]
      | true =>
        cases hp : env.publishErr with
        | some e => simp [hn, hc, Step.apply]
        | none => simp [hn, hc, Step.apply]

theorem updateOrderStatusSteps_cases (env : Env) (w : World) (id status : String)
    (note : Option String) :
    (updateOrderStatusSteps env w id status note = [] ∧
        (env.saveErr ≠ none → (updateOrderStatus env w id status note).2 = w)) ∨
      ∃ o, findById w.orders id = some o ∧ env.saveErr = none ∧
        (updateOrderStatusSteps env w id status note =
            [.updated (applyStatus o status note)] ∨
          ∃ m, updateOrderStatusSteps env w id status note =
              [.updated (applyStatus o status note), .published m] ∧
            m.event = "order.updated" ∧
            m.data = .orderUpdated (applyStatus o status note).id
              (applyStatus o status note).orderNumber status) := by
  unfold updateOrderStatusSteps updateOrderStatus publishEventSteps publishEvent
  cases hf : env.findErr with
  | some e => left; simp
  | none =>
    cases ho : findById w.orders id with
    | none => left; simp
    | some o =>
      cases ha : transitionAllowed o.status status with
      | false => left; simp [ha]
      | true =>
        cases hs : env.saveErr with
        | some e => left; simp [ha]
        | none =>
          right
          refine ⟨o, rfl, rfl, ?_⟩
          cases hc : w.channel with
          | false => left; simp [ha, hc]
          | true =>
            cases hp : env.publishErr with
            | some e => left; simp [ha, hc]
            | none => right; simp [ha, hc]

theorem updateOrderStatus_replay (env : Env) (w : World) (id status : String)
    (note : Option String) :
    replay w (updateOrderStatusSteps env w id status note) =
      (updateOrderStatus env w id status note).2 := by
  unfold updateOrderStatusSteps updateOrderStatus publishEventSteps publishEvent replay
  cases hf : env.findErr with
  | some e => simp
  | none =>
    cases ho : findById w.orders id with
    | none => simp
    | some o =>
      cases ha : transitionAllowed o.status status with
      | false => simp [ha]
      | true =>
        cases hs : env.saveErr with
        | some e => simp [ha]
        | none =>
          cases hc : w.channel with
          | false => simp [ha, hc, Step.apply]
          | true =>
            cases hp : env.publishErr with
            | some e => simp [ha, hc, Step.apply]
            | none => simp [ha, hc, Step.apply]

/-- C16: in every run of `createOrder` and of `updateOrderStatus` the steps
replay to the world the handler leaves; a message is published only after the
save of that mutation has completed (an `order.created` message after the new
order was inserted, an `order.updated` message with payload
`{orderId, orderNumber, status}` after the updated order was saved); and when
the save fails nothing is published and the world is as before. -/
theorem publish_only_after_save (env : Env) (w : World) :
    (∀ body,
      replay w (createOrderSteps env w body) = (createOrder env w body).2 ∧
      (∀ pre m post, createOrderSteps env w body = pre ++ .published m :: post →
        .inserted (newOrder env body) ∈ pre ∧ m.event = "order.created") ∧
      ((env.saveErr ≠ none ∨ ∃ e, saveNew w.orders (newOrder env body) = .error e) →
        createOrderSteps env w body = [] ∧ (createOrder env w body).2 = w)) ∧
      (∀ id status note,
        replay w (updateOrderStatusSteps env w id status note) =
          (updateOrderStatus env w id status note).2 ∧
        (∀ pre m post,
          updateOrderStatusSteps env w id status note = pre ++ .published m :: post →
          ∃ o, findById w.orders id = some o ∧
            .updated (applyStatus o status note) ∈ pre ∧ m.event = "order.updated" ∧
            m.data = .orderUpdated (applyStatus o status note).id
              (applyStatus o status note).orderNumber status) ∧
        (env.saveErr ≠ none →
          updateOrderStatusSteps env w id status note = [] ∧
            (updateOrderStatus env w id status note).2 = w)) := by
  constructor
  · intro body
    refine ⟨createOrder_replay env w body, ?_, ?_⟩
    · intro pre m post h
      rcases createOrderSteps_cases env w body with ⟨h0, -, -⟩ | ⟨-, -, h1 | ⟨m', h2, hev, -⟩⟩
      · rw [h0] at h
        simp at h
      · rw [h1] at h
        cases pre with
        | nil => simp at h
        | cons b pre' => cases pre' <;> simp at h
      · rw [h2] at h
        obtain ⟨hmem, hm⟩ := mem_pre_of_two h (fun x hx => by cases hx)
        exact ⟨hmem, hm ▸ hev⟩
    · intro hfail
      rcases createOrderSteps_cases env w body with ⟨h0, hw, -⟩ | ⟨hs, hn, -⟩
      · exact ⟨h0, hw⟩
      · rcases hfail with hf | ⟨e, he⟩
        · exact absurd hs hf
        · rw [hn] at he
          cases he
  · intro id status note
    refine ⟨updateOrderStatus_replay env w id status note, ?_, ?_⟩
    · intro pre m post h
      rcases updateOrderStatusSteps_cases env w id status note with
        ⟨h0, -⟩ | ⟨o, ho, -, h1 | ⟨m', h2, hev, hdata⟩⟩
      · rw [h0] at h
        simp at h
      · rw [h1] at h
        cases pre with
        | nil => simp at h
        | cons b pre' => cases pre' <;> simp at h
      · rw [h2] at h
        obtain ⟨hmem, hm⟩ := mem_pre_of_two h (fun x hx => by cases hx)
        exact ⟨o, ho, hmem, hm ▸ hev, hm ▸ hdata⟩
    · intro hfail
      rcases updateOrderStatusSteps_cases env w id status note with ⟨h0, hw⟩ | ⟨o, -, hs, -⟩
      · exact ⟨h0, hw hfail⟩
      · exact absurd hs hfail

/-- Witness of C16: confirming the sample order saves it and then publishes
`order.updated`; with the store rejecting the save nothing happens. -/
theorem publish_only_after_save_witness :
    (∃ o, findById (sampleWorld "pending" "paid").orders "o1" = some o ∧
        Step.updated (applyStatus o "confirmed" none) ∈
          [Step.updated (applyStatus (sampleOrder "pending" "paid") "confirmed" none)] ∧
        confirmedEvent.event = "order.updated" ∧
        confirmedEvent.data = .orderUpdated (applyStatus o "confirmed" none).id
          (applyStatus o "confirmed" none).orderNumber "confirmed") ∧
      (updateOrderStatusSteps storeDownEnv (sampleWorld "pending" "paid") "o1" "confirmed"
          none = [] ∧
        (updateOrderStatus storeDownEnv (sampleWorld "pending" "paid") "o1" "confirmed"
          none).2 = sampleWorld "pending" "paid") :=
  ⟨((publish_only_after_save sampleEnv (sampleWorld "pending" "paid")).2 "o1" "confirmed"
      none).2.1 [Step.updated (applyStatus (sampleOrder "pending" "paid") "confirmed" none)]
      confirmedEvent [] rfl,
   ((publish_only_after_save storeDownEnv (sampleWorld "pending" "paid")).2 "o1" "confirmed"
      none).2.2 (by decide)⟩

/-! ## Broker failures -/

/-- C17, at the failing input: with the save going through and
`channel.publish` raising, `publishEvent` raises, `updateOrderStatus` and
`createOrder` pass the error to `next` instead of answering 200 or 201, and
the order is stored all the same; only an absent channel is not surfaced. -/
theorem publish_failure_surfaced :
    publishEvent brokerDownEnv (sampleWorld "pending" "paid") "order.updated"
        (.orderUpdated "o1" "ORD-1" "confirmed") =
        .error { name := "IllegalOperationError", message := "Channel closed" } ∧
      (updateOrderStatus brokerDownEnv (sampleWorld "pending" "paid") "o1" "confirmed"
        none).1 = .next { name := "IllegalOperationError", message := "Channel closed" } ∧
      (findById (updateOrderStatus brokerDownEnv (sampleWorld "pending" "paid") "o1"
        "confirmed" none).2.orders "o1").map (fun o => o.status) = some "confirmed" ∧
      (createOrder brokerDownEnv emptyWorld (sampleBody 2 10)).1 =
        .next { name := "IllegalOperationError", message := "Channel closed" } ∧
      (findById (createOrder brokerDownEnv emptyWorld (sampleBody 2 10)).2.orders
        "o1").isSome = true ∧
      (updateOrderStatus sampleEnv noChannelWorld "o1" "confirmed" none).1.isSuccess = true := by
  refine ⟨rfl, rfl, ?_, rfl, ?_, ?_⟩ <;> decide

/-! ## The published envelope -/

theorem mem_publishEventSteps {env : Env} {w : World} {routingKey : String}
    {data : EventData} {m : Envelope}
    (h : Step.published m ∈ publishEventSteps env w routingKey data) :
    m = { event := routingKey, data := data, timestamp := env.now,
          service := "order-service" } := by
  unfold publishEventSteps at h
  split at h
  · exact absurd h (List.not_mem_nil _)
  · split at h
    · exact absurd h (List.not_mem_nil _)
    · simpa using h

theorem published_mem_createOrderSteps {env : Env} {w : World} {body : CreateBody}
    {m : Envelope} (h : Step.published m ∈ createOrderSteps env w body) :
    m = { event := "order.created",
          data := .orderCreated (newOrder env body).id (newOrder env body).orderNumber
            (newOrder env body).userId (newOrder env body).totalAmount
            (newOrder env body).items,
          timestamp := env.now, service := "order-service" } := by
  unfold createOrderSteps at h
  cases hs : env.saveErr with
  | some e => simp [hs] at h
  | none =>
    cases hn : saveNew w.orders (newOrder env body) with
    | error e => simp [hs, hn] at h
    | ok orders =>
      simp only [hs, hn, List.mem_cons] at h
      rcases h with h | h
      · cases h
      · exact mem_publishEventSteps h

theorem published_mem_updateOrderStatusSteps {env : Env} {w : World} {id status : String}
    {note : Option String} {m : Envelope}
    (h : Step.published m ∈ updateOrderStatusSteps env w id status note) :
    ∃ o, findById w.orders id = some o ∧
      m = { event := "order.updated",
            data := .orderUpdated (applyStatus o status note).id
              (applyStatus o status note).orderNumber status,
            timestamp := env.now, service := "order-service" } := by
  unfold updateOrderStatusSteps at h
  cases hf : env.findErr with
  | some e => simp [hf] at h
  | none =>
    cases ho : findById w.orders id with
    | none => simp [hf, ho] at h
    | some o =>
      cases ha : transitionAllowed o.status status with
      | false => simp [hf, ho, ha] at h
      | true =>
        cases hs : env.saveErr with
        | some e => simp [hf, ho, ha, hs] at h
        | none =>
          simp only [hf, ho, ha, hs, Bool.not_true, Bool.false_eq_true, if_false,
            List.mem_cons] at h
          rcases h with h | h
          · cases h
          · exact ⟨o, rfl, mem_publishEventSteps h⟩

/-- C18, counterexample: the message published when the sample order is
confirmed has no `eventId` member, neither in the envelope nor in its data. -/
theorem published_envelope_without_eventId :
    (updateOrderStatus sampleEnv (sampleWorld "pending" "paid") "o1" "confirmed"
        none).2.published = [confirmedEvent] ∧
      (confirmedEvent.toJson.get? "eventId").isNone = true ∧
      ((confirmedEvent.toJson.get? "data").bind
        (fun d => d.get? "eventId")).isNone = true := by
  refine ⟨by decide, rfl, rfl⟩

/-- C18, amended: every message published by `createOrder` and by
`updateOrderStatus` is an envelope with `event` = the routing key, `data` =
the payload, `timestamp` and `service` = "order-service"; its data carries the
id of the originating order as `orderId`; it has no `eventId`. -/
theorem published_envelope_fields (env : Env) (w : World) :
    (∀ body m, Step.published m ∈ createOrderSteps env w body →
      m.toJson.get? "event" = some (.str "order.created") ∧
      m.toJson.get? "data" = some m.data.toJson ∧
      m.toJson.get? "timestamp" = some (.str env.now) ∧
      m.toJson.get? "service" = some (.str "order-service") ∧
      m.data.toJson.get? "orderId" = some (.str (newOrder env body).id) ∧
      (m.toJson.get? "eventId").isNone = true ∧
      (m.data.toJson.get? "eventId").isNone = true) ∧
      (∀ id status note m, Step.published m ∈ updateOrderStatusSteps env w id status note →
        m.toJson.get? "event" = some (.str "order.updated") ∧
        m.toJson.get? "data" = some m.data.toJson ∧
        m.toJson.get? "timestamp" = some (.str env.now) ∧
        m.toJson.get? "service" = some (.str "order-service") ∧
        m.data.toJson.get? "orderId" = some (.str id) ∧
        (m.toJson.get? "eventId").isNone = true ∧
        (m.data.toJson.get? "eventId").isNone = true) := by
  constructor
  · intro body m h
    rw [published_mem_createOrderSteps h]
    refine ⟨rfl, rfl, rfl, rfl, rfl, rfl, rfl⟩
  · intro id status note m h
    obtain ⟨o, ho, hm⟩ := published_mem_updateOrderStatusSteps h
    rw [hm]
    refine ⟨rfl, rfl, rfl, rfl, ?_, rfl, rfl⟩
    have hid : (applyStatus o status note).id = id :=
      (applyStatus_id _ _ _).trans (findById_id ho)
    simp [EventData.toJson, JsonValue.get?, List.lookup, hid]

/-- Witness of C18 (amended): the message published when the sample order is
confirmed. -/
theorem published_envelope_fields_witness :
    confirmedEvent.toJson.get? "timestamp" = some (.str sampleEnv.now) ∧
      confirmedEvent.data.toJson.get? "orderId" = some (.str "o1") ∧
      (confirmedEvent.toJson.get? "eventId").isNone = true :=
  have h := (published_envelope_fields sampleEnv (sampleWorld "pending" "paid")).2 "o1"
    "confirmed" none confirmedEvent
    (show Step.published confirmedEvent ∈
        [Step.updated (applyStatus (sampleOrder "pending" "paid") "confirmed" none),
         Step.published confirmedEvent] from
      List.mem_cons_of_mem _ (List.mem_singleton.mpr rfl))
  ⟨h.2.2.1, h.2.2.2.2.1, h.2.2.2.2.2.1⟩

/-! ## The event consumer -/

/-- C19, at the failing input: for a delivered message whose bytes are not
valid JSON the consumer callback raises the error of `JSON.parse`; nothing is
logged and the message is not acknowledged. -/
theorem consumeHandler_malformed_raises :
    consumeHandler sampleConsumer (some malformedMessage) = .error jsonSyntaxError ∧
      (afterDelivery sampleConsumer (some malformedMessage)).acked = [] ∧
      (afterDelivery sampleConsumer (some malformedMessage)).log.length = 0 :=
  ⟨rfl, rfl, rfl⟩

/-- C20: for a delivered message whose content parses to a JSON value other
than `null` (a well-formed envelope in particular), the consumer callback
returns and acknowledges the delivery; handling the message a second time
leaves the same world, stored orders included, as handling it once, namely the
world before the first delivery, and acknowledges the second delivery too. -/
theorem consumeHandler_idempotent (c : Consumer) (m : Message) (j : JsonValue)
    (hj : m.content = some j) (hn : j ≠ .null) :
    ∃ c1 c2, consumeHandler c (some m) = .ok c1 ∧ consumeHandler c1 (some m) = .ok c2 ∧
      c1.world = c.world ∧ c2.world = c1.world ∧
      c1.acked = c.acked ++ [m.deliveryTag] ∧ c2.acked = c1.acked ++ [m.deliveryTag] := by
  have hstep : ∀ d : Consumer, consumeHandler d (some m) =
      .ok { d with
        log := d.log ++ [{ level := "info", event := j.get? "event", data := j.get? "data" }]
        acked := d.acked ++ [m.deliveryTag] } := by
    intro d
    unfold consumeHandler
    simp only [hj]
  exact ⟨_, _, hstep c, hstep _, rfl, rfl, rfl, rfl⟩

/-- Witness of C20: a `user.created` envelope delivered twice. -/
theorem consumeHandler_idempotent_witness :
    ∃ c1 c2, consumeHandler sampleConsumer (some userEventMessage) = .ok c1 ∧
      consumeHandler c1 (some userEventMessage) = .ok c2 ∧
      c1.world = sampleConsumer.world ∧ c2.world = c1.world ∧
      c1.acked = sampleConsumer.acked ++ [userEventMessage.deliveryTag] ∧
      c2.acked = c1.acked ++ [userEventMessage.deliveryTag] :=
  consumeHandler_idempotent sampleConsumer userEventMessage _ rfl (fun h => by cases h)

/-! ## The error handler -/

/-- C22, counterexample: outside production (`NODE_ENV = development`) two
unexpected errors with the same (absent) status code and different messages
get different answers, each carrying the message of its error. -/
theorem errorHandler_message_exposed :
    errorHandler (some "development")
        { name := "Error", message := "connect ECONNREFUSED 10.0.0.5:27017",
          statusCode := none, path := "" } =
        .json 500 (.error "Internal Server Error" "connect ECONNREFUSED 10.0.0.5:27017") ∧
      errorHandler (some "development")
        { name := "Error", message := "boom", statusCode := none, path := "" } =
        .json 500 (.error "Internal Server Error" "boom") ∧
      errorHandler (some "development")
        { name := "Error", message := "connect ECONNREFUSED 10.0.0.5:27017",
          statusCode := none, path := "" } ≠
        errorHandler (some "development")
          { name := "Error", message := "boom", statusCode := none, path := "" } := by
  decide

/-- C22, amended: in production, the answer of `errorHandler` to an unexpected
error (neither a `ValidationError` nor a `CastError`) is the generic body
"Internal Server Error" / "Something went wrong" under the error's status code
(500 when it has none): two such errors with the same status code get the same
answer whatever their messages. In any other environment the body carries the
message of the error. -/
theorem errorHandler_generic_in_production (nodeEnv : Option String) (e1 e2 : ThrownError)
    (h1 : e1.name ≠ "ValidationError" ∧ e1.name ≠ "CastError")
    (h2 : e2.name ≠ "ValidationError" ∧ e2.name ≠ "CastError")
    (hc : e1.statusCode = e2.statusCode) :
    (nodeEnv = some "production" →
        errorHandler nodeEnv e1 =
          .json (statusCodeOr500 e1.statusCode)
            (.error "Internal Server Error" "Something went wrong") ∧
        errorHandler nodeEnv e1 = errorHandler nodeEnv e2) ∧
      (nodeEnv ≠ some "production" →
        errorHandler nodeEnv e1 =
          .json (statusCodeOr500 e1.statusCode) (.error "Internal Server Error" e1.message) ∧
        (e1.message ≠ e2.message → errorHandler nodeEnv e1 ≠ errorHandler nodeEnv e2)) := by
  constructor
  · intro hp
    simp [errorHandler, h1.1, h1.2, h2.1, h2.2, hp, hc]
  · intro hp
    refine ⟨by simp [errorHandler, h1.1, h1.2, hp], ?_⟩
    intro hm h
    simp [errorHandler, h1.1, h1.2, h2.1, h2.2, hp, hc] at h
    exact hm h

/-- Witness of C22 (amended): in production the two errors of the
counterexample get the same generic answer. -/
theorem errorHandler_generic_in_production_witness :
    errorHandler (some "production")
        { name := "Error", message := "connect ECONNREFUSED 10.0.0.5:27017",
          statusCode := none, path := "" } =
        .json 500 (.error "Internal Server Error" "Something went wrong") ∧
      errorHandler (some "production")
        { name := "Error", message := "connect ECONNREFUSED 10.0.0.5:27017",
          statusCode := none, path := "" } =
        errorHandler (some "production")
          { name := "Error", message := "boom", statusCode := none, path := "" } :=
  (errorHandler_generic_in_production (some "production")
    { name := "Error", message := "connect ECONNREFUSED 10.0.0.5:27017",
      statusCode := none, path := "" }
    { name := "Error", message := "boom", statusCode := none, path := "" }
    (by decide) (by decide) rfl).1 rfl

/-- C23, at the failing input: `createOrder` with an order number already in
use is rejected by the store with the duplicate-key error, which goes to
`next`; the error handler of the order service answers it with 500 "Internal
Server Error", in production and elsewhere, and nothing is stored. -/
theorem duplicate_orderNumber_internal_error :
    createOrder clashingEnv (sampleWorld "pending" "paid") (sampleBody 2 10) =
        (.next duplicateKeyError, sampleWorld "pending" "paid") ∧
      respond (some "production")
          (createOrder clashingEnv (sampleWorld "pending" "paid") (sampleBody 2 10)).1 =
        .json 500 (.error "Internal Server Error" "Something went wrong") ∧
      respond none
          (createOrder clashingEnv (sampleWorld "pending" "paid") (sampleBody 2 10)).1 =
        .json 500 (.error "Internal Server Error" "E11000 duplicate key error") := by
  refine ⟨rfl, ?_, ?_⟩ <;> decide

/-! ## The transition relation has no cycle -/

theorem stepsLeft_lt_of_allowed {src dst : String}
    (h : transitionAllowed src dst = true) : stepsLeft dst < stepsLeft src := by
  have hm := (transitionAllowed_iff src dst).mp h
  simp only [specTransitionTable, List.mem_cons, Prod.mk.injEq, List.mem_singleton,
    List.not_mem_nil, or_false] at hm
  rcases hm with ⟨rfl, rfl⟩ | ⟨rfl, rfl⟩ | ⟨rfl, rfl⟩ | ⟨rfl, rfl⟩ | ⟨rfl, rfl⟩ | ⟨rfl, rfl⟩ |
    ⟨rfl, rfl⟩ | ⟨rfl, rfl⟩ <;> decide

theorem not_allowed_of_terminal {src : String}
    (h : src = "cancelled" ∨ src = "refunded") (dst : String) :
    transitionAllowed src dst = false := by
  cases ha : transitionAllowed src dst with
  | false => rfl
  | true =>
    have hlt := stepsLeft_lt_of_allowed ha
    rcases h with h | h <;> subst h <;> simp [stepsLeft] at hlt

theorem updateOrderStatus_findById_allowed {env : Env} {w : World} {id t : String}
    {note : Option String} {i : String} {o : Order} (ho : findById w.orders i = some o) :
    findById (updateOrderStatus env w id t note).2.orders i = some o ∨
      (transitionAllowed o.status t = true ∧
        findById (updateOrderStatus env w id t note).2.orders i =
          some (applyStatus o t note)) := by
  rcases @updateOrderStatus_findById_cases env w id t note i o ho with h | h
  · exact Or.inl h
  · cases ha : transitionAllowed o.status t with
    | true => exact Or.inr ⟨rfl, h⟩
    | false =>
      left
      by_cases hi : id = i
      · subst hi
        have hf : env.findErr = none ∨ env.findErr ≠ none := by
          cases env.findErr <;> simp
        rcases hf with hf | hf
        · rw [updateOrderStatus_rejected note hf ho ha]
          exact ho
        · unfold updateOrderStatus
          cases hfe : env.findErr with
          | none => exact absurd hfe hf
          | some e => exact ho
      · rcases updateOrderStatus_orders_cases env w id t note with h' | ⟨o1, ho1, h'⟩
        · rw [h']; exact ho
        · have hid1 : (applyStatus o1 t note).id = id :=
            (applyStatus_id _ _ _).trans (findById_id ho1)
          rw [h', findById_saveExisting_other _ _ _ (fun e => hi (hid1.symm.trans e))]
          exact ho

theorem runUpdates_invariant_allowed (P : Order → Prop)
    (hP : ∀ o t note, transitionAllowed o.status t = true → P o → P (applyStatus o t note))
    (calls : List StatusCall) :
    ∀ (w : World) (i : String) (o : Order), findById w.orders i = some o → P o →
      ∃ o', findById (runUpdates w calls).orders i = some o' ∧ P o' := by
  induction calls with
  | nil =>
    intro w i o ho hp
    exact ⟨o, ho, hp⟩
  | cons c cs ih =>
    intro w i o ho hp
    rcases @updateOrderStatus_findById_allowed c.env w c.id c.status c.note i o ho with
      h | ⟨ha, h⟩
    · exact ih _ i o h hp
    · exact ih _ i _ h (hP o c.status c.note ha hp)

theorem successCount_le_stepsLeft (calls : List StatusCall) :
    ∀ (w : World) (i : String) (o : Order), findById w.orders i = some o →
      successCount i w calls ≤ stepsLeft o.status := by
  induction calls with
  | nil =>
    intro w i o _
    exact Nat.zero_le _
  | cons c cs ih =>
    intro w i o ho
    simp only [successCount]
    by_cases hcond : c.id = i ∧ (updateOrderStatus c.env w c.id c.status c.note).1.isSuccess = true
    · rw [if_pos hcond]
      obtain ⟨hid, hs⟩ := hcond
      obtain ⟨o1, ho1, ha, -, -, -, hw⟩ := updateOrderStatus_success hs
      subst hid
      rw [ho] at ho1
      cases ho1
      have hfind : findById (updateOrderStatus c.env w c.id c.status c.note).2.orders c.id =
          some (applyStatus o c.status c.note) := by
        rw [hw]
        exact findById_saveExisting_same _ ho ((applyStatus_id _ _ _).trans (findById_id ho))
      have h1 := ih _ _ _ hfind
      rw [applyStatus_status] at h1
      have h2 := stepsLeft_lt_of_allowed ha
      omega
    · rw [if_neg hcond]
      rcases @updateOrderStatus_findById_allowed c.env w c.id c.status c.note i o ho with
        h | ⟨ha, h⟩
      · have h1 := ih _ _ _ h
        omega
      · have h1 := ih _ _ _ h
        rw [applyStatus_status] at h1
        have h2 := stepsLeft_lt_of_allowed ha
        omega

/-- C28: every allowed transition lowers `stepsLeft`, so the transition
relation has no cycle. For an order created by `createOrder` and any sequence
of `updateOrderStatus` calls: the statuses recorded in its history are
pairwise different, at most 5 calls on it succeed, its history has at most 6
entries, and once its status is `cancelled` or `refunded` no further sequence
of calls changes the stored order. -/
theorem transitions_acyclic (env : Env) (w : World) (body : CreateBody) (o : Order)
    (hc : (createOrder env w body).1 =
      .json 201 (.orderCreated "Order created successfully" o))
    (calls : List StatusCall) :
    (∀ src dst, transitionAllowed src dst = true → stepsLeft dst < stepsLeft src) ∧
      ∃ o', findById (runUpdates (createOrder env w body).2 calls).orders o.id = some o' ∧
        (o'.statusHistory.map (fun e => e.status)).Nodup ∧
        successCount o.id (createOrder env w body).2 calls ≤ 5 ∧
        o'.statusHistory.length ≤ 6 ∧
        (o'.status = "cancelled" ∨ o'.status = "refunded" →
          ∀ more, findById (runUpdates (runUpdates (createOrder env w body).2 calls)
            more).orders o.id = some o') := by
  refine ⟨fun src dst h => stepsLeft_lt_of_allowed h, ?_⟩
  obtain ⟨ho, hfind⟩ := createOrder_created hc
  have hcount := successCount_le_stepsLeft calls _ _ _ hfind
  have hpending : stepsLeft o.status = 5 := by rw [ho]; rfl
  obtain ⟨o', h1, hpw, hge, hlen⟩ := runUpdates_invariant_allowed
    (fun x => (x.statusHistory.map (fun e => e.status)).Pairwise
        (fun a b => stepsLeft b < stepsLeft a) ∧
      (∀ a ∈ x.statusHistory.map (fun e => e.status), stepsLeft x.status ≤ stepsLeft a) ∧
      x.statusHistory.length + stepsLeft x.status ≤ 6)
    (fun x t note ha hx => by
      obtain ⟨hx1, hx2, hx3⟩ := hx
      have hlt := stepsLeft_lt_of_allowed ha
      rw [applyStatus_statusHistory, applyStatus_status]
      refine ⟨?_, ?_, ?_⟩
      · rw [List.map_append, List.pairwise_append]
        refine ⟨hx1, List.pairwise_singleton _ _, ?_⟩
        intro a ha' b hb
        simp only [List.map_cons, List.map_nil, List.mem_singleton] at hb
        subst hb
        exact lt_of_lt_of_le hlt (hx2 a ha')
      · intro a ha'
        rw [List.map_append, List.mem_append] at ha'
        rcases ha' with ha' | ha'
        · exact le_of_lt (lt_of_lt_of_le hlt (hx2 a ha'))
        · simp only [List.map_cons, List.map_nil, List.mem_singleton] at ha'
          subst ha'
          exact le_refl _
      · simp only [List.length_append, List.length_singleton]
        omega)
    calls _ _ o hfind (by
      rw [ho]
      refine ⟨?_, ?_, ?_⟩
      · simp [newOrder]
      · intro a ha'
        simp only [newOrder, List.map_cons, List.map_nil, List.mem_singleton] at ha'
        subst ha'
        exact le_refl _
      · simp [newOrder, defaultStatus, stepsLeft])
  refine ⟨o', h1, ?_, ?_, ?_, ?_⟩
  · exact hpw.imp (fun h e => by rw [e] at h; exact lt_irrefl _ h)
  · omega
  · omega
  · intro hterm more
    obtain ⟨o'', h2, h3⟩ := runUpdates_invariant_allowed (fun x => x = o')
      (fun x t note ha hx => by
        subst hx
        rw [not_allowed_of_terminal hterm t] at ha
        cases ha)
      more _ _ o' h1 rfl
    rw [h2, h3]

/-- Witness of C28: the order created from one item, 2 at 10, after the four
sample requests, two of which succeed. -/
theorem transitions_acyclic_witness :
    ∃ o', findById (runUpdates (createOrder sampleEnv emptyWorld (sampleBody 2 10)).2
        sampleCalls).orders "o1" = some o' ∧
      (o'.statusHistory.map (fun e => e.status)).Nodup ∧
      successCount "o1" (createOrder sampleEnv emptyWorld (sampleBody 2 10)).2 sampleCalls ≤ 5 ∧
      o'.statusHistory.length ≤ 6 :=
  let ⟨o', h1, h2, h3, h4, _⟩ :=
    (transitions_acyclic sampleEnv emptyWorld (sampleBody 2 10)
      (newOrder sampleEnv (sampleBody 2 10)) rfl sampleCalls).2
  ⟨o', h1, h2, h3, h4⟩

/-! ## Listing orders -/

theorem listOrders_filtered (env : Env) (w : World) (q : ListQuery) (st : String)
    (hst : q.status = some st) (hne : st ≠ "") (hf : env.findErr = none) :
    ∃ list, listOrders env w q = .ok list ∧
      (∀ o ∈ list.orders, o ∈ w.orders ∧ o.status = st) ∧
      list.pagination.total = (w.orders.filter (fun o => o.status = st)).length := by
  have hfilter : w.orders.filter (matchesFilter q.status) =
      w.orders.filter (fun o => o.status = st) := by
    apply List.filter_congr
    intro o _
    simp [matchesFilter, hst, hne, beq_eq_decide]
  unfold listOrders
  simp only [hf, hfilter]
  refine ⟨_, rfl, ?_, rfl⟩
  intro o ho
  have h1 := List.mem_of_mem_drop (List.mem_of_mem_take ho)
  rw [List.mem_reverse, List.mem_filter] at h1
  exact ⟨h1.1, by simpa using h1.2⟩

/-- C27, at the failing input: `GET /orders?status=refunded` is answered with
the validation error for `status`, although the controller `listOrders`,
given the same filter, returns exactly the refunded orders; `refunded` is a
status the `PATCH` route accepts and the list route leaves out. A filter the
route accepts, such as `delivered`, gives the orders in that status. -/
theorem getOrders_refunded_rejected :
    getOrders sampleEnv threeOrdersWorld (statusQuery "refunded") =
        .error (.validationError 422 "Validation Error"
          [{ field := .top "status", message := "Invalid value" }]) ∧
      (listOrders sampleEnv threeOrdersWorld (statusQuery "refunded")).toOption.map
          (fun l => (l.orders.map (fun o => o.id), l.pagination.total)) =
        some (["o3"], 1) ∧
      (getOrders sampleEnv threeOrdersWorld (statusQuery "delivered")).toOption.map
          (fun l => (l.orders.map (fun o => o.id), l.pagination.total)) =
        some (["o2"], 1) ∧
      "refunded" ∈ patchStatusValues ∧ "refunded" ∉ listStatusValues := by
  refine ⟨rfl, by decide, by decide, by decide, by decide⟩

/-! ## Analytics -/

theorem setKey_of_not_mem {acc : List (String × Nat)} {key : String} (value : Nat)
    (h : ∀ q ∈ acc, q.1 ≠ key) : setKey acc key value = acc ++ [(key, value)] := by
  unfold setKey
  have : acc.any (fun p => p.1 == key) = false := by
    rw [List.any_eq_false]
    intro q hq
    simpa using h q hq
  simp [this]

theorem foldl_setKey_of_nodup (rows : List (String × Nat)) :
    ∀ acc : List (String × Nat), (rows.map Prod.fst).Nodup →
      (∀ p ∈ rows, ∀ q ∈ acc, q.1 ≠ p.1) →
      rows.foldl (fun acc s => setKey acc s.1 s.2) acc = acc ++ rows := by
  induction rows with
  | nil => intro acc _ _; simp
  | cons r rs ih =>
    intro acc hnd hdis
    rw [List.map_cons, List.nodup_cons] at hnd
    rw [List.foldl_cons, setKey_of_not_mem r.2 (hdis r (List.mem_cons_self _ _)), ih _ hnd.2]
    · simp
    · intro p hp q hq
      rw [List.mem_append] at hq
      rcases hq with hq | hq
      · exact hdis p (List.mem_cons_of_mem _ hp) q hq
      · rw [List.mem_singleton] at hq
        subst hq
        intro e
        exact hnd.1 (e ▸ List.mem_map_of_mem Prod.fst hp)

theorem lookup_map_self (f : String → Nat) (l : List String) (s : String) :
    (l.map (fun x => (x, f x))).lookup s = if s ∈ l then some (f s) else none := by
  induction l with
  | nil => simp
  | cons a as ih =>
    by_cases h : s = a
    · subst h
      simp [List.lookup]
    · have hb : (s == a) = false := beq_eq_false_iff_ne.mpr h
      simp [List.lookup, hb, ih, h]

theorem count_status (orders : List Order) (s : String) :
    (orders.map (fun o => o.status)).count s =
      (orders.filter (fun o => o.status = s)).length := by
  induction orders with
  | nil => simp
  | cons a as ih =>
    by_cases h : a.status = s
    · simp [List.count_cons, List.filter_cons, h, ih]
    · simp [List.count_cons, List.filter_cons, h, ih]

theorem statusBreakdown_eq (orders : List Order) :
    (groupByStatus orders).foldl (fun acc s => setKey acc s.1 s.2) [] =
      groupByStatus orders := by
  rw [foldl_setKey_of_nodup]
  · simp
  · unfold groupByStatus
    simp only [List.map_map]
    have : (Prod.fst ∘ fun s => (s, List.count s (orders.map (fun o => o.status)))) = id := by
      funext x; rfl
    rw [this, List.map_id]
    exact List.nodup_dedup _
  · intro p _ q hq
    exact absurd hq (List.not_mem_nil _)

/-- C21: `getOrderAnalytics` returns `totalOrders` = the number of stored
orders; a `statusBreakdown` that maps each status that occurs to the number of
orders in it and has no member for a status that does not occur, so that its
counts sum to `totalOrders`; and a revenue summary over the orders with
`paymentStatus = 'paid'`: the sum of their `totalAmount`, that sum divided by
their number, and the number of their item entries, or the zero summary when
no order is paid. -/
theorem getOrderAnalytics_summary (env : Env) (w : World) (hf : env.findErr = none) :
    ∃ a, getOrderAnalytics env w = .ok a ∧
      a.totalOrders = w.orders.length ∧
      (∀ s, a.statusBreakdown.lookup s =
        if s ∈ w.orders.map (fun o => o.status) then
          some (w.orders.filter (fun o => o.status = s)).length
        else none) ∧
      (a.statusBreakdown.map (fun p => p.2)).sum = a.totalOrders ∧
      (w.orders.filter (fun o => o.paymentStatus = "paid") ≠ [] →
        a.revenue.totalRevenue =
          ((w.orders.filter (fun o => o.paymentStatus = "paid")).map
            (fun o => o.totalAmount)).sum ∧
        a.revenue.avgOrderValue =
          ((w.orders.filter (fun o => o.paymentStatus = "paid")).map
            (fun o => o.totalAmount)).sum /
            ((w.orders.filter (fun o => o.paymentStatus = "paid")).length : ℚ) ∧
        a.revenue.totalItems =
          ((w.orders.filter (fun o => o.paymentStatus = "paid")).map
            (fun o => o.items.length)).sum) ∧
      (w.orders.filter (fun o => o.paymentStatus = "paid") = [] →
        a.revenue = { totalRevenue := 0, avgOrderValue := 0, totalItems := 0,
                      groupRow := false }) := by
  have hpaid : w.orders.filter (fun o => o.paymentStatus == "paid") =
      w.orders.filter (fun o => o.paymentStatus = "paid") := by
    apply List.filter_congr
    intro o _
    simp [beq_eq_decide]
  unfold getOrderAnalytics
  simp only [hf]
  refine ⟨_, rfl, rfl, ?_, ?_, ?_, ?_⟩
  · intro s
    simp only [statusBreakdown_eq]
    unfold groupByStatus
    rw [lookup_map_self (fun s => List.count s (w.orders.map (fun o => o.status)))]
    simp only [List.mem_dedup, count_status]
  · simp only [statusBreakdown_eq]
    unfold groupByStatus
    simp only [List.map_map]
    have : ((fun p : String × Nat => p.2) ∘
        fun s => (s, List.count s (w.orders.map (fun o => o.status)))) =
        fun s => List.count s (w.orders.map (fun o => o.status)) := by
      funext x; rfl
    rw [this, List.sum_map_count_dedup_eq_length, List.length_map]
  · intro hne
    have hemp : (w.orders.filter (fun o => o.paymentStatus = "paid")).isEmpty = false := by
      cases hl : w.orders.filter (fun o => o.paymentStatus = "paid") with
      | nil => exact absurd hl hne
      | cons a as => rfl
    simp only [revenueData, hpaid, hemp]
    exact ⟨rfl, rfl, rfl⟩
  · intro he
    simp only [revenueData, hpaid, he]
    rfl

/-- Witness of C21: three stored orders, one of them paid. -/
theorem getOrderAnalytics_summary_witness :
    ∃ a, getOrderAnalytics sampleEnv threeOrdersWorld = .ok a ∧
      a.totalOrders = 3 ∧
      a.statusBreakdown.lookup "delivered" = some 1 ∧
      a.statusBreakdown.lookup "shipped" = none ∧
      (a.statusBreakdown.map (fun p => p.2)).sum = a.totalOrders ∧
      a.revenue.totalItems = 1 :=
  let ⟨a, h1, h2, h3, h4, h5, _⟩ := getOrderAnalytics_summary sampleEnv threeOrdersWorld rfl
  ⟨a, h1, h2, (h3 "delivered").trans (by decide), (h3 "shipped").trans (by decide), h4,
    (h5 (by decide)).2.2.trans (by decide)⟩

/-! ## Two status updates reading the same version -/

theorem updateOrderStatus_eq_load_write (env : Env) (w : World) (id status : String)
    (note : Option String) :
    updateOrderStatus env w id status note =
      match loadOrder env w id with
      | .error r => (r, w)
      | .ok order => writeStatus env w order status note := by
  unfold updateOrderStatus loadOrder writeStatus
  cases env.findErr with
  | some e => rfl
  | none =>
    cases findById w.orders id with
    | none => rfl
    | some o => rfl

theorem writeStatus_allowed {env : Env} {o : Order} {status : String} (w : World)
    (note : Option String) (ha : transitionAllowed o.status status = true)
    (hs : env.saveErr = none) (hp : env.publishErr = none) :
    (writeStatus env w o status note).1 =
      .json 200 (.orderUpdated "Order status updated" (applyStatus o status note)) := by
  unfold writeStatus publishEvent
  simp only [ha, hs, hp]
  cases hc : w.channel <;> simp [hc]

theorem writeStatus_never_conflict (nodeEnv : Option String) (env : Env) (w : World)
    (o : Order) (status : String) (note : Option String) (body : Body) :
    respond nodeEnv (writeStatus env w o status note).1 ≠ .json 409 body := by
  have herr : ∀ e : JsError, errorHandler nodeEnv e.thrown ≠ .json 409 body := by
    intro e
    unfold errorHandler JsError.thrown statusCodeOr500
    split
    · simp
    · split <;> simp
  unfold writeStatus publishEvent
  cases ha : transitionAllowed o.status status with
  | false => simp [ha, respond, invalidTransition]
  | true =>
    cases hs : env.saveErr with
    | some e => simpa [ha, respond] using herr e
    | none =>
      cases hc : w.channel with
      | false => simp [ha, hc, respond]
      | true =>
        cases hp : env.publishErr with
        | some e => simpa [ha, hc, respond] using herr e
        | none => simp [ha, hc, respond]

/-- C24, counterexample: two calls load the pending sample order in the same
version; the first confirms it, the second, still holding the document it
loaded, cancels it. Both transitions are legal from `pending`, and the second
write is answered 200, not rejected. Were the store to reject the second save
by a version check of its own, the caller would get 500 "Internal Server
Error", not a Conflict. -/
theorem stale_write_accepted :
    (loadOrder sampleEnv (sampleWorld "pending" "paid") "o1").toOption =
        some (sampleOrder "pending" "paid") ∧
      transitionAllowed "pending" "confirmed" = true ∧
      transitionAllowed "pending" "cancelled" = true ∧
      (writeStatus sampleEnv (sampleWorld "pending" "paid") (sampleOrder "pending" "paid")
        "confirmed" none).1.isSuccess = true ∧
      (writeStatus sampleEnv
        (writeStatus sampleEnv (sampleWorld "pending" "paid") (sampleOrder "pending" "paid")
          "confirmed" none).2
        (sampleOrder "pending" "paid") "cancelled" none).1 =
        .json 200 (.orderUpdated "Order status updated"
          (applyStatus (sampleOrder "pending" "paid") "cancelled" none)) ∧
      respond (some "production")
        (writeStatus versionErrorEnv
          (writeStatus sampleEnv (sampleWorld "pending" "paid") (sampleOrder "pending" "paid")
            "confirmed" none).2
          (sampleOrder "pending" "paid") "cancelled" none).1 =
        .json 500 (.error "Internal Server Error" "Something went wrong") := by
  refine ⟨rfl, by decide, by decide, by decide, rfl, by decide⟩

/-- C24, amended: when two `updateOrderStatus` calls have loaded the same
document and both request a transition that is legal from its status, both
writes are answered 200 "Order status updated" (their saves and publishes
going through): the controller compares no version. Whatever the store and
the broker do, no write is answered with a 409 Conflict: a save the store
rejects is handed to the error handler, which answers 422 for an error named
`ValidationError`, 400 for a `CastError`, and 500 "Internal Server Error" for
every other error. -/
theorem stale_writes_both_succeed (env1 env2 : Env) (w : World) (id : String) (o : Order)
    (s1 s2 : String) (n1 n2 : Option String)
    (hload1 : loadOrder env1 w id = .ok o) (_hload2 : loadOrder env2 w id = .ok o)
    (ha1 : transitionAllowed o.status s1 = true) (ha2 : transitionAllowed o.status s2 = true)
    (hs1 : env1.saveErr = none) (hp1 : env1.publishErr = none)
    (hs2 : env2.saveErr = none) (hp2 : env2.publishErr = none) :
    (writeStatus env1 w o s1 n1).1 =
        .json 200 (.orderUpdated "Order status updated" (applyStatus o s1 n1)) ∧
      (writeStatus env2 (writeStatus env1 w o s1 n1).2 o s2 n2).1 =
        .json 200 (.orderUpdated "Order status updated" (applyStatus o s2 n2)) ∧
      updateOrderStatus env1 w id s1 n1 = writeStatus env1 w o s1 n1 ∧
      (∀ nodeEnv env w' body,
        respond nodeEnv (writeStatus env w' o s2 n2).1 ≠ .json 409 body) ∧
      ∀ nodeEnv env w' e, env.saveErr = some e →
        (writeStatus env w' o s2 n2).2 = w' ∧
        (e.name = "ValidationError" →
          respond nodeEnv (writeStatus env w' o s2 n2).1 =
            .json 422 (.error "Validation Error" e.message)) ∧
        (e.name ≠ "ValidationError" → e.name = "CastError" →
          ∃ message, respond nodeEnv (writeStatus env w' o s2 n2).1 =
            .json 400 (.error "Bad Request" message)) ∧
        (e.name ≠ "ValidationError" → e.name ≠ "CastError" →
          respond nodeEnv (writeStatus env w' o s2 n2).1 =
            .json 500 (.error "Internal Server Error"
              (if nodeEnv = some "production" then "Something went wrong" else e.message))) := by
  refine ⟨writeStatus_allowed w n1 ha1 hs1 hp1, writeStatus_allowed _ n2 ha2 hs2 hp2, ?_, ?_, ?_⟩
  · rw [updateOrderStatus_eq_load_write, hload1]
  · intro nodeEnv env w' body
    exact writeStatus_never_conflict nodeEnv env w' o s2 n2 body
  · intro nodeEnv env w' e he
    have hw : writeStatus env w' o s2 n2 = (.next e, w') := by
      unfold writeStatus
      simp [ha2, he]
    rw [hw]
    refine ⟨rfl, ?_, ?_, ?_⟩
    · intro h1
      simp [respond, errorHandler, JsError.thrown, h1]
    · intro h1 h2
      refine ⟨"Invalid " ++ "", ?_⟩
      simp only [respond, errorHandler, JsError.thrown, if_neg h1, if_pos h2]
    · intro h1 h2
      simp [respond, errorHandler, JsError.thrown, statusCodeOr500, h1, h2]

/-- Witness of C24 (amended): the two calls of the counterexample. -/
theorem stale_writes_both_succeed_witness :
    (writeStatus sampleEnv (sampleWorld "pending" "paid") (sampleOrder "pending" "paid")
        "confirmed" none).1 =
        .json 200 (.orderUpdated "Order status updated"
          (applyStatus (sampleOrder "pending" "paid") "confirmed" none)) ∧
      (writeStatus sampleEnv
        (writeStatus sampleEnv (sampleWorld "pending" "paid") (sampleOrder "pending" "paid")
          "confirmed" none).2
        (sampleOrder "pending" "paid") "cancelled" none).1 =
        .json 200 (.orderUpdated "Order status updated"
          (applyStatus (sampleOrder "pending" "paid") "cancelled" none)) :=
  have h := stale_writes_both_succeed sampleEnv sampleEnv (sampleWorld "pending" "paid") "o1"
    (sampleOrder "pending" "paid") "confirmed" "cancelled" none none rfl rfl (by decide)
    (by decide) rfl rfl rfl rfl
  ⟨h.1, h.2.1⟩

/-! ## The password rule -/

theorem anyStar_class_nonempty (accept : Char → Bool)
    (hacc : ∀ c, accept c = true → isLineTerminator c = false) (cs : List Char) :
    ((Regex.seq .anyStar (.charClass accept)).run cs).isEmpty = false ↔
      ∃ c ∈ cs.takeWhile (fun c => !isLineTerminator c), accept c = true := by
  induction cs with
  | nil => simp [Regex.run, anyStarRests]
  | cons c rest ih =>
    simp only [Regex.run] at ih ⊢
    cases hterm : isLineTerminator c with
    | true =>
      have hc : accept c = false := by
        cases h : accept c with
        | false => rfl
        | true => rw [hacc c h] at hterm; cases hterm
      simp [anyStarRests, hterm, hc, List.takeWhile]
    | false =>
      cases hc : accept c with
      | true => simp [anyStarRests, hterm, hc, List.takeWhile]
      | false =>
        have key : (((anyStarRests rest).map (Regex.charClass accept).run).flatten).isEmpty =
            false ↔ ∃ c ∈ rest.takeWhile (fun c => !isLineTerminator c), accept c = true := by
          simpa [Regex.run] using ih
        simp only [anyStarRests, hterm, Bool.false_eq_true, if_false, List.map_append,
          List.flatten_append, List.map_cons, List.map_nil, Regex.run, hc, List.takeWhile,
          Bool.not_false, List.mem_cons, exists_eq_or_imp]
        simp only [List.flatten_cons, List.flatten_nil, List.append_nil, false_or]
        exact key

theorem not_terminator_of_class {c : Char} :
    (isLowerAZ c = true → isLineTerminator c = false) ∧
      (isUpperAZ c = true → isLineTerminator c = false) ∧
      (isDigit09 c = true → isLineTerminator c = false) := by
  have h : ∀ lo hi : Char, '0' ≤ lo → hi ≤ 'z' → lo ≤ c → c ≤ hi →
      isLineTerminator c = false := by
    intro lo hi hlo hhi h1 h2
    have h3 : '0' ≤ c := le_trans hlo h1
    have h4 : c ≤ 'z' := le_trans h2 hhi
    have e1 : c ≠ '\n' := by intro e; rw [e] at h3; exact absurd h3 (by decide)
    have e2 : c ≠ '\r' := by intro e; rw [e] at h3; exact absurd h3 (by decide)
    have e3 : c ≠ '\u2028' := by intro e; rw [e] at h4; exact absurd h4 (by decide)
    have e4 : c ≠ '\u2029' := by intro e; rw [e] at h4; exact absurd h4 (by decide)
    simp [isLineTerminator, e1, e2, e3, e4]
  refine ⟨?_, ?_, ?_⟩
  · intro hc
    simp only [isLowerAZ, decide_eq_true_eq] at hc
    exact h 'a' 'z' (by decide) (by decide) hc.1 hc.2
  · intro hc
    simp only [isUpperAZ, decide_eq_true_eq] at hc
    exact h 'A' 'Z' (by decide) (by decide) hc.1 hc.2
  · intro hc
    simp only [isDigit09, decide_eq_true_eq] at hc
    exact h '0' '9' (by decide) (by decide) hc.1 hc.2

theorem passwordRegex_test (p : String) :
    passwordRegex.test p = true ↔
      (∃ c ∈ firstLine p, isLowerAZ c = true) ∧ (∃ c ∈ firstLine p, isUpperAZ c = true) ∧
        (∃ c ∈ firstLine p, isDigit09 c = true) := by
  have h1 := anyStar_class_nonempty isLowerAZ (fun c => not_terminator_of_class.1) p.data
  have h2 := anyStar_class_nonempty isUpperAZ (fun c => not_terminator_of_class.2.1) p.data
  have h3 := anyStar_class_nonempty isDigit09 (fun c => not_terminator_of_class.2.2) p.data
  unfold firstLine
  rw [← h1, ← h2, ← h3]
  unfold Regex.test passwordRegex
  generalize (Regex.seq Regex.anyStar (Regex.charClass isLowerAZ)) = a
  generalize (Regex.seq Regex.anyStar (Regex.charClass isUpperAZ)) = b
  generalize (Regex.seq Regex.anyStar (Regex.charClass isDigit09)) = d
  simp only [Regex.run]
  by_cases ha : a.run p.data = [] <;> by_cases hb : b.run p.data = [] <;>
    by_cases hd : d.run p.data = [] <;> simp [ha, hb, hd, List.isEmpty_iff]

/-- Supporting lemma for the password rule: the two password chains raise no
issue on `p` exactly when `isLength` measures at least 8 characters in `p` and
the first line of `p` (the part before the first line terminator) contains a
letter `a-z`, a letter `A-Z` and a digit; for a `p` without line terminator
and without variation selector this is the rule the messages of the chains
state: at least 8 characters, one lowercase letter, one uppercase letter and
one digit. -/
theorem password_rule (field lengthMessage patternMessage : String) (p : String) :
    (passwordIssues field lengthMessage patternMessage p = [] ↔
        8 ≤ isLengthCount p ∧ (∃ c ∈ firstLine p, isLowerAZ c = true) ∧
          (∃ c ∈ firstLine p, isUpperAZ c = true) ∧
          (∃ c ∈ firstLine p, isDigit09 c = true)) ∧
      ((∀ c ∈ p.data, isLineTerminator c = false ∧ c ≠ '\uFE0F' ∧ c ≠ '\uFE0E') →
        (passwordIssues field lengthMessage patternMessage p = [] ↔
          8 ≤ p.length ∧ (∃ c ∈ p.data, isLowerAZ c = true) ∧
            (∃ c ∈ p.data, isUpperAZ c = true) ∧ (∃ c ∈ p.data, isDigit09 c = true))) := by
  have hmain : passwordIssues field lengthMessage patternMessage p = [] ↔
      8 ≤ isLengthCount p ∧ (∃ c ∈ firstLine p, isLowerAZ c = true) ∧
        (∃ c ∈ firstLine p, isUpperAZ c = true) ∧
        (∃ c ∈ firstLine p, isDigit09 c = true) := by
    rw [← passwordRegex_test]
    unfold passwordIssues isLength
    by_cases hl : 8 ≤ isLengthCount p <;> cases ht : passwordRegex.test p <;> simp [hl]
  refine ⟨hmain, ?_⟩
  intro hnt
  have hfl : firstLine p = p.data := by
    unfold firstLine
    rw [List.takeWhile_eq_self_iff]
    intro c hc
    simp [(hnt c hc).1]
  have hlen : isLengthCount p = p.length := by
    unfold isLengthCount
    have hnil : p.data.filter (fun c => c = '\uFE0F' || c = '\uFE0E') = [] := by
      rw [List.filter_eq_nil_iff]
      intro c hc
      simp [(hnt c hc).2.1, (hnt c hc).2.2]
    rw [hnil]
    rfl
  rw [hmain, hfl, hlen]

/-- Use of the supporting lemma: `SecurePass1` has no line terminator and no
variation selector and is accepted at registration. -/
theorem password_rule_witness :
    registerPasswordIssues "SecurePass1" = [] :=
  ((password_rule "password" "Password must be at least 8 characters"
      "Password must contain uppercase, lowercase, and number" "SecurePass1").2
    (by decide)).mpr (by decide)

/-- C25, at the failing input: the string made of `ABCDEFG1`, a line feed and
`abcdefgh` has 17 characters (so `isLength({ min: 8 })` passes) and contains a
lowercase letter, an uppercase letter and a digit, which is what the message
of the chain asks for ("Password must contain uppercase, lowercase, and
number"); both password chains reject it with that message, because `.` does
not match the line feed and the lookahead for `[a-z]` only sees the first
line. The four strings of the test behave as the claim says: the pattern
accepts `SecurePass1` and rejects `lowercase1`, `UPPERCASE1` and `NoDigits`. -/
theorem password_with_line_feed_rejected :
    "ABCDEFG1\nabcdefgh".length = 17 ∧ isLength 8 "ABCDEFG1\nabcdefgh" = true ∧
      (∃ c ∈ "ABCDEFG1\nabcdefgh".data, isLowerAZ c = true) ∧
      (∃ c ∈ "ABCDEFG1\nabcdefgh".data, isUpperAZ c = true) ∧
      (∃ c ∈ "ABCDEFG1\nabcdefgh".data, isDigit09 c = true) ∧
      registerPasswordIssues "ABCDEFG1\nabcdefgh" =
        [{ field := .top "password",
           message := "Password must contain uppercase, lowercase, and number" }] ∧
      changePasswordIssues "ABCDEFG1\nabcdefgh" =
        [{ field := .top "newPassword",
           message := "New password must contain uppercase, lowercase, and number" }] ∧
      (passwordRegex.test "SecurePass1" = true ∧ passwordRegex.test "lowercase1" = false ∧
        passwordRegex.test "UPPERCASE1" = false ∧ passwordRegex.test "NoDigits" = false) := by
  decide

/-! ## Token validation -/

/-- C26: `validateToken` always ends in an answer (it never calls `next`);
the answer is 200 with `valid: true` and the user's id, email and role exactly
when the token is present, `jwt.verify` accepts it and the user it names
exists and is active; a missing token gives 400 with `valid: false`; every
other case gives 401 with `valid: false` and no user data. -/
theorem validateToken_answers (verify : String → Except JsError Claims)
    (findUser : String → Except JsError (Option User)) (token : Option String) :
    (∃ code valid message user,
        validateToken verify findUser token = .json code (.tokenCheck valid message user)) ∧
      (∀ info, validateToken verify findUser token = .json 200 (.tokenCheck true none (some info)) ↔
        ∃ t claims u, token = some t ∧ t ≠ "" ∧ verify t = .ok claims ∧
          findUser claims.id = .ok (some u) ∧ u.isActive = true ∧
          info = { id := u.id, email := u.email, role := u.role }) ∧
      (token = none ∨ token = some "" →
        validateToken verify findUser token =
          .json 400 (.tokenCheck false (some "Token is required") none)) ∧
      ((∃ t, token = some t ∧ t ≠ "") →
        (¬ ∃ t claims u, token = some t ∧ verify t = .ok claims ∧
          findUser claims.id = .ok (some u) ∧ u.isActive = true) →
        ∃ message, validateToken verify findUser token =
          .json 401 (.tokenCheck false (some message) none)) := by
  unfold validateToken
  cases token with
  | none => simp
  | some t =>
    by_cases ht : t = ""
    · subst ht
      simp
    · cases hv : verify t with
      | error e => simp [ht, hv]
      | ok claims =>
        cases hu : findUser claims.id with
        | error e => simp [ht, hv, hu]
        | ok found =>
          cases found with
          | none => simp [ht, hv, hu]
          | some u =>
            cases ha : u.isActive with
            | false => simp [ht, hv, hu, ha]
            | true =>
              simp only [ht, hv, hu, ha]
              refine ⟨by simp, ?_, by simp [ht], ?_⟩
              · intro info
                constructor
                · intro h
                  simp only [Bool.not_true, Bool.false_eq_true, if_false,
                    AuthOutcome.json.injEq, AuthBody.tokenCheck.injEq, Option.some.injEq,
                    true_and] at h
                  exact ⟨t, claims, u, rfl, ht, hv, hu, ha, h.symm⟩
                · rintro ⟨t', claims', u', h1, -, h3, h4, -, h6⟩
                  cases h1
                  rw [hv] at h3
                  cases h3
                  rw [hu] at h4
                  cases h4
                  simp [h6]
              · intro _ hno
                exact absurd ⟨t, claims, u, rfl, hv, hu, ha⟩ hno

/-- Witness of C26: the sample token of the active sample user is valid; an
absent token gives 400; a token `jwt.verify` rejects gives 401. -/
theorem validateToken_answers_witness :
    validateToken sampleVerify sampleFindUser (some "abc") =
        .json 200 (.tokenCheck true none
          (some { id := "u1", email := "user@example.com", role := "user" })) ∧
      validateToken sampleVerify sampleFindUser none =
        .json 400 (.tokenCheck false (some "Token is required") none) ∧
      ∃ message, validateToken sampleVerify sampleFindUser (some "forged") =
        .json 401 (.tokenCheck false (some message) none) :=
  have h := validateToken_answers sampleVerify sampleFindUser
  ⟨((h (some "abc")).2.1 _).mpr
      ⟨"abc", sampleClaims, sampleUser, rfl, by decide, rfl, rfl, rfl, rfl⟩,
   (h none).2.2.1 (Or.inl rfl),
   (h (some "forged")).2.2.2 ⟨"forged", rfl, by decide⟩
      (by
        rintro ⟨t, claims, u, h1, h2, -⟩
        cases h1
        simp [sampleVerify] at h2)⟩

/-! ## Revoked tokens -/

theorem redisGet_redisSetex (entries : List RedisEntry) (now later seconds : Nat)
    (key value : String) (h : later < now + seconds) :
    redisGet (redisSetex entries now key seconds value) later key = some value := by
  unfold redisGet redisSetex
  rw [List.find?_cons_of_pos _ (by simp [h])]
  rfl

theorem logout_blacklists {env : AuthEnv} {aw : AuthWorld} {header tok : String}
    {claims : Claims} (user : Claims) (hclient : aw.redisClient = true)
    (hr : env.redisErr = none) (htok : bearerToken header = some tok) (hne : tok ≠ "")
    (hdec : env.decode tok = some claims) (hlife : env.now < claims.exp) :
    logout env aw (some header) user =
      (.json 200 (.message "Logged out successfully"),
        { aw with
          entries := redisSetex aw.entries env.now ("blacklist:" ++ tok)
            (claims.exp - env.now) "true" }) := by
  unfold logout blacklistToken
  simp [htok, hne, hdec, hlife, hclient, hr]

/-- C29: once `logout` has blacklisted a token with remaining lifetime
(`now < exp`, Redis connected and answering), at every later call at which the
entry has not expired `isTokenBlacklisted` returns true for the token and
`authenticate` answers 401 "Token has been revoked": it does not call `next`
and does not set `req.user`, whatever `jwt.verify` says about the token. -/
theorem revoked_token_rejected (env1 env2 : AuthEnv) (aw : AuthWorld) (header tok : String)
    (claims user : Claims) (hclient : aw.redisClient = true)
    (hr1 : env1.redisErr = none) (hr2 : env2.redisErr = none)
    (hstart : startsWith header "Bearer " = true)
    (htok : bearerToken header = some tok) (hne : tok ≠ "")
    (hdec : env1.decode tok = some claims) (hlife : env1.now < claims.exp)
    (hentry : env2.now < claims.exp) :
    (logout env1 aw (some header) user).1 = .json 200 (.message "Logged out successfully") ∧
      isTokenBlacklisted env2 (logout env1 aw (some header) user).2 tok = .ok true ∧
      authenticate env2 (logout env1 aw (some header) user).2 (some header) =
        .json 401 (.error "Unauthorized" "Token has been revoked") := by
  rw [logout_blacklists user hclient hr1 htok hne hdec hlife]
  have hget : redisGet (redisSetex aw.entries env1.now ("blacklist:" ++ tok)
      (claims.exp - env1.now) "true") env2.now ("blacklist:" ++ tok) = some "true" :=
    redisGet_redisSetex _ _ _ _ _ _ (by omega)
  have hbl : isTokenBlacklisted env2
      { aw with
        entries := redisSetex aw.entries env1.now ("blacklist:" ++ tok)
          (claims.exp - env1.now) "true" } tok = .ok true := by
    unfold isTokenBlacklisted
    simp [hclient, hr2, hget]
  refine ⟨rfl, hbl, ?_⟩
  unfold authenticate
  simp only [hstart, htok, Option.getD_some, hbl]
  rfl

/-- Witness of C29: the token `abc`, which `jwt.verify` accepts and which
expires at second 2000, authenticates at second 1500; after a logout at
second 1000 the same request at second 1500 is answered 401. -/
theorem revoked_token_rejected_witness :
    authenticate (authEnvAt 1500) connectedAuth (some "Bearer abc") = .pass sampleClaims ∧
      isTokenBlacklisted (authEnvAt 1500)
        (logout (authEnvAt 1000) connectedAuth (some "Bearer abc") sampleClaims).2 "abc" =
        .ok true ∧
      authenticate (authEnvAt 1500)
        (logout (authEnvAt 1000) connectedAuth (some "Bearer abc") sampleClaims).2
        (some "Bearer abc") = .json 401 (.error "Unauthorized" "Token has been revoked") :=
  ⟨by decide,
   (revoked_token_rejected (authEnvAt 1000) (authEnvAt 1500) connectedAuth "Bearer abc" "abc"
    sampleClaims sampleClaims rfl rfl rfl (by decide) (by decide) (by decide) (by decide)
    (by decide) (by decide)).2⟩

end CloudCart
